import Mathlib

/-!
# Control-de-Luces: the MQTT messaging and node-discovery layer

A shallow embedding of `src/src/MQTTManager.{h,cpp}`, of the discovery and heartbeat
messages of the fixture firmware `src/src/node_luminaria.cpp`, and of
`src/lib/CircularBuffer/CircularBuffer.h`.

* An Arduino `String` is a list of characters (`Str`).
* `std::map<String, V>` is an association list kept in ascending key order.
* Everything outside the manager (the `PubSubClient` session, the WiFi stack,
  the ESP runtime and the ArduinoJson codec) is a record of operations
  `Platform τ` over an abstract world state `τ`; every theorem quantifies over it,
  so the transport may answer differently on each call.
* `millis()` is passed to each operation as the argument `now` (a `uint32_t`).
* Calls of user callbacks, of `mqttClient.publish` and of `mqttClient.subscribe` are
  recorded, in order, in the ghost field `trace`; callbacks are assumed not to re-enter
  the manager.
* `SystemLogger` calls have no effect on the manager and are left out.
-/

namespace ControlDeLuces

/-! ## Arduino `String` -/

/-- Arduino `String`, as the list of its characters. -/
abbrev Str := List Char

/-- `String::startsWith(s2)`. -/
def startsWith (s s2 : Str) : Bool := s2.isPrefixOf s

/-- `String::endsWith(s2)`. -/
def endsWith (s s2 : Str) : Bool := s2.isSuffixOf s

/-- `String::substring(left, right)`: the characters at positions `left ≤ i < right`. -/
def substring (s : Str) (left right : Nat) : Str :=
  let l := if left > right then right else left
  let r := if left > right then left else right
  if l ≥ s.length then [] else (s.take (min r s.length)).drop l

/-- `String(const char*)` applied to a buffer: the characters before the first NUL. -/
def cstr (buffer : List Char) : Str := buffer.takeWhile (fun c => c ≠ Char.ofNat 0)

/-- `uint32_t` subtraction `a - b`. -/
def sub32 (a b : Nat) : Nat := (a + 2 ^ 32 - b % 2 ^ 32) % 2 ^ 32

/-! ## `std::map<String, V>` -/

/-- `std::map::find`: the value stored under `k`, if any. -/
def mapFind {β : Type} (k : Str) : List (Str × β) → Option β
  | [] => none
  | (k', v) :: rest => if k' = k then some v else mapFind k rest

/-- `map[k] = v`: replace the value under `k`, or insert it at its place in key order. -/
def mapInsert {β : Type} (k : Str) (v : β) : List (Str × β) → List (Str × β)
  | [] => [(k, v)]
  | (k', v') :: rest =>
    if k' = k then (k, v) :: rest
    else if k < k' then (k, v) :: (k', v') :: rest
    else (k', v') :: mapInsert k v rest

/-- `std::map::erase(k)`. -/
def mapErase {β : Type} (k : Str) : List (Str × β) → List (Str × β)
  | [] => []
  | (k', v') :: rest => if k' = k then rest else (k', v') :: mapErase k rest

/-- The keys of a map, in iteration order. -/
def mapKeys {β : Type} (m : List (Str × β)) : List Str := m.map Prod.fst

/-! ## JSON documents (ArduinoJson) -/

mutual
/-- A JSON value as held by a `JsonDocument` (arrays and floats do not occur in
the payloads of this layer and are not modelled). -/
inductive Json where
  | null
  | bool (b : Bool)
  | int (i : Int)
  | str (s : Str)
  | obj (members : Members)
  deriving DecidableEq, Repr
/-- The members of a JSON object, in insertion order. -/
inductive Members where
  | nil
  | cons (key : Str) (value : Json) (rest : Members)
  deriving DecidableEq, Repr
end

/-- Look a key up among the members of an object. -/
def Members.get (key : Str) : Members → Json
  | .nil => .null
  | .cons k v rest => if k = key then v else Members.get key rest

/-- Set a key among the members of an object (replace, or append at the end). -/
def Members.set (key : Str) (value : Json) : Members → Members
  | .nil => .cons key value .nil
  | .cons k v rest => if k = key then .cons k value rest else .cons k v (Members.set key value rest)

/-- `doc[key]` read: the member, or null when absent or when `doc` is no object. -/
def Json.get (doc : Json) (key : Str) : Json :=
  match doc with
  | .obj ms => ms.get key
  | _ => .null

/-- `doc[key] = value`: a null document becomes an object; a value of another kind is
left as it is. -/
def Json.set (doc : Json) (key : Str) (value : Json) : Json :=
  match doc with
  | .obj ms => .obj (ms.set key value)
  | .null => .obj (.cons key value .nil)
  | other => other

/-- `doc[k1][k2] = value`. -/
def Json.set2 (doc : Json) (k1 k2 : Str) (value : Json) : Json :=
  match doc.get k1 with
  | .obj ms => doc.set k1 (.obj (ms.set k2 value))
  | .null => doc.set k1 (.obj (.cons k2 value .nil))
  | _ => doc

/-- Value of a decimal digit string, most significant digit first. -/
def parseDigits (acc : Nat) : List Char → Option Nat
  | [] => some acc
  | c :: rest => if c.isDigit then parseDigits (acc * 10 + (c.toNat - 48)) rest else none

/-- The integer a JSON string denotes: an optional sign and decimal digits; 0 for any
other text (ArduinoJson also reads floating-point notation, which is not modelled). -/
def parseInteger (s : Str) : Int :=
  match s with
  | '-' :: d :: rest => match parseDigits 0 (d :: rest) with
    | some n => - (n : Int)
    | none => 0
  | '+' :: d :: rest => (parseDigits 0 (d :: rest)).getD 0
  | d :: rest => (parseDigits 0 (d :: rest)).getD 0
  | [] => 0

/-- `variant.as<int>()`: a 32-bit signed integer, 0 when the value is no number or
does not fit. -/
def Json.asInt (v : Json) : Int :=
  let clamp (i : Int) : Int := if -2147483648 ≤ i ∧ i ≤ 2147483647 then i else 0
  match v with
  | .int i => clamp i
  | .bool b => if b then 1 else 0
  | .str s => clamp (parseInteger s)
  | _ => 0

/-! ## Data model (`MQTTManager.h`) -/

/-- `MQTT_BASE_TOPIC`. -/
def MQTT_BASE_TOPIC : Str := "luces".toList
/-- `MQTT_DISCOVERY_TOPIC`. -/
def MQTT_DISCOVERY_TOPIC : Str := "luces/discovery".toList
/-- `MQTT_RECONNECT_DELAY`, in milliseconds. -/
def MQTT_RECONNECT_DELAY : Nat := 5000
/-- `MQTT_QOS_1`. -/
def MQTT_QOS_1 : Nat := 1
/-- `FIRMWARE_VERSION` (`config.h`). -/
def FIRMWARE_VERSION : Str := "0.7.0".toList

/-- `enum NodeType`, as its underlying integer (the decoder casts any `int` to it). -/
abbrev NodeType := Int
/-- Coordinator. -/
def NODE_CENTRAL : NodeType := 0
/-- Lighting fixture. -/
def NODE_LUMINARIA : NodeType := 1
/-- Zone gateway. -/
def NODE_GATEWAY : NodeType := 2
/-- Sensor node. -/
def NODE_SENSOR : NodeType := 3

/-- `enum MQTTState`. -/
inductive MQTTState where
  | MQTT_DISCONNECTED
  | MQTT_CONNECTING
  | MQTT_CONNECTED
  | MQTT_ERROR
  deriving DecidableEq, Repr

/-- `struct MQTTMessage`. -/
structure MQTTMessage where
  topic : Str
  payload : Str
  qos : Nat
  retained : Bool
  timestamp : Nat
  deriving DecidableEq, Repr

/-- `struct NodeInfo`. -/
structure NodeInfo where
  nodeId : Str
  type : NodeType
  ip : Str
  mac : Str
  version : Str
  lastSeen : Nat
  online : Bool
  metadata : Json
  deriving DecidableEq, Repr

/-- `NodeInfo()`: the value-initialised record `getNodeInfo` returns for an unknown id. -/
def NodeInfo.empty : NodeInfo :=
  { nodeId := [], type := 0, ip := [], mac := [], version := [], lastSeen := 0,
    online := false, metadata := .null }

/-- An observable effect of the manager, in the order it happened. -/
inductive Effect where
  /-- The message handler stored under `pattern` was called with `(topic, payload)`. -/
  | message (pattern : Str) (handler : Nat) (topic payload : Str)
  /-- A node-discovered observer was called with `node`. -/
  | discovered (observer : Nat) (node : NodeInfo)
  /-- A connection-state observer was called with `connected`. -/
  | connection (observer : Nat) (connected : Bool)
  /-- A call `mqttClient.publish(topic, payload, retained)` returned `ok`. -/
  | wire (topic payload : Str) (retained : Bool) (ok : Bool)
  /-- A call `mqttClient.subscribe(topic, qos)` returned `ok`. -/
  | subscribed (topic : Str) (qos : Nat) (ok : Bool)
  deriving DecidableEq, Repr

/-- Everything the manager calls but does not own: the `PubSubClient` session, the WiFi
stack, the ESP runtime and the ArduinoJson codec, over a world state `τ`. -/
structure Platform (τ : Type) where
  /-- `mqttClient.connected()`. -/
  connected : τ → Bool × τ
  /-- `mqttClient.publish(topic, payload, retained)`. -/
  publish : Str → Str → Bool → τ → Bool × τ
  /-- `mqttClient.subscribe(topic, qos)`. -/
  subscribe : Str → Nat → τ → Bool × τ
  /-- `mqttClient.unsubscribe(topic)`. -/
  unsubscribe : Str → τ → Bool × τ
  /-- `mqttClient.connect(id, user, pass, willTopic, willQos, willRetain, willMessage)`;
  `user = none` is the overload without credentials. -/
  connect : Str → Option (Str × Str) → Str → Nat → Bool → Str → τ → Bool × τ
  /-- `mqttClient.disconnect()`. -/
  disconnect : τ → τ
  /-- `mqttClient.loop()`: the inbound `(topic, payload bytes)` it hands to the callback. -/
  poll : τ → List (Str × List Char) × τ
  /-- `mqttClient.state()`. -/
  clientState : τ → Int
  /-- `WiFi.status() == WL_CONNECTED`. -/
  wifiConnected : τ → Bool
  /-- `WiFi.localIP().toString()`. -/
  localIP : τ → Str
  /-- `WiFi.macAddress()`. -/
  macAddress : τ → Str
  /-- `WiFi.RSSI()`. -/
  rssi : τ → Int
  /-- `ESP.getFreeHeap()`. -/
  freeHeap : τ → Nat
  /-- `serializeJson(doc, out)`. -/
  serializeJson : Json → Str
  /-- `deserializeJson(doc, input)`; `none` is a `DeserializationError`. -/
  deserializeJson : Str → Option Json

/-- `variant.as<String>()`: the text of a string value, the serialisation of any other. -/
def Json.asString {τ : Type} (P : Platform τ) (v : Json) : Str :=
  match v with
  | .str s => s
  | other => P.serializeJson other

/-- The state of `class MQTTManager`, with the world it talks to (`mqttClient`) and the
ghost `trace` of its observable effects. -/
structure MQTTManager (τ : Type) where
  mqttClient : τ
  state : MQTTState
  clientId : Str
  nodeId : Str
  nodeType : NodeType
  autoDiscovery : Bool
  brokerIP : Str
  brokerPort : Nat
  username : Str
  password : Str
  topicCallbacks : List (Str × Nat)
  discoveryCallbacks : List Nat
  connectionCallbacks : List Nat
  discoveredNodes : List (Str × NodeInfo)
  lastReconnectAttempt : Nat
  lastDiscoveryBroadcast : Nat
  lastHeartbeat : Nat
  subscribedTopics : List Str
  outgoingQueue : List MQTTMessage
  incomingQueue : List MQTTMessage
  trace : List Effect

/-! ## Operations (`MQTTManager.cpp`) -/

section Operations

variable {τ : Type}

/-- `MQTTManager::MQTTManager()`: the manager right after construction, in world `w`. -/
def MQTTManager.init (w : τ) : MQTTManager τ :=
  { mqttClient := w, state := .MQTT_DISCONNECTED, clientId := [], nodeId := [],
    nodeType := NODE_CENTRAL, autoDiscovery := true, brokerIP := [], brokerPort := 1883,
    username := [], password := [], topicCallbacks := [], discoveryCallbacks := [],
    connectionCallbacks := [], discoveredNodes := [], lastReconnectAttempt := 0,
    lastDiscoveryBroadcast := 0, lastHeartbeat := 0, subscribedTopics := [],
    outgoingQueue := [], incomingQueue := [], trace := [] }

/-- `MQTTManager::setNodeInfo`. -/
def MQTTManager.setNodeInfo (m : MQTTManager τ) (id : Str) (type : NodeType) : MQTTManager τ :=
  { m with nodeId := id, nodeType := type }

/-- `MQTTManager::buildTopic`. -/
def buildTopic (subtopic : Str) : Str := MQTT_BASE_TOPIC ++ "/".toList ++ subtopic

/-- `MQTTManager::publish(const String&, const String&, bool)`. -/
def MQTTManager.publish (P : Platform τ) (now : Nat) (m : MQTTManager τ)
    (topic payload : Str) (retained : Bool) : Bool × MQTTManager τ :=
  let c := P.connected m.mqttClient
  if !c.1 then
    let msg : MQTTMessage :=
      { topic := topic, payload := payload, qos := 0, retained := retained, timestamp := now }
    (false, { m with mqttClient := c.2, outgoingQueue := m.outgoingQueue ++ [msg] })
  else
    let r := P.publish topic payload retained c.2
    (r.1, { m with mqttClient := r.2,
                   trace := m.trace ++ [Effect.wire topic payload retained r.1] })

/-- `MQTTManager::publish(const String&, const JsonDocument&, bool)`. -/
def MQTTManager.publishJson (P : Platform τ) (now : Nat) (m : MQTTManager τ)
    (topic : Str) (doc : Json) (retained : Bool) : Bool × MQTTManager τ :=
  MQTTManager.publish P now m topic (P.serializeJson doc) retained

/-- The document `publishStatus` builds. -/
def statusDoc (P : Platform τ) (now : Nat) (m : MQTTManager τ) (status : Str) : Json :=
  (((((Json.null.set "nodeId".toList (.str m.nodeId)).set "status".toList (.str status)).set
    "timestamp".toList (.int now)).set "ip".toList (.str (P.localIP m.mqttClient))).set
    "rssi".toList (.int (P.rssi m.mqttClient))).set "heap".toList (.int (P.freeHeap m.mqttClient))

/-- `MQTTManager::publishStatus`. -/
def MQTTManager.publishStatus (P : Platform τ) (now : Nat) (m : MQTTManager τ)
    (status : Str) : Bool × MQTTManager τ :=
  MQTTManager.publishJson P now m (buildTopic ("status/".toList ++ m.nodeId))
    (statusDoc P now m status) true

/-- `MQTTManager::publishTelemetry`. -/
def MQTTManager.publishTelemetry (P : Platform τ) (now : Nat) (m : MQTTManager τ)
    (telemetry : Json) : Bool × MQTTManager τ :=
  MQTTManager.publishJson P now m (buildTopic ("telemetry/".toList ++ m.nodeId)) telemetry false

/-- The envelope `publishCommand` builds. -/
def commandDoc (now : Nat) (sender command : Str) (params : Json) : Json :=
  (((Json.null.set "from".toList (.str sender)).set "command".toList (.str command)).set
    "params".toList params).set "timestamp".toList (.int now)

/-- `MQTTManager::publishCommand`. -/
def MQTTManager.publishCommand (P : Platform τ) (now : Nat) (m : MQTTManager τ)
    (target command : Str) (params : Json) : Bool × MQTTManager τ :=
  MQTTManager.publishJson P now m (buildTopic ("cmd/".toList ++ target))
    (commandDoc now m.nodeId command params) false

/-- `MQTTManager::broadcastCommand`. -/
def MQTTManager.broadcastCommand (P : Platform τ) (now : Nat) (m : MQTTManager τ)
    (command : Str) (params : Json) : Bool × MQTTManager τ :=
  MQTTManager.publishCommand P now m "all".toList command params

/-- `MQTTManager::sendCommandToNode`. -/
def MQTTManager.sendCommandToNode (P : Platform τ) (now : Nat) (m : MQTTManager τ)
    (nodeId command : Str) (params : Json) : Bool × MQTTManager τ :=
  MQTTManager.publishCommand P now m nodeId command params

/-- `MQTTManager::subscribe(const String&, uint8_t)`. -/
def MQTTManager.subscribe (P : Platform τ) (m : MQTTManager τ) (topic : Str) (qos : Nat) :
    Bool × MQTTManager τ :=
  let c := P.connected m.mqttClient
  if !c.1 then (false, { m with mqttClient := c.2 })
  else
    let r := P.subscribe topic qos c.2
    if r.1 then
      (true, { m with mqttClient := r.2, subscribedTopics := m.subscribedTopics ++ [topic],
                      trace := m.trace ++ [Effect.subscribed topic qos true] })
    else (false, { m with mqttClient := r.2,
                          trace := m.trace ++ [Effect.subscribed topic qos false] })

/-- `MQTTManager::subscribe(const String&, MessageCallback)`; `none` is an empty
`std::function`. -/
def MQTTManager.subscribeWith (P : Platform τ) (m : MQTTManager τ) (topic : Str)
    (callback : Option Nat) : Bool × MQTTManager τ :=
  let m1 := match callback with
    | some h => { m with topicCallbacks := mapInsert topic h m.topicCallbacks }
    | none => m
  MQTTManager.subscribe P m1 topic MQTT_QOS_1

/-- `MQTTManager::unsubscribe`. -/
def MQTTManager.unsubscribe (P : Platform τ) (m : MQTTManager τ) (topic : Str) :
    Bool × MQTTManager τ :=
  let c := P.connected m.mqttClient
  if !c.1 then (false, { m with mqttClient := c.2 })
  else
    let r := P.unsubscribe topic c.2
    if r.1 then
      (true, { m with mqttClient := r.2,
                      subscribedTopics := m.subscribedTopics.filter (fun t => t ≠ topic),
                      topicCallbacks := mapErase topic m.topicCallbacks })
    else (false, { m with mqttClient := r.2 })

/-- `MQTTManager::onMessage`. -/
def MQTTManager.onMessage (m : MQTTManager τ) (topic : Str) (callback : Nat) : MQTTManager τ :=
  { m with topicCallbacks := mapInsert topic callback m.topicCallbacks }

/-- `MQTTManager::onNodeDiscovered`. -/
def MQTTManager.onNodeDiscovered (m : MQTTManager τ) (callback : Nat) : MQTTManager τ :=
  { m with discoveryCallbacks := m.discoveryCallbacks ++ [callback] }

/-- `MQTTManager::onConnect`. -/
def MQTTManager.onConnect (m : MQTTManager τ) (callback : Nat) : MQTTManager τ :=
  { m with connectionCallbacks := m.connectionCallbacks ++ [callback] }

/-- `MQTTManager::onDisconnect`. -/
def MQTTManager.onDisconnect (m : MQTTManager τ) (callback : Nat) : MQTTManager τ :=
  { m with connectionCallbacks := m.connectionCallbacks ++ [callback] }

/-- The document `broadcastDiscovery` builds. -/
def discoveryDoc (P : Platform τ) (m : MQTTManager τ) : Json :=
  (((((((Json.null.set "nodeId".toList (.str m.nodeId)).set "type".toList (.int m.nodeType)).set
    "ip".toList (.str (P.localIP m.mqttClient))).set
    "mac".toList (.str (P.macAddress m.mqttClient))).set
    "version".toList (.str FIRMWARE_VERSION)).set2
    "capabilities".toList "ota".toList (.bool true)).set2
    "capabilities".toList "telemetry".toList (.bool true)).set2
    "capabilities".toList "commands".toList (.bool true)

/-- `MQTTManager::broadcastDiscovery`. -/
def MQTTManager.broadcastDiscovery (P : Platform τ) (now : Nat) (m : MQTTManager τ) :
    MQTTManager τ :=
  let r := MQTTManager.publishJson P now m MQTT_DISCOVERY_TOPIC (discoveryDoc P m) false
  { r.2 with lastDiscoveryBroadcast := now }

/-- `MQTTManager::enableAutoDiscovery`. -/
def MQTTManager.enableAutoDiscovery (P : Platform τ) (now : Nat) (m : MQTTManager τ)
    (enable : Bool) : MQTTManager τ :=
  let m1 := { m with autoDiscovery := enable }
  if enable then
    let c := P.connected m1.mqttClient
    let m2 := { m1 with mqttClient := c.2 }
    if c.1 then MQTTManager.broadcastDiscovery P now m2 else m2
  else m1

/-- The record `processDiscoveryMessage` builds from a decoded document. -/
def decodeNode (P : Platform τ) (now : Nat) (doc : Json) : NodeInfo :=
  { nodeId := (doc.get "nodeId".toList).asString P,
    type := (doc.get "type".toList).asInt,
    ip := (doc.get "ip".toList).asString P,
    mac := (doc.get "mac".toList).asString P,
    version := (doc.get "version".toList).asString P,
    lastSeen := now,
    online := true,
    metadata := doc.get "capabilities".toList }

/-- `MQTTManager::processDiscoveryMessage`. -/
def MQTTManager.processDiscoveryMessage (P : Platform τ) (now : Nat) (m : MQTTManager τ)
    (payload : Str) : MQTTManager τ :=
  match P.deserializeJson payload with
  | none => m
  | some doc =>
    let discoveredNodeId := (doc.get "nodeId".toList).asString P
    if discoveredNodeId = m.nodeId then m
    else
      let node := decodeNode P now doc
      let isNew := (mapFind discoveredNodeId m.discoveredNodes).isNone
      let m1 := { m with discoveredNodes := mapInsert discoveredNodeId node m.discoveredNodes }
      if isNew then
        { m1 with trace := m1.trace ++ m1.discoveryCallbacks.map (fun cb => Effect.discovered cb node) }
      else m1

/-- `MQTTManager::getDiscoveredNodes`. -/
def MQTTManager.getDiscoveredNodes (m : MQTTManager τ) : List NodeInfo :=
  m.discoveredNodes.map Prod.snd

/-- `MQTTManager::getNodeInfo`. -/
def MQTTManager.getNodeInfo (m : MQTTManager τ) (nodeId : Str) : NodeInfo :=
  match mapFind nodeId m.discoveredNodes with
  | some node => node
  | none => NodeInfo.empty

/-- The body of the routing loop of `handleMessage` for one entry of `topicCallbacks`:
the handler calls it makes. -/
def routeEntry (topicStr payloadStr : Str) (pair : Str × Nat) : List Effect :=
  if startsWith topicStr pair.1 || endsWith pair.1 "#".toList then
    if endsWith pair.1 "#".toList then
      let base := substring pair.1 0 (pair.1.length - 1)
      if startsWith topicStr base then [Effect.message pair.1 pair.2 topicStr payloadStr]
      else []
    else if pair.1 = topicStr then [Effect.message pair.1 pair.2 topicStr payloadStr]
    else []
  else []

/-- The routing loop of `handleMessage`, over the entries in map order. -/
def routeAll (topicStr payloadStr : Str) : List (Str × Nat) → List Effect
  | [] => []
  | pair :: rest => routeEntry topicStr payloadStr pair ++ routeAll topicStr payloadStr rest

/-- `MQTTManager::handleMessage(char* topic, byte* payload, unsigned int length)`;
`topic` is the text of the NUL-terminated topic, `payload` the list of the `length`
payload bytes. The `qos` and `retained` fields of
the entry put on the incoming queue are left unset by the source. -/
def MQTTManager.handleMessage (P : Platform τ) (now : Nat) (m : MQTTManager τ)
    (topic : Str) (payload : List Char) : MQTTManager τ :=
  let payloadStr := cstr payload
  let topicStr := topic
  let msg : MQTTMessage :=
    { topic := topicStr, payload := payloadStr, qos := 0, retained := false, timestamp := now }
  let m1 := { m with incomingQueue := m.incomingQueue ++ [msg] }
  if topicStr = MQTT_DISCOVERY_TOPIC then
    MQTTManager.processDiscoveryMessage P now m1 payloadStr
  else
    { m1 with trace := m1.trace ++ routeAll topicStr payloadStr m1.topicCallbacks }

/-- `MQTTManager::connect(const String& id)`. -/
def MQTTManager.connectAs (P : Platform τ) (now : Nat) (m : MQTTManager τ) (id : Str) :
    Bool × MQTTManager τ :=
  if !P.wifiConnected m.mqttClient then
    (false, { m with state := .MQTT_ERROR })
  else
    let willTopic := buildTopic ("status/".toList ++ m.nodeId)
    let willMessage := "\x7b\"online\":false,\"reason\":\"unexpected_disconnect\"\x7d".toList
    let r :=
      if m.username.length > 0 then
        P.connect id (some (m.username, m.password)) willTopic 1 true willMessage m.mqttClient
      else P.connect id none willTopic 1 true willMessage m.mqttClient
    if r.1 then
      let m1 := { m with mqttClient := r.2, state := .MQTT_CONNECTED }
      let m2 := (MQTTManager.publishStatus P now m1 "online".toList).2
      let m3 := (MQTTManager.subscribe P m2
        (buildTopic ("cmd/".toList ++ m2.nodeId ++ "/#".toList)) 0).2
      let m4 := (MQTTManager.subscribe P m3 (buildTopic "cmd/all/#".toList) 0).2
      let m5 := (MQTTManager.subscribe P m4 MQTT_DISCOVERY_TOPIC 0).2
      let m6 := if m5.autoDiscovery then MQTTManager.broadcastDiscovery P now m5 else m5
      (true, { m6 with trace :=
        m6.trace ++ m6.connectionCallbacks.map (fun cb => Effect.connection cb true) })
    else
      let m1 := { m with mqttClient := r.2, state := .MQTT_ERROR }
      (false, { m1 with trace :=
        m1.trace ++ m1.connectionCallbacks.map (fun cb => Effect.connection cb false) })

/-- `MQTTManager::connect()`. -/
def MQTTManager.connect (P : Platform τ) (now : Nat) (m : MQTTManager τ) :
    Bool × MQTTManager τ :=
  MQTTManager.connectAs P now m m.clientId

/-- `MQTTManager::disconnect`. -/
def MQTTManager.disconnect (P : Platform τ) (now : Nat) (m : MQTTManager τ) : MQTTManager τ :=
  let c := P.connected m.mqttClient
  let m1 := { m with mqttClient := c.2 }
  let m2 :=
    if c.1 then
      let m3 := (MQTTManager.publishStatus P now m1 "offline".toList).2
      { m3 with mqttClient := P.disconnect m3.mqttClient }
    else m1
  { m2 with state := .MQTT_DISCONNECTED }

/-- `MQTTManager::isConnected`. -/
def MQTTManager.isConnected (P : Platform τ) (m : MQTTManager τ) : Bool × MQTTManager τ :=
  let c := P.connected m.mqttClient
  (c.1, { m with mqttClient := c.2 })

/-- `MQTTManager::reconnect`. -/
def MQTTManager.reconnect (P : Platform τ) (now : Nat) (m : MQTTManager τ) :
    Bool × MQTTManager τ :=
  let c := P.connected m.mqttClient
  let m1 := { m with mqttClient := c.2 }
  if !c.1 then
    if sub32 now m1.lastReconnectAttempt > MQTT_RECONNECT_DELAY then
      MQTTManager.connect P now { m1 with lastReconnectAttempt := now }
    else (false, m1)
  else (false, m1)

/-- The document `sendHeartbeat` builds. -/
def heartbeatDoc (P : Platform τ) (now : Nat) (m : MQTTManager τ) : Json :=
  ((Json.null.set "nodeId".toList (.str m.nodeId)).set "timestamp".toList (.int now)).set
    "heap".toList (.int (P.freeHeap m.mqttClient))

/-- `MQTTManager::sendHeartbeat`. -/
def MQTTManager.sendHeartbeat (P : Platform τ) (now : Nat) (m : MQTTManager τ) : MQTTManager τ :=
  (MQTTManager.publishJson P now m (buildTopic ("heartbeat/".toList ++ m.nodeId))
    (heartbeatDoc P now m) false).2

/-- The `while` loop of `processOutgoingQueue`; `budget` is `5 - sent`. -/
def outgoingLoop (P : Platform τ) (now : Nat) : Nat → MQTTManager τ → MQTTManager τ
  | 0, m => m
  | budget + 1, m =>
    match m.outgoingQueue with
    | [] => m
    | msg :: _ =>
      let r := MQTTManager.publish P now m msg.topic msg.payload msg.retained
      if r.1 then outgoingLoop P now budget { r.2 with outgoingQueue := r.2.outgoingQueue.drop 1 }
      else r.2

/-- `MQTTManager::processOutgoingQueue`. -/
def MQTTManager.processOutgoingQueue (P : Platform τ) (now : Nat) (m : MQTTManager τ) :
    MQTTManager τ :=
  if m.outgoingQueue.isEmpty then m
  else
    let c := P.connected m.mqttClient
    let m1 := { m with mqttClient := c.2 }
    if !c.1 then m1 else outgoingLoop P now 5 m1

/-- The `while` loop of `processIncomingQueue`; `budget` is `10 - processed`. -/
def incomingLoop : Nat → List MQTTMessage → List MQTTMessage
  | 0, q => q
  | _ + 1, [] => []
  | budget + 1, _ :: rest => incomingLoop budget rest

/-- `MQTTManager::processIncomingQueue`. -/
def MQTTManager.processIncomingQueue (m : MQTTManager τ) : MQTTManager τ :=
  { m with incomingQueue := incomingLoop 10 m.incomingQueue }

/-- The staleness loop at the end of `loop` ("Limpiar nodos offline"), on the registry. -/
def pruneNodes (now : Nat) : List (Str × NodeInfo) → List (Str × NodeInfo)
  | [] => []
  | (k, node) :: rest =>
    (k, if sub32 now node.lastSeen > 600000 then { node with online := false } else node) ::
      pruneNodes now rest

/-- The staleness-pruning step of `loop`. -/
def MQTTManager.pruneStale (now : Nat) (m : MQTTManager τ) : MQTTManager τ :=
  { m with discoveredNodes := pruneNodes now m.discoveredNodes }

/-- The inbound messages `mqttClient.loop()` hands to the callback, each handled by
`handleMessage`. -/
def handleAll (P : Platform τ) (now : Nat) (m : MQTTManager τ) :
    List (Str × List Char) → MQTTManager τ
  | [] => m
  | (topic, payload) :: rest => handleAll P now (MQTTManager.handleMessage P now m topic payload) rest

/-- `MQTTManager::loop`. -/
def MQTTManager.loop (P : Platform τ) (now : Nat) (m : MQTTManager τ) : MQTTManager τ :=
  let c := P.connected m.mqttClient
  let m0 := { m with mqttClient := c.2 }
  if !c.1 then (MQTTManager.reconnect P now m0).2
  else
    let inbound := P.poll m0.mqttClient
    let m1 := handleAll P now { m0 with mqttClient := inbound.2 } inbound.1
    let m2 := MQTTManager.processOutgoingQueue P now m1
    let m3 := MQTTManager.processIncomingQueue m2
    let m4 :=
      if sub32 now m3.lastHeartbeat > 30000 then
        { MQTTManager.sendHeartbeat P now m3 with lastHeartbeat := now }
      else m3
    let m5 :=
      if m4.autoDiscovery && decide (sub32 now m4.lastDiscoveryBroadcast > 300000) then
        MQTTManager.broadcastDiscovery P now m4
      else m4
    MQTTManager.pruneStale now m5

end Operations

/-! ## Drivers and observers used to state the properties -/

section Drivers

variable {τ : Type}

/-- The effects recorded between the states `before` and `after` of one run. -/
def newEffects (before after : MQTTManager τ) : List Effect :=
  after.trace.drop before.trace.length

/-- A sequence of `publish(topic, payload, retained)` calls, all at time `now`. -/
def publishAll (P : Platform τ) (now : Nat) (m : MQTTManager τ) :
    List (Str × Str × Bool) → MQTTManager τ
  | [] => m
  | (topic, payload, retained) :: rest =>
    publishAll P now (MQTTManager.publish P now m topic payload retained).2 rest

/-- The queue entry `publish` builds for `(topic, payload, retained)` at time `now`. -/
def queuedAt (now : Nat) (x : Str × Str × Bool) : MQTTMessage :=
  { topic := x.1, payload := x.2.1, qos := 0, retained := x.2.2, timestamp := now }

/-- A sequence of discovery payloads, each with its arrival time, handed to
`processDiscoveryMessage` in order. -/
def observeAll (P : Platform τ) (m : MQTTManager τ) : List (Str × Nat) → MQTTManager τ
  | [] => m
  | (payload, now) :: rest => observeAll P (MQTTManager.processDiscoveryMessage P now m payload) rest

/-- The discovery records a sequence of payloads carries for the node `self`: for each
payload that decodes and does not announce `self`, the record with the `nodeId`, `type`,
`ip`, `mac`, `version` and `capabilities` fields of its document, its arrival time as
`lastSeen`, and `online` set. -/
def observedRecords (P : Platform τ) (self : Str) : List (Str × Nat) → List NodeInfo
  | [] => []
  | (payload, now) :: rest =>
    match P.deserializeJson payload with
    | none => observedRecords P self rest
    | some doc =>
      if (doc.get "nodeId".toList).asString P = self then observedRecords P self rest
      else
        { nodeId := (doc.get "nodeId".toList).asString P,
          type := (doc.get "type".toList).asInt,
          ip := (doc.get "ip".toList).asString P,
          mac := (doc.get "mac".toList).asString P,
          version := (doc.get "version".toList).asString P,
          lastSeen := now,
          online := true,
          metadata := doc.get "capabilities".toList } :: observedRecords P self rest

/-- Whether an effect is the call of node-discovered observer `cb` for node `id`. -/
def isDiscovery (cb : Nat) (id : Str) : Effect → Bool
  | .discovered o node => decide (o = cb) && decide (node.nodeId = id)
  | _ => false

/-- The `wire` effect of a send of `msg` that the transport answered with `ok`. -/
def wireOf (ok : Bool) (msg : MQTTMessage) : Effect :=
  Effect.wire msg.topic msg.payload msg.retained ok

end Drivers

/-! ## A reference platform for concrete runs -/

/-- Decimal digits of a natural number; `fuel` bounds the number of digits. -/
def natDigits : Nat → Nat → List Char
  | 0, _ => []
  | fuel + 1, n =>
    if n < 10 then [Char.ofNat (48 + n)]
    else natDigits fuel (n / 10) ++ [Char.ofNat (48 + n % 10)]

/-- JSON text of a string: quoted, with quote and backslash escaped. -/
def renderString : Str → Str
  | [] => ['"']
  | c :: rest =>
    if c = '"' ∨ c = '\\' then '\\' :: c :: renderString rest else c :: renderString rest

mutual
/-- Compact JSON text of a value. -/
def renderJson : Json → Str
  | .null => "null".toList
  | .bool true => "true".toList
  | .bool false => "false".toList
  | .int (Int.ofNat n) => natDigits 20 n
  | .int (Int.negSucc n) => '-' :: natDigits 20 (n + 1)
  | .str s => '"' :: renderString s
  | .obj ms => '\x7b' :: renderMembers ms
/-- Compact JSON text of the members of an object, with the closing brace. -/
def renderMembers : Members → Str
  | .nil => ['\x7d']
  | .cons k v .nil => '"' :: renderString k ++ ':' :: renderJson v ++ ['\x7d']
  | .cons k v rest => '"' :: renderString k ++ ':' :: renderJson v ++ ',' :: renderMembers rest
end

/-- Read a JSON string body up to its closing quote; `acc` holds the characters read,
latest first. -/
def readString : List Char → List Char → Option (Str × List Char)
  | [], _ => none
  | c :: rest, acc =>
    if c = '"' then some (acc.reverse, rest)
    else if c = '\\' then
      match rest with
      | [] => none
      | d :: rest2 => readString rest2 (d :: acc)
    else readString rest (c :: acc)

/-- Read the digits of an unsigned number. -/
def readNat : List Char → Nat → Nat × List Char
  | [], acc => (acc, [])
  | c :: rest, acc => if c.isDigit then readNat rest (acc * 10 + (c.toNat - 48)) else (acc, c :: rest)

mutual
/-- Read one JSON value of compact text; `fuel` bounds the nesting depth. -/
def readJson : Nat → List Char → Option (Json × List Char)
  | 0, _ => none
  | fuel + 1, cs =>
    match cs with
    | 'n' :: 'u' :: 'l' :: 'l' :: rest => some (.null, rest)
    | 't' :: 'r' :: 'u' :: 'e' :: rest => some (.bool true, rest)
    | 'f' :: 'a' :: 'l' :: 's' :: 'e' :: rest => some (.bool false, rest)
    | '"' :: rest =>
      match readString rest [] with
      | some (s, rest2) => some (.str s, rest2)
      | none => none
    | '\x7b' :: '\x7d' :: rest => some (.obj .nil, rest)
    | '\x7b' :: rest =>
      match readMembers fuel rest with
      | some (ms, rest2) => some (.obj ms, rest2)
      | none => none
    | '-' :: d :: rest =>
      if d.isDigit then
        let r := readNat (d :: rest) 0
        some (.int (- (r.1 : Int)), r.2)
      else none
    | d :: rest =>
      if d.isDigit then
        let r := readNat (d :: rest) 0
        some (.int (r.1 : Int), r.2)
      else none
    | [] => none
/-- Read the members of an object up to and including its closing brace. -/
def readMembers : Nat → List Char → Option (Members × List Char)
  | 0, _ => none
  | fuel + 1, cs =>
    match cs with
    | '"' :: rest =>
      match readString rest [] with
      | some (k, ':' :: rest2) =>
        match readJson fuel rest2 with
        | some (v, ',' :: rest3) =>
          match readMembers fuel rest3 with
          | some (ms, rest4) => some (.cons k v ms, rest4)
          | none => none
        | some (v, '\x7d' :: rest3) => some (.cons k v .nil, rest3)
        | _ => none
      | _ => none
    | _ => none
end

/-- Decode a whole compact JSON text. -/
def parseJson (s : Str) : Option Json :=
  match readJson (s.length + 1) s with
  | some (v, []) => some v
  | _ => none

/-- Take the next answer of a scripted transport (`false` once the script is used up). -/
def nextAnswer : List Bool → Bool × List Bool
  | [] => (false, [])
  | b :: rest => (b, rest)

/-- A platform whose world is the list of the transport's upcoming answers: every call
of `connected`, `publish`, `subscribe`, `unsubscribe` and `connect` takes the next one.
WiFi is up, nothing is inbound, and the codec is `renderJson` / `parseJson`. -/
def scripted : Platform (List Bool) :=
  { connected := nextAnswer
    publish := fun _ _ _ w => nextAnswer w
    subscribe := fun _ _ w => nextAnswer w
    unsubscribe := fun _ w => nextAnswer w
    connect := fun _ _ _ _ _ _ w => nextAnswer w
    disconnect := fun w => w
    poll := fun w => ([], w)
    clientState := fun _ => 0
    wifiConnected := fun _ => true
    localIP := fun _ => "192.168.1.7".toList
    macAddress := fun _ => "AA:BB:CC:00:11:22".toList
    rssi := fun _ => -60
    freeHeap := fun _ => 30000
    serializeJson := renderJson
    deserializeJson := parseJson }

/-! ## Concrete scenarios -/

/-- Manager with one handler (number 7) registered under the pattern `a/b/#`. -/
def wildcardManager : MQTTManager (List Bool) :=
  MQTTManager.onMessage (MQTTManager.init []) "a/b/#".toList 7

/-- Manager with handler 1 under `a/b/c`, handler 2 under `a/#` and handler 3 under `a/x`. -/
def threeHandlers : MQTTManager (List Bool) :=
  MQTTManager.onMessage (MQTTManager.onMessage (MQTTManager.onMessage (MQTTManager.init [])
    "a/b/c".toList 1) "a/#".toList 2) "a/x".toList 3

/-- Manager that queued `luces/cmd/LUM_1` while its transport was disconnected. -/
def oneQueued : MQTTManager (List Bool) :=
  (MQTTManager.publish scripted 10 (MQTTManager.init []) "luces/cmd/LUM_1".toList
    "off".toList false).2

/-- The scripted platform with a transport that always reports disconnected. -/
def alwaysDown : Platform (List Bool) :=
  { scripted with connected := fun w => (false, w) }

/-- The scripted platform with a transport that always reports connected; the script
answers the sends. -/
def alwaysUp : Platform (List Bool) :=
  { scripted with connected := fun w => (true, w) }

/-- The latest record for node `id` in a sequence of discovery records. -/
def latestRecord (id : Str) (obs : List NodeInfo) : Option NodeInfo :=
  obs.reverse.find? (fun r => decide (r.nodeId = id))

/-- The first record for node `id` in a sequence of discovery records. -/
def firstRecord (id : Str) (obs : List NodeInfo) : Option NodeInfo :=
  obs.find? (fun r => decide (r.nodeId = id))

/-- The invariant of the registry: keys in strictly ascending order (a `std::map`), each
record stored under its own `nodeId`. -/
def RegistryOk (reg : List (Str × NodeInfo)) : Prop :=
  (mapKeys reg).Pairwise (· < ·) ∧ ∀ p ∈ reg, p.2.nodeId = p.1

/-- A coordinator named `CENTRAL` with one node-discovered observer (number 5). -/
def coordinator : MQTTManager (List Bool) :=
  MQTTManager.onNodeDiscovered
    (MQTTManager.setNodeInfo (MQTTManager.init []) "CENTRAL".toList NODE_CENTRAL) 5

/-- The discovery payload of fixture `LUM_7` with the given `dimming` capability. -/
def fixtureAnnouncement (dimming : Bool) : Str :=
  renderJson
    (((Json.null.set "nodeId".toList (.str "LUM_7".toList)).set "type".toList (.int 1)).set2
      "capabilities".toList "dimming".toList (.bool dimming))

/-- The coordinator after a successful connect, after hearing fixture `LUM_7` announce
itself at time 1000, with the connection lost afterwards (the script is used up). -/
def heardThenLost : MQTTManager (List Bool) :=
  MQTTManager.handleMessage scripted 1000
    (MQTTManager.connect scripted 0
      { coordinator with mqttClient := List.replicate 11 true }).2
    MQTT_DISCOVERY_TOPIC (fixtureAnnouncement false)

/-- The payloads an operation sent or queued on `topic`: those of the sends recorded
between `before` and `after`, then those of the entries added to the outgoing queue. -/
def emittedOn {τ : Type} (topic : Str) (before after : MQTTManager τ) : List Str :=
  (newEffects before after).filterMap (fun e =>
    match e with
    | .wire t p _ _ => if t = topic then some p else none
    | _ => none) ++
  ((after.outgoingQueue.drop before.outgoingQueue.length).filter
    (fun msg => decide (msg.topic = topic))).map MQTTMessage.payload

/-- The capability flags every `MQTTManager` node announces. -/
def managerCapabilities : Json :=
  .obj (.cons "ota".toList (.bool true) (.cons "telemetry".toList (.bool true)
    (.cons "commands".toList (.bool true) .nil)))

/-- A node named `GW_3` of type gateway. -/
def gateway : MQTTManager (List Bool) :=
  MQTTManager.setNodeInfo (MQTTManager.init []) "GW_3".toList NODE_GATEWAY

/-- A manager that subscribed `luces/zone/A/#` with handler 4 while connected, after
which the connection was lost (the script is used up). -/
def zoneSubscriber : MQTTManager (List Bool) :=
  (MQTTManager.subscribeWith scripted (MQTTManager.init [true, true])
    "luces/zone/A/#".toList (some 4)).2

/-- Whether an effect is a call of a connection-state observer. -/
def isConnection : Effect → Bool
  | .connection _ _ => true
  | _ => false

/-- The `(topic, qos)` of the `mqttClient.subscribe` calls among a list of effects. -/
def subscribeCalls : List Effect → List (Str × Nat)
  | [] => []
  | .subscribed topic qos _ :: rest => (topic, qos) :: subscribeCalls rest
  | _ :: rest => subscribeCalls rest

/-- A set `Up` of worlds in which the link is up and stays up: the transport reports
connected and accepts every send, and no call made while connected leaves the set. -/
structure LinkUp {τ : Type} (P : Platform τ) (Up : τ → Prop) : Prop where
  connected : ∀ w, Up w → (P.connected w).1 = true ∧ Up (P.connected w).2
  publish : ∀ t p r w, Up w → (P.publish t p r w).1 = true ∧ Up (P.publish t p r w).2
  subscribe : ∀ t q w, Up w → Up (P.subscribe t q w).2
  poll : ∀ w, Up w → Up (P.poll w).2

/-- The part of the manager that only `connect`, `disconnect` and the registration calls
write is the same in `m` and `m'`, and the trace of `m'` is the trace of `m` followed by
effects that are not calls of connection-state observers. -/
def Framed {τ : Type} (m m' : MQTTManager τ) : Prop :=
  m'.state = m.state ∧ m'.nodeId = m.nodeId ∧ m'.autoDiscovery = m.autoDiscovery ∧
  m'.connectionCallbacks = m.connectionCallbacks ∧
  m'.lastReconnectAttempt = m.lastReconnectAttempt ∧
  ∃ l, m'.trace = m.trace ++ l ∧ ∀ e ∈ l, isConnection e = false

/-- A step made while the link is up: `m'` is `Framed` from `m`, its world is still in
`Up`, the outgoing queue is untouched, and `calls` are the subscriptions it made. -/
def UpStep {τ : Type} (Up : τ → Prop) (calls : List (Str × Nat)) (m m' : MQTTManager τ) :
    Prop :=
  Up m'.mqttClient ∧ m'.outgoingQueue = m.outgoingQueue ∧
  m'.state = m.state ∧ m'.nodeId = m.nodeId ∧ m'.autoDiscovery = m.autoDiscovery ∧
  m'.connectionCallbacks = m.connectionCallbacks ∧
  ∃ l, m'.trace = m.trace ++ l ∧ (∀ e ∈ l, isConnection e = false) ∧
    subscribeCalls l = calls

/-- A platform whose world is the state of the link: the transport answers every call
with it, and a connect brings the link up. WiFi is up, nothing is inbound, and the codec
is `renderJson` / `parseJson`. -/
def switched : Platform Bool :=
  { connected := fun w => (w, w)
    publish := fun _ _ _ w => (w, w)
    subscribe := fun _ _ w => (w, w)
    unsubscribe := fun _ w => (w, w)
    connect := fun _ _ _ _ _ _ _ => (true, true)
    disconnect := fun _ => false
    poll := fun w => ([], w)
    clientState := fun _ => 0
    wifiConnected := fun _ => true
    localIP := fun _ => "192.168.1.7".toList
    macAddress := fun _ => "AA:BB:CC:00:11:22".toList
    rssi := fun _ => -60
    freeHeap := fun _ => 30000
    serializeJson := renderJson
    deserializeJson := parseJson }

/-- The answer of the `mqttClient.connect` call that `connect(id)` makes, with the
credentials when a user name is set. -/
def linkAttempt {τ : Type} (P : Platform τ) (m : MQTTManager τ) (id : Str) : Bool × τ :=
  if m.username.length > 0 then
    P.connect id (some (m.username, m.password)) (buildTopic ("status/".toList ++ m.nodeId))
      1 true "\x7b\"online\":false,\"reason\":\"unexpected_disconnect\"\x7d".toList m.mqttClient
  else
    P.connect id none (buildTopic ("status/".toList ++ m.nodeId))
      1 true "\x7b\"online\":false,\"reason\":\"unexpected_disconnect\"\x7d".toList m.mqttClient

/-- The steps of `connect` between the transport accepting the connection and the calls
of the observers: the status publication, the three baseline subscriptions and the
discovery broadcast (`connectAs_accepted` shows `connectAs` runs exactly these). -/
def afterLink {τ : Type} (P : Platform τ) (now : Nat) (m1 : MQTTManager τ) : MQTTManager τ :=
  let m2 := (MQTTManager.publishStatus P now m1 "online".toList).2
  let m3 := (MQTTManager.subscribe P m2
    (buildTopic ("cmd/".toList ++ m2.nodeId ++ "/#".toList)) 0).2
  let m4 := (MQTTManager.subscribe P m3 (buildTopic "cmd/all/#".toList) 0).2
  let m5 := (MQTTManager.subscribe P m4 MQTT_DISCOVERY_TOPIC 0).2
  if m5.autoDiscovery then MQTTManager.broadcastDiscovery P now m5 else m5

/-- The three patterns `connect` subscribes, each with QoS 0. -/
def baselineSubscriptions (nodeId : Str) : List (Str × Nat) :=
  [(buildTopic ("cmd/".toList ++ nodeId ++ "/#".toList), 0),
   (buildTopic "cmd/all/#".toList, 0),
   (MQTT_DISCOVERY_TOPIC, 0)]

/-- The coordinator with connection-state observer 9 registered through `onDisconnect`,
after a successful connect, with the connection lost afterwards (the script is used up). -/
def watchedThenLost : MQTTManager (List Bool) :=
  (MQTTManager.connect scripted 0
    { MQTTManager.onDisconnect coordinator 9 with mqttClient := List.replicate 11 true }).2

/-- The gateway `GW_3` after it subscribed `luces/zone/A/#` with handler 4 while
connected. -/
def zoneGateway : MQTTManager (List Bool) :=
  (MQTTManager.subscribeWith scripted { gateway with mqttClient := [true, true] }
    "luces/zone/A/#".toList (some 4)).2

/-- The coordinator `CENTRAL` on the `switched` platform, link down. -/
def offlineCoordinator : MQTTManager Bool :=
  MQTTManager.setNodeInfo (MQTTManager.init false) "CENTRAL".toList NODE_CENTRAL

/-- The parameters `brightness: 80` of a command. -/
def brightness80 : Json :=
  Json.null.set "brightness".toList (.int 80)

/-- The coordinator in a world where two publishes meet a disconnected transport, the
next tick has the transport accept one send and then report disconnected inside the
second, the following tick reconnects, and the tick after that finds every send accepted. -/
def flakyCoordinator : MQTTManager (List Bool) :=
  { coordinator with
    mqttClient :=
      [false, false,
       true, true, true, true, false,
       false, false, true, true, true, true, true, true, true, true, true, true, true,
       true, true, true, true, true, true] }

/-- The run of `flakyCoordinator`: `publish` of a command for `LUM_1` and of one for
`LUM_2` at time 10, then ticks at times 100, 6000 and 6100. -/
def flakyRun : MQTTManager (List Bool) :=
  MQTTManager.loop scripted 6100
    (MQTTManager.loop scripted 6000
      (MQTTManager.loop scripted 100
        (MQTTManager.publish scripted 10
          (MQTTManager.publish scripted 10 flakyCoordinator
            "luces/cmd/LUM_1".toList "on".toList false).2
          "luces/cmd/LUM_2".toList "off".toList false).2))

/-- The operations of `MQTTManager` that claim C19 names. -/
inductive Op where
  | handleMessage (topic : Str) (payload : List Char)
  | processDiscoveryMessage (payload : Str)
  | loop
  | connect
  | disconnect
  | publish (topic payload : Str) (retained : Bool)
  | subscribe (topic : Str) (qos : Nat)
  | unsubscribe (topic : Str)
  | getNodeInfo (nodeId : Str)

/-- The manager after one operation at time `now` (`getNodeInfo` returns a copy of the
record and leaves the manager as it is). -/
def step {τ : Type} (P : Platform τ) (now : Nat) (m : MQTTManager τ) : Op → MQTTManager τ
  | .handleMessage topic payload => MQTTManager.handleMessage P now m topic payload
  | .processDiscoveryMessage payload => MQTTManager.processDiscoveryMessage P now m payload
  | .loop => MQTTManager.loop P now m
  | .connect => (MQTTManager.connect P now m).2
  | .disconnect => MQTTManager.disconnect P now m
  | .publish topic payload retained => (MQTTManager.publish P now m topic payload retained).2
  | .subscribe topic qos => (MQTTManager.subscribe P m topic qos).2
  | .unsubscribe topic => (MQTTManager.unsubscribe P m topic).2
  | .getNodeInfo _ => m

/-- Whether a payload decodes to a discovery record for node `id`. -/
def announces {τ : Type} (P : Platform τ) (id : Str) (payload : Str) : Bool :=
  match P.deserializeJson payload with
  | some doc => decide ((doc.get "nodeId".toList).asString P = id)
  | none => false

/-- Whether an inbound message is a discovery record for node `id`. -/
def inboundAnnounces {τ : Type} (P : Platform τ) (id : Str) (x : Str × List Char) : Bool :=
  decide (x.1 = MQTT_DISCOVERY_TOPIC) && announces P id (cstr x.2)

/-- Whether an operation observes a discovery record for node `id`: the message handed to
`handleMessage` or `processDiscoveryMessage`, or one of the inbound messages of a tick. -/
def observes {τ : Type} (P : Platform τ) (m : MQTTManager τ) (id : Str) : Op → Bool
  | .handleMessage topic payload => inboundAnnounces P id (topic, payload)
  | .processDiscoveryMessage payload => announces P id payload
  | .loop => (P.poll (P.connected m.mqttClient).2).1.any (inboundAnnounces P id)
  | _ => false

/-- A sequence of `onMessage(pattern, handler)` registrations, made in the given order. -/
def registerAll {τ : Type} (m : MQTTManager τ) : List (Str × Nat) → MQTTManager τ
  | [] => m
  | (pattern, handler) :: rest => registerAll (MQTTManager.onMessage m pattern handler) rest

/-- The patterns of the message-handler calls among a list of effects, in call order. -/
def calledPatterns : List Effect → List Str
  | [] => []
  | .message pattern _ _ _ :: rest => pattern :: calledPatterns rest
  | _ :: rest => calledPatterns rest

/-- The timers of the periodic work of `loop` and the auto-discovery flag are the same in
`m` and `m'`. -/
def SameTimers {τ : Type} (m m' : MQTTManager τ) : Prop :=
  m'.autoDiscovery = m.autoDiscovery ∧ m'.lastHeartbeat = m.lastHeartbeat ∧
  m'.lastDiscoveryBroadcast = m.lastDiscoveryBroadcast

/-- The coordinator after hearing fixture `LUM_7` announce itself at clock reading
4294966296, one second before the 32-bit millisecond clock wraps. -/
def heardBeforeWrap : MQTTManager (List Bool) :=
  MQTTManager.handleMessage scripted 4294966296
    { coordinator with lastReconnectAttempt := 4294966296, lastHeartbeat := 4294966296,
                       lastDiscoveryBroadcast := 4294966296 }
    MQTT_DISCOVERY_TOPIC (fixtureAnnouncement false)

/-- The coordinator `CENTRAL` on the `switched` platform after its first successful
connect at time 0. -/
def connectedOnce : MQTTManager Bool :=
  (MQTTManager.connect switched 0 offlineCoordinator).2

/-- The manager `connectedOnce` after a `disconnect` at time 10 and a second successful
connect at time 20. -/
def reconnectedOnce : MQTTManager Bool :=
  (MQTTManager.connect switched 20 (MQTTManager.disconnect switched 10 connectedOnce)).2

/-! ## The fixture firmware (`node_luminaria.cpp`) -/

/-- `NODE_TYPE` of the fixture firmware. -/
def NodeLuminaria.NODE_TYPE : Str := "LUMINARIA".toList

/-- `FIRMWARE_VERSION` of the fixture firmware. -/
def NodeLuminaria.FIRMWARE_VERSION : Str := "0.6.0".toList

/-- The document `sendDiscovery` of the fixture firmware builds, for the node `NODE_ID`
in zone `zoneId` (`nodeState.zoneId`), in world `w`. -/
def NodeLuminaria.discoveryDoc {τ : Type} (P : Platform τ) (w : τ) (NODE_ID zoneId : Str) :
    Json :=
  ((((((((((Json.null.set "nodeId".toList (.str NODE_ID)).set
    "type".toList (.str NodeLuminaria.NODE_TYPE)).set
    "version".toList (.str NodeLuminaria.FIRMWARE_VERSION)).set
    "ip".toList (.str (P.localIP w))).set
    "mac".toList (.str (P.macAddress w))).set
    "rssi".toList (.int (P.rssi w))).set
    "zone".toList (.str zoneId)).set2
    "capabilities".toList "dimming".toList (.bool false)).set2
    "capabilities".toList "current_sensor".toList (.bool true)).set2
    "capabilities".toList "light_sensor".toList (.bool true)).set2
    "capabilities".toList "auto_mode".toList (.bool true)

/-- `sendDiscovery` of the fixture firmware: the `(topic, payload)` it hands to
`mqttClient.publish`. -/
def NodeLuminaria.sendDiscovery {τ : Type} (P : Platform τ) (w : τ) (NODE_ID zoneId : Str) :
    Str × Str :=
  ("luces/discovery".toList, P.serializeJson (NodeLuminaria.discoveryDoc P w NODE_ID zoneId))

/-- `heartbeatCallback` of the fixture firmware at clock reading `now`: the
`(topic, payload)` it hands to `mqttClient.publish`. -/
def NodeLuminaria.heartbeatCallback (NODE_ID : Str) (now : Nat) : Str × Str :=
  ("luces/heartbeat/".toList ++ NODE_ID,
   "\x7b\"nodeId\":\"".toList ++ NODE_ID ++ "\",\"timestamp\":".toList ++ natDigits 20 now ++
     "\x7d".toList)

/-- The capability flags the fixture firmware announces. -/
def fixtureCapabilities : Json :=
  .obj (.cons "dimming".toList (.bool false) (.cons "current_sensor".toList (.bool true)
    (.cons "light_sensor".toList (.bool true) (.cons "auto_mode".toList (.bool true) .nil))))

/-- The coordinator after hearing fixture `LUM_7` announce itself at time 1000 and
receiving the heartbeat of `LUM_7` at time 400000. -/
def heardHeartbeat : MQTTManager (List Bool) :=
  MQTTManager.handleMessage alwaysUp 400000
    (MQTTManager.handleMessage alwaysUp 1000 coordinator MQTT_DISCOVERY_TOPIC
      (fixtureAnnouncement false))
    (NodeLuminaria.heartbeatCallback "LUM_7".toList 400000).1
    (NodeLuminaria.heartbeatCallback "LUM_7".toList 400000).2

/-! ## `CircularBuffer.h` -/

/-- `template <typename T, size_t S> class CircularBuffer`; `buffer` gives the content of
each slot of the array `T buffer[S]`. -/
structure CircularBuffer (T : Type) (S : Nat) where
  buffer : Nat → T
  head : Nat
  tail : Nat
  count : Nat

/-- `CircularBuffer::CircularBuffer()`. -/
def CircularBuffer.init {T : Type} [Inhabited T] {S : Nat} : CircularBuffer T S :=
  { buffer := fun _ => default, head := 0, tail := 0, count := 0 }

/-- `CircularBuffer::push`. -/
def CircularBuffer.push {T : Type} {S : Nat} (b : CircularBuffer T S) (item : T) :
    CircularBuffer T S :=
  let b1 : CircularBuffer T S := { b with buffer := fun i => if i = b.head then item else b.buffer i }
  let b2 : CircularBuffer T S := { b1 with head := (b1.head + 1) % S }
  if b2.count = S then { b2 with tail := (b2.tail + 1) % S }
  else { b2 with count := b2.count + 1 }

/-- `CircularBuffer::isEmpty`. -/
def CircularBuffer.isEmpty {T : Type} {S : Nat} (b : CircularBuffer T S) : Bool :=
  b.count == 0

/-- `CircularBuffer::isFull`. -/
def CircularBuffer.isFull {T : Type} {S : Nat} (b : CircularBuffer T S) : Bool :=
  b.count == S

/-- `CircularBuffer::size`. -/
def CircularBuffer.size {T : Type} {S : Nat} (b : CircularBuffer T S) : Nat := b.count

/-- `CircularBuffer::capacity`. -/
def CircularBuffer.capacity {T : Type} {S : Nat} (_ : CircularBuffer T S) : Nat := S

/-- `CircularBuffer::shift`: the item returned (`T()` when the buffer is empty) and the
buffer afterwards. -/
def CircularBuffer.shift {T : Type} [Inhabited T] {S : Nat} (b : CircularBuffer T S) :
    T × CircularBuffer T S :=
  if b.isEmpty then (default, b)
  else (b.buffer b.tail, { b with tail := (b.tail + 1) % S, count := b.count - 1 })

/-- `CircularBuffer::operator[]`. -/
def CircularBuffer.get {T : Type} {S : Nat} (b : CircularBuffer T S) (index : Nat) : T :=
  b.buffer ((b.tail + index) % S)

/-- `CircularBuffer::clear`. -/
def CircularBuffer.clear {T : Type} {S : Nat} (b : CircularBuffer T S) : CircularBuffer T S :=
  { b with head := 0, tail := 0, count := 0 }

/-- The operations that change a buffer. -/
inductive BufferOp (T : Type) where
  | push (item : T)
  | shift
  | clear

/-- A sequence of operations on a buffer: the items the `shift` calls returned, in order,
and the buffer afterwards. -/
def CircularBuffer.run {T : Type} [Inhabited T] {S : Nat} (b : CircularBuffer T S) :
    List (BufferOp T) → List T × CircularBuffer T S
  | [] => ([], b)
  | .push item :: rest => CircularBuffer.run (b.push item) rest
  | .shift :: rest =>
    ((b.shift).1 :: (CircularBuffer.run (b.shift).2 rest).1,
      (CircularBuffer.run (b.shift).2 rest).2)
  | .clear :: rest => CircularBuffer.run b.clear rest

/-- The bounded drop-oldest FIFO of the specification, `push`: the new item goes to the
end of the list, and a list that already holds `S` items loses its oldest one. -/
def fifoPush {T : Type} (S : Nat) (l : List T) (item : T) : List T :=
  if l.length = S then l.drop 1 ++ [item] else l ++ [item]

/-- The bounded drop-oldest FIFO of the specification, `shift`: the oldest item and the
list without it, or a default item and the unchanged list when the list is empty. -/
def fifoShift {T : Type} [Inhabited T] (l : List T) : T × List T :=
  match l with
  | [] => (default, [])
  | item :: rest => (item, rest)

/-- A sequence of operations on the FIFO of the specification: the items the shifts
returned, in order, and the list afterwards. -/
def fifoRun {T : Type} [Inhabited T] (S : Nat) (l : List T) : List (BufferOp T) → List T × List T
  | [] => ([], l)
  | .push item :: rest => fifoRun S (fifoPush S l item) rest
  | .shift :: rest =>
    ((fifoShift l).1 :: (fifoRun S (fifoShift l).2 rest).1, (fifoRun S (fifoShift l).2 rest).2)
  | .clear :: rest => fifoRun S [] rest

/-- The buffer `b` holds the list `l`: `count` is its length, at most `S`; `head` is
`count` slots after `tail`; the `i`-th item of `l` is in slot `tail + i` (modulo `S`). -/
def Holds {T : Type} {S : Nat} (b : CircularBuffer T S) (l : List T) : Prop :=
  b.count = l.length ∧ l.length ≤ S ∧ b.tail < S ∧ b.head = (b.tail + b.count) % S ∧
  ∀ i, i < l.length → l[i]? = some (b.buffer ((b.tail + i) % S))

/-- The topics of the sends among a list of effects, in the order they were made. -/
def wireTopics : List Effect → List Str
  | [] => []
  | .wire topic _ _ _ :: rest => topic :: wireTopics rest
  | _ :: rest => wireTopics rest

/-- `MQTTManager::generateClientId`; `chipId` is `ESP.getChipId()`. -/
def MQTTManager.generateClientId (chipId now : Nat) : Str :=
  "ESP_".toList ++ natDigits 20 chipId ++ "_".toList ++ natDigits 20 now

/-- `MQTTManager::begin(const String&, uint16_t)`; `chipId` is `ESP.getChipId()`. The
calls that configure the `PubSubClient` (`setServer`, `setBufferSize`, `setCallback`) act
on the world only. -/
def MQTTManager.begin {τ : Type} (P : Platform τ) (now chipId : Nat) (m : MQTTManager τ)
    (broker : Str) (port : Nat) : Bool × MQTTManager τ :=
  let m1 := { m with brokerIP := broker, brokerPort := port }
  let m2 := { m1 with clientId := MQTTManager.generateClientId chipId now }
  let m3 := { m2 with nodeId := m2.clientId }
  MQTTManager.connect P now m3

/-- `MQTTManager::begin(const String&, uint16_t, const String&, const String&)`. -/
def MQTTManager.beginWith {τ : Type} (P : Platform τ) (now chipId : Nat) (m : MQTTManager τ)
    (broker : Str) (port : Nat) (user pass : Str) : Bool × MQTTManager τ :=
  MQTTManager.begin P now chipId { m with username := user, password := pass } broker port

/-- A sequence of `loop()` calls, at the given clock readings. -/
def runTicks {τ : Type} (P : Platform τ) (m : MQTTManager τ) : List Nat → MQTTManager τ
  | [] => m
  | now :: rest => runTicks P (MQTTManager.loop P now m) rest

/-- A manager with connection-state observer 9 after `begin` at time 6000 on a transport
that is down and refuses the connection. -/
def startedOffline : MQTTManager (List Bool) :=
  (MQTTManager.begin alwaysDown 6000 1234 (MQTTManager.onConnect (MQTTManager.init []) 9)
    "192.168.1.100".toList 1883).2

/-- The `(payload, retained)` of the sends on `topic` among a list of effects, in the
order they were made. -/
def wiredOn (topic : Str) : List Effect → List (Str × Bool)
  | [] => []
  | .wire t p r _ :: rest =>
    if t = topic then (p, r) :: wiredOn topic rest else wiredOn topic rest
  | _ :: rest => wiredOn topic rest

/-- The `(payload, retained)` of the entries of an outgoing queue addressed to `topic`. -/
def queuedOn (topic : Str) (q : List MQTTMessage) : List (Str × Bool) :=
  (q.filter (fun msg => decide (msg.topic = topic))).map (fun msg => (msg.payload, msg.retained))

/-- The discovery announcements of a step from `before` to `after`: the sends on the
discovery topic recorded during the step, then the entries for the discovery topic that
wait in the outgoing queue after it. -/
def announcements {τ : Type} (before after : MQTTManager τ) : List (Str × Bool) :=
  wiredOn MQTT_DISCOVERY_TOPIC (newEffects before after) ++
    queuedOn MQTT_DISCOVERY_TOPIC after.outgoingQueue

/-- A step that sends nothing on the discovery topic and leaves nothing for it in the
outgoing queue. -/
def Quiet {τ : Type} (m m' : MQTTManager τ) : Prop :=
  (∃ l, m'.trace = m.trace ++ l ∧ wiredOn MQTT_DISCOVERY_TOPIC l = []) ∧
  queuedOn MQTT_DISCOVERY_TOPIC m'.outgoingQueue = []

/-- The coordinator on the `switched` platform, connected, with auto-discovery switched
off after the connect. -/
def silentCoordinator : MQTTManager Bool :=
  MQTTManager.enableAutoDiscovery switched 30 connectedOnce false

/-- A discovery payload of fixture `LUM_7` with every field of the wire format: the node
is at address `ip` and announces the given `dimming` capability. -/
def lum7Announcement (ip : Str) (dimming : Bool) : Str :=
  renderJson
    ((((((Json.null.set "nodeId".toList (.str "LUM_7".toList)).set "type".toList (.int 1)).set
      "ip".toList (.str ip)).set "mac".toList (.str "5C:CF:7F:00:00:07".toList)).set
      "version".toList (.str "0.6.0".toList)).set2
      "capabilities".toList "dimming".toList (.bool dimming))

/-- A manager that queued a command for `LUM_1` and one for `LUM_2` at time 10 while its
transport was disconnected; the transport will then report connected twice, accept one
send and report disconnected. -/
def flushInterrupted : MQTTManager (List Bool) :=
  (MQTTManager.publish scripted 10
    (MQTTManager.publish scripted 10
      (MQTTManager.init [false, false, true, true, true, false])
      "luces/cmd/LUM_1".toList "on".toList false).2
    "luces/cmd/LUM_2".toList "off".toList false).2

/-- The platform `P` with a record of its sends: the second component of the world lists
the `(topic, payload, retained)` that `mqttClient.publish` was called with, in call
order; every call is answered by `P`. -/
def recording {τ : Type} (P : Platform τ) : Platform (τ × List (Str × Str × Bool)) :=
  { connected := fun w => ((P.connected w.1).1, ((P.connected w.1).2, w.2))
    publish := fun t p r w =>
      ((P.publish t p r w.1).1, ((P.publish t p r w.1).2, w.2 ++ [(t, p, r)]))
    subscribe := fun t q w => ((P.subscribe t q w.1).1, ((P.subscribe t q w.1).2, w.2))
    unsubscribe := fun t w => ((P.unsubscribe t w.1).1, ((P.unsubscribe t w.1).2, w.2))
    connect := fun id cred wt q r wm w =>
      ((P.connect id cred wt q r wm w.1).1, ((P.connect id cred wt q r wm w.1).2, w.2))
    disconnect := fun w => (P.disconnect w.1, w.2)
    poll := fun w => ((P.poll w.1).1, ((P.poll w.1).2, w.2))
    clientState := fun w => P.clientState w.1
    wifiConnected := fun w => P.wifiConnected w.1
    localIP := fun w => P.localIP w.1
    macAddress := fun w => P.macAddress w.1
    rssi := fun w => P.rssi w.1
    freeHeap := fun w => P.freeHeap w.1
    serializeJson := P.serializeJson
    deserializeJson := P.deserializeJson }

/-- The coordinator `CENTRAL` on the `switched` platform with a record of its sends, link
down, nothing sent yet. -/
def recordedCoordinator : MQTTManager (Bool × List (Str × Str × Bool)) :=
  MQTTManager.setNodeInfo (MQTTManager.init (false, [])) "CENTRAL".toList NODE_CENTRAL

/-- The coordinator after a successful connect at time 0 during which the link dropped
before the discovery broadcast, so that the announcement was queued, and with
auto-discovery switched off afterwards; the transport answers the next four calls with
`true`. -/
def announcementQueued : MQTTManager (List Bool) :=
  MQTTManager.enableAutoDiscovery scripted 50
    (MQTTManager.connect scripted 0
      { coordinator with
        mqttClient := List.replicate 9 true ++ [false] ++ List.replicate 4 true }).2
    false

/-! ## Theorems -/

section Theorems

variable {τ : Type}

theorem newEffects_of_append (m m' : MQTTManager τ) (l : List Effect)
    (h : m'.trace = m.trace ++ l) : newEffects m m' = l := by
  simp [newEffects, h]

theorem endsWith_hash_iff (pat : Str) :
    endsWith pat "#".toList = true ↔ ∃ base : Str, pat = base ++ ['#'] := by
  have h1 : "#".toList = ['#'] := rfl
  rw [endsWith, h1, List.isSuffixOf_iff_suffix]
  constructor
  · rintro ⟨t, rfl⟩
    exact ⟨t, rfl⟩
  · rintro ⟨t, rfl⟩
    exact ⟨t, rfl⟩

theorem substring_wildcard (base : Str) :
    substring (base ++ ['#']) 0 ((base ++ ['#']).length - 1) = base := by
  simp [substring]

theorem startsWith_iff (s p : Str) : startsWith s p = true ↔ p <+: s := by
  simp [startsWith]

/-- A pattern `base ++ "#"` calls its handler exactly when `base` begins the topic. -/
theorem routeEntry_wildcard (t pl base : Str) (h : Nat) :
    routeEntry t pl (base ++ ['#'], h) =
      if base <+: t then [Effect.message (base ++ ['#']) h t pl] else [] := by
  have hw : endsWith (base ++ ['#']) "#".toList = true := (endsWith_hash_iff _).2 ⟨base, rfl⟩
  unfold routeEntry
  simp only [hw, Bool.or_true, if_true, substring_wildcard, startsWith_iff]

/-- A pattern that does not end in `#` calls its handler exactly for the identical topic. -/
theorem routeEntry_exact (t pl pat : Str) (h : Nat) (hw : endsWith pat "#".toList = false) :
    routeEntry t pl (pat, h) = if pat = t then [Effect.message pat h t pl] else [] := by
  have h1 : "#".toList = ['#'] := rfl
  rw [h1] at hw
  unfold routeEntry
  by_cases he : pat = t
  · subst he
    simp [hw, startsWith]
  · simp [hw, he]

theorem mem_routeAll (t pl : Str) (e : Effect) (cbs : List (Str × Nat)) :
    e ∈ routeAll t pl cbs ↔ ∃ pair ∈ cbs, e ∈ routeEntry t pl pair := by
  induction cbs with
  | nil => simp [routeAll]
  | cons p rest ih => simp [routeAll, ih]

/-- What one entry contributes: nothing, or the one call of its own handler. -/
theorem routeEntry_cases (t pl : Str) (pair : Str × Nat) :
    (routeEntry t pl pair = [] ∧
        ¬ (pair.1 = t ∨ ∃ base : Str, pair.1 = base ++ ['#'] ∧ base <+: t)) ∨
    (routeEntry t pl pair = [Effect.message pair.1 pair.2 t pl] ∧
        (pair.1 = t ∨ ∃ base : Str, pair.1 = base ++ ['#'] ∧ base <+: t)) := by
  obtain ⟨pat, h⟩ := pair
  by_cases hw : endsWith pat "#".toList = true
  · obtain ⟨base, rfl⟩ := (endsWith_hash_iff _).1 hw
    rw [routeEntry_wildcard]
    by_cases hp : base <+: t
    · exact Or.inr ⟨by simp [hp], Or.inr ⟨base, rfl, hp⟩⟩
    · refine Or.inl ⟨by simp [hp], ?_⟩
      rintro (h1 | ⟨b, hb2, hb3⟩)
      · apply hp
        simp only at h1
        rw [← h1]
        exact List.prefix_append _ _
      · have : base = b := List.append_inj_left' hb2 rfl
        exact hp (this ▸ hb3)
  · have hw' : endsWith pat "#".toList = false := by
      cases h : endsWith pat "#".toList
      · rfl
      · exact absurd h hw
    rw [routeEntry_exact _ _ _ _ hw']
    by_cases he : pat = t
    · exact Or.inr ⟨by simp [he], Or.inl he⟩
    · refine Or.inl ⟨by simp [he], ?_⟩
      rintro (h1 | ⟨b, hb, _⟩)
      · exact he h1
      · exact hw ((endsWith_hash_iff _).2 ⟨b, hb⟩)

theorem mem_routeEntry (t pl : Str) (pair : Str × Nat) (e : Effect)
    (he : e ∈ routeEntry t pl pair) :
    e = Effect.message pair.1 pair.2 t pl ∧
      (pair.1 = t ∨ ∃ base : Str, pair.1 = base ++ ['#'] ∧ base <+: t) := by
  rcases routeEntry_cases t pl pair with ⟨h1, _⟩ | ⟨h1, h2⟩
  · rw [h1] at he
    cases he
  · rw [h1] at he
    exact ⟨by simpa using he, h2⟩

theorem processDiscoveryMessage_trace (P : Platform τ) (now : Nat) (m : MQTTManager τ)
    (payload : Str) :
    ∃ added, (MQTTManager.processDiscoveryMessage P now m payload).trace = m.trace ++ added ∧
      ∀ e ∈ added, ∃ cb node, e = Effect.discovered cb node := by
  unfold MQTTManager.processDiscoveryMessage
  cases hd : P.deserializeJson payload with
  | none => exact ⟨[], by simp, by simp⟩
  | some doc =>
    simp only
    split
    · exact ⟨[], by simp, by simp⟩
    · split
      · refine ⟨_, rfl, ?_⟩
        intro e he
        obtain ⟨cb, _, rfl⟩ := List.mem_map.1 he
        exact ⟨cb, _, rfl⟩
      · exact ⟨[], by simp, by simp⟩

/-- Off the discovery topic, `handleMessage` adds exactly the calls of the routing loop. -/
theorem handleMessage_newEffects (P : Platform τ) (now : Nat) (m : MQTTManager τ)
    (topic : Str) (payload : List Char) (hd : topic ≠ MQTT_DISCOVERY_TOPIC) :
    newEffects m (MQTTManager.handleMessage P now m topic payload) =
      routeAll topic (cstr payload) m.topicCallbacks := by
  apply newEffects_of_append
  simp [MQTTManager.handleMessage, hd]

/-- On the discovery topic, `handleMessage` calls no message handler. -/
theorem handleMessage_discovery_newEffects (P : Platform τ) (now : Nat) (m : MQTTManager τ)
    (payload : List Char) :
    ∀ e ∈ newEffects m (MQTTManager.handleMessage P now m MQTT_DISCOVERY_TOPIC payload),
      ∃ cb node, e = Effect.discovered cb node := by
  obtain ⟨added, h1, h2⟩ := processDiscoveryMessage_trace P now
    { m with incomingQueue := m.incomingQueue ++
        [{ topic := MQTT_DISCOVERY_TOPIC, payload := cstr payload, qos := 0, retained := false,
           timestamp := now }] } (cstr payload)
  have : newEffects m (MQTTManager.handleMessage P now m MQTT_DISCOVERY_TOPIC payload) = added := by
    apply newEffects_of_append
    simp only [MQTTManager.handleMessage, if_true]
    exact h1
  rw [this]
  exact h2

/-- C1 (evaluation at the failing input): with a handler registered under `a/b/#`,
`handleMessage` calls it for the topics `a/b/c` and `a/b/c/d`, does not call it for `a/x`,
and does not call it for the bare `a/b` either. -/
theorem C1_wildcard_skips_bare_topic :
    newEffects wildcardManager
        (MQTTManager.handleMessage scripted 0 wildcardManager "a/b".toList "on".toList) = [] ∧
    newEffects wildcardManager
        (MQTTManager.handleMessage scripted 0 wildcardManager "a/b/c".toList "on".toList) =
      [Effect.message "a/b/#".toList 7 "a/b/c".toList "on".toList] ∧
    newEffects wildcardManager
        (MQTTManager.handleMessage scripted 0 wildcardManager "a/b/c/d".toList "on".toList) =
      [Effect.message "a/b/#".toList 7 "a/b/c/d".toList "on".toList] ∧
    newEffects wildcardManager
        (MQTTManager.handleMessage scripted 0 wildcardManager "a/x".toList "on".toList) = [] := by
  decide

/-- C2: a handler registered under a pattern that does not end in `#` is never called by
`handleMessage` for an inbound topic different from the pattern. -/
theorem C2_exact_pattern_needs_identical_topic (P : Platform τ) (now : Nat)
    (m : MQTTManager τ) (pattern topic : Str) (payload : List Char)
    (hw : endsWith pattern "#".toList = false) (hne : topic ≠ pattern) :
    ∀ (h : Nat) (t pl : Str), Effect.message pattern h t pl ∉
      newEffects m (MQTTManager.handleMessage P now m topic payload) := by
  intro h t pl hin
  by_cases hd : topic = MQTT_DISCOVERY_TOPIC
  · subst hd
    obtain ⟨cb, node, he⟩ := handleMessage_discovery_newEffects P now m payload _ hin
    cases he
  · rw [handleMessage_newEffects P now m topic payload hd] at hin
    obtain ⟨q, _, hqe⟩ := (mem_routeAll _ _ _ _).1 hin
    obtain ⟨he, hm⟩ := mem_routeEntry _ _ _ _ hqe
    injection he with e1 _ _ _
    rcases hm with h1 | ⟨b, hb, _⟩
    · exact hne (by rw [e1, h1])
    · have : endsWith pattern "#".toList = true := (endsWith_hash_iff _).2 ⟨b, by rw [e1, hb]⟩
      rw [hw] at this
      cases this

/-- Witness for C2: the pattern `a/b` is a strict beginning of the inbound topic `a/b/c`. -/
theorem C2_exact_pattern_needs_identical_topic_witness :
    endsWith "a/b".toList "#".toList = false ∧ "a/b/c".toList ≠ "a/b".toList ∧
    ∀ (h : Nat) (t pl : Str), Effect.message "a/b".toList h t pl ∉
      newEffects (MQTTManager.onMessage (MQTTManager.init []) "a/b".toList 3)
        (MQTTManager.handleMessage scripted 0
          (MQTTManager.onMessage (MQTTManager.init []) "a/b".toList 3)
          "a/b/c".toList "on".toList) :=
  ⟨by decide, by decide,
    C2_exact_pattern_needs_identical_topic scripted 0 _ "a/b".toList "a/b/c".toList
      "on".toList (by decide) (by decide)⟩

/-- C4: when the transport reports disconnected, `publish` returns `false` and the
outgoing queue afterwards is the queue before followed by one entry carrying the topic,
payload and retained flag of the call. -/
theorem C4_publish_while_disconnected_enqueues (P : Platform τ) (now : Nat)
    (m : MQTTManager τ) (topic payload : Str) (retained : Bool)
    (hdown : (P.connected m.mqttClient).1 = false) :
    (MQTTManager.publish P now m topic payload retained).1 = false ∧
    (MQTTManager.publish P now m topic payload retained).2.outgoingQueue =
      m.outgoingQueue ++
        [{ topic := topic, payload := payload, qos := 0, retained := retained,
           timestamp := now }] := by
  simp [MQTTManager.publish, hdown]

/-- Witness for C4: a second publish on a disconnected transport with one entry queued. -/
theorem C4_publish_while_disconnected_enqueues_witness :
    (scripted.connected oneQueued.mqttClient).1 = false ∧
    (MQTTManager.publish scripted 20 oneQueued "luces/cmd/LUM_7".toList "on".toList true).1
      = false ∧
    (MQTTManager.publish scripted 20 oneQueued "luces/cmd/LUM_7".toList "on".toList
      true).2.outgoingQueue =
      oneQueued.outgoingQueue ++
        [{ topic := "luces/cmd/LUM_7".toList, payload := "on".toList, qos := 0,
           retained := true, timestamp := 20 }] :=
  ⟨by decide, C4_publish_while_disconnected_enqueues scripted 20 oneQueued
    "luces/cmd/LUM_7".toList "on".toList true (by decide)⟩


/-- While the transport reports disconnected, a run of publishes appends its entries. -/
theorem publishAll_disconnected (P : Platform τ) (now : Nat)
    (hdown : ∀ w, (P.connected w).1 = false) (msgs : List (Str × Str × Bool))
    (m : MQTTManager τ) :
    (publishAll P now m msgs).outgoingQueue = m.outgoingQueue ++ msgs.map (queuedAt now) := by
  induction msgs generalizing m with
  | nil => simp [publishAll]
  | cons x rest ih =>
    obtain ⟨topic, payload, retained⟩ := x
    simp only [publishAll, List.map_cons]
    rw [ih]
    simp [MQTTManager.publish, hdown, queuedAt]

/-- C5 (counterexample): no capacity bounds the outgoing queue; `n` publishes on a
disconnected transport leave `n` entries queued, whatever `n` is. -/
theorem C5_outgoing_queue_unbounded :
    ¬ ∃ cap : Nat, ∀ n : Nat,
      (publishAll alwaysDown 0 (MQTTManager.init [])
        (List.replicate n ("luces/cmd/all".toList, "on".toList, false))).outgoingQueue.length
        ≤ cap := by
  rintro ⟨cap, hcap⟩
  have h := hcap (cap + 1)
  rw [publishAll_disconnected alwaysDown 0 (fun _ => rfl)] at h
  simp [MQTTManager.init] at h

/-- C5 (amended): the outgoing queue has no capacity and `publish` never evicts; while the
transport reports disconnected, a run of publishes leaves the queue equal to the queue
before followed by one entry per publish, in call order, so its length grows by the number
of publishes. -/
theorem C5_publish_appends_without_eviction (P : Platform τ) (now : Nat)
    (hdown : ∀ w, (P.connected w).1 = false) (msgs : List (Str × Str × Bool))
    (m : MQTTManager τ) :
    (publishAll P now m msgs).outgoingQueue = m.outgoingQueue ++ msgs.map (queuedAt now) ∧
    (publishAll P now m msgs).outgoingQueue.length = m.outgoingQueue.length + msgs.length := by
  have h := publishAll_disconnected P now hdown msgs m
  refine ⟨h, ?_⟩
  rw [h]
  simp

/-- Witness for C5: two publishes onto a queue that already holds one entry. -/
theorem C5_publish_appends_without_eviction_witness :
    (∀ w, (alwaysDown.connected w).1 = false) ∧
    (publishAll alwaysDown 20 oneQueued
      [("luces/cmd/LUM_7".toList, "on".toList, false),
       ("luces/cmd/LUM_8".toList, "off".toList, true)]).outgoingQueue.length = 3 :=
  ⟨fun _ => rfl,
    (C5_publish_appends_without_eviction alwaysDown 20 (fun _ => rfl)
      [("luces/cmd/LUM_7".toList, "on".toList, false),
       ("luces/cmd/LUM_8".toList, "off".toList, true)] oneQueued).2⟩

set_option maxRecDepth 100000 in
/-- C6 (evaluation at the failing input): the queue holds the commands for `LUM_1` and
`LUM_2` and the transport reports connected when `processOutgoingQueue` starts. The send
of the first entry is accepted; for the second entry the transport reports disconnected
inside `publish`, which is the first failing send, so `k = 1`. The flush has handed the
first entry to the transport and used up all four answers of the transport, but the queue
it leaves is not the old queue without its first entry: the command for `LUM_2` is in it
twice, and it is the old queue without its first `k` entries for no `k`. -/
theorem C6_interrupted_flush_requeues_entry :
    flushInterrupted.outgoingQueue =
      [queuedAt 10 ("luces/cmd/LUM_1".toList, "on".toList, false),
       queuedAt 10 ("luces/cmd/LUM_2".toList, "off".toList, false)] ∧
    flushInterrupted.mqttClient = [true, true, true, false] ∧
    newEffects flushInterrupted
        (MQTTManager.processOutgoingQueue scripted 100 flushInterrupted) =
      [Effect.wire "luces/cmd/LUM_1".toList "on".toList false true] ∧
    (MQTTManager.processOutgoingQueue scripted 100 flushInterrupted).mqttClient = [] ∧
    flushInterrupted.outgoingQueue.drop 1 =
      [queuedAt 10 ("luces/cmd/LUM_2".toList, "off".toList, false)] ∧
    (MQTTManager.processOutgoingQueue scripted 100 flushInterrupted).outgoingQueue =
      [queuedAt 10 ("luces/cmd/LUM_2".toList, "off".toList, false),
       queuedAt 100 ("luces/cmd/LUM_2".toList, "off".toList, false)] ∧
    ∀ k, (MQTTManager.processOutgoingQueue scripted 100 flushInterrupted).outgoingQueue ≠
      flushInterrupted.outgoingQueue.drop k := by
  refine ⟨by decide, by decide, by decide, by decide, by decide, by decide, ?_⟩
  intro k
  rcases k with _ | _ | k
  · decide
  · decide
  · intro h
    have hlen := congrArg List.length h
    rw [List.length_drop] at hlen
    have h2 : (MQTTManager.processOutgoingQueue scripted 100
        flushInterrupted).outgoingQueue.length = 2 := by decide
    have h3 : flushInterrupted.outgoingQueue.length = 2 := by decide
    omega


theorem mapFind_mapInsert {β : Type} (k k' : Str) (v : β) (l : List (Str × β)) :
    mapFind k' (mapInsert k v l) = if k' = k then some v else mapFind k' l := by
  induction l with
  | nil =>
    by_cases h : k' = k
    · simp [mapInsert, mapFind, h]
    · have h' : ¬ k = k' := fun e => h e.symm
      simp [mapInsert, mapFind, h, h']
  | cons p rest ih =>
    obtain ⟨a, b⟩ := p
    by_cases h : k' = k
    · subst h
      by_cases h1 : a = k'
      · simp [mapInsert, mapFind, h1]
      · by_cases h2 : k' < a
        · simp [mapInsert, mapFind, h1, h2]
        · simp [mapInsert, mapFind, h1, h2, ih]
    · have h' : ¬ k = k' := fun e => h e.symm
      by_cases h1 : a = k
      · subst h1
        simp [mapInsert, mapFind, h, h']
      · by_cases h2 : k < a
        · simp [mapInsert, mapFind, h1, h2, h, h']
        · simp [mapInsert, mapFind, h1, h2, h, ih]

theorem mapFind_eq_none {β : Type} (k : Str) (l : List (Str × β)) :
    mapFind k l = none ↔ k ∉ mapKeys l := by
  induction l with
  | nil => simp [mapFind, mapKeys]
  | cons p rest ih =>
    obtain ⟨a, b⟩ := p
    by_cases h : a = k
    · simp only [mapFind, h, if_true, mapKeys, List.map_cons, List.mem_cons, true_or,
        not_true_eq_false, iff_false]
      exact fun e => Option.noConfusion e
    · have h' : ¬ k = a := fun e => h e.symm
      simp only [mapFind, h, if_false, ih, mapKeys, List.map_cons, List.mem_cons, h', false_or]

theorem mem_mapKeys_mapInsert {β : Type} (k k' : Str) (v : β) (l : List (Str × β)) :
    k' ∈ mapKeys (mapInsert k v l) ↔ k' = k ∨ k' ∈ mapKeys l := by
  have h1 := mapFind_eq_none k' (mapInsert k v l)
  have h2 := mapFind_eq_none k' l
  rw [mapFind_mapInsert] at h1
  by_cases h : k' = k
  · simp only [h, if_true, true_or, iff_true] at h1 ⊢
    by_contra hc
    have := h1.2 (h ▸ hc)
    cases this
  · simp only [h, if_false, false_or] at h1 ⊢
    constructor
    · intro hin
      by_contra hc
      exact (h1.1 (h2.2 hc)) hin
    · intro hin
      by_contra hc
      exact (h2.1 (h1.2 hc)) hin

/-- Keys in strictly ascending order: the invariant of a `std::map`. -/
theorem mapInsert_sorted {β : Type} (k : Str) (v : β) (l : List (Str × β))
    (hs : (mapKeys l).Pairwise (· < ·)) : (mapKeys (mapInsert k v l)).Pairwise (· < ·) := by
  induction l with
  | nil => simp [mapInsert, mapKeys]
  | cons p rest ih =>
    obtain ⟨a, b⟩ := p
    simp only [mapKeys, List.map_cons, List.pairwise_cons] at hs
    obtain ⟨ha, hrest⟩ := hs
    by_cases h1 : a = k
    · subst h1
      simp only [mapInsert, if_true, mapKeys, List.map_cons, List.pairwise_cons]
      exact ⟨ha, hrest⟩
    · by_cases h2 : k < a
      · simp only [mapInsert, h1, h2, if_true, if_false, mapKeys, List.map_cons,
          List.pairwise_cons]
        refine ⟨?_, ha, hrest⟩
        intro x hx
        rcases List.mem_cons.1 hx with hx | hx
        · rw [hx]; exact h2
        · exact lt_trans h2 (ha x hx)
      · simp only [mapInsert, h1, h2, if_false, mapKeys, List.map_cons, List.pairwise_cons]
        refine ⟨?_, ih hrest⟩
        intro x hx
        rcases (mem_mapKeys_mapInsert k x v rest).1 hx with hx | hx
        · rw [hx]
          rcases lt_trichotomy a k with h | h | h
          · exact h
          · exact absurd h h1
          · exact absurd h h2
        · exact ha x hx

theorem sorted_nodup (l : List Str) (hs : l.Pairwise (· < ·)) : l.Nodup :=
  List.Pairwise.imp (fun h => ne_of_lt h) hs

theorem mapFind_of_mem {β : Type} (k : Str) (v : β) (l : List (Str × β))
    (hnd : (mapKeys l).Nodup) (hmem : (k, v) ∈ l) : mapFind k l = some v := by
  induction l with
  | nil => cases hmem
  | cons p rest ih =>
    obtain ⟨a, b⟩ := p
    simp only [mapKeys, List.map_cons, List.nodup_cons] at hnd
    rcases List.mem_cons.1 hmem with h | h
    · injection h with h1 h2
      simp [mapFind, h1, h2]
    · have hne : a ≠ k := by
        intro e
        apply hnd.1
        exact List.mem_map.2 ⟨(k, v), h, e.symm⟩
      simp only [mapFind, hne, if_false]
      exact ih hnd.2 h

theorem mem_of_mapFind {β : Type} (k : Str) (v : β) (l : List (Str × β))
    (h : mapFind k l = some v) : (k, v) ∈ l := by
  induction l with
  | nil => simp [mapFind] at h
  | cons p rest ih =>
    obtain ⟨a, b⟩ := p
    by_cases h1 : a = k
    · simp only [mapFind, h1, if_true, Option.some.injEq] at h
      simp [h1, h]
    · simp only [mapFind, h1, if_false] at h
      exact List.mem_cons_of_mem _ (ih h)

theorem latestRecord_cons (id : Str) (n : NodeInfo) (obs : List NodeInfo) :
    latestRecord id (n :: obs) =
      match latestRecord id obs with
      | some r => some r
      | none => if n.nodeId = id then some n else none := by
  unfold latestRecord
  rw [List.reverse_cons, List.find?_append]
  cases h : List.find? (fun r => decide (r.nodeId = id)) obs.reverse with
  | some r => simp
  | none =>
    by_cases hn : n.nodeId = id
    · simp [hn]
    · simp [hn]

theorem firstRecord_cons (id : Str) (n : NodeInfo) (obs : List NodeInfo) :
    firstRecord id (n :: obs) = if n.nodeId = id then some n else firstRecord id obs := by
  unfold firstRecord
  by_cases hn : n.nodeId = id
  · simp [hn]
  · simp [hn]

theorem latestRecord_eq_none (id : Str) (obs : List NodeInfo) :
    latestRecord id obs = none ↔ id ∉ obs.map NodeInfo.nodeId := by
  unfold latestRecord
  rw [List.find?_eq_none]
  simp only [List.mem_reverse, decide_eq_true_eq, List.mem_map, not_exists, not_and]

theorem latestRecord_nodeId (id : Str) (obs : List NodeInfo) (r : NodeInfo)
    (h : latestRecord id obs = some r) : r.nodeId = id := by
  unfold latestRecord at h
  have := List.find?_some h
  simpa using this

theorem decodeNode_nodeId (P : Platform τ) (now : Nat) (doc : Json) :
    (decodeNode P now doc).nodeId = (doc.get "nodeId".toList).asString P := rfl

/-- A payload that does not decode, or that announces this node itself, changes nothing. -/
theorem processDiscoveryMessage_skip (P : Platform τ) (now : Nat) (m : MQTTManager τ)
    (payload : Str)
    (h : P.deserializeJson payload = none ∨
      ∃ doc, P.deserializeJson payload = some doc ∧
        (doc.get "nodeId".toList).asString P = m.nodeId) :
    MQTTManager.processDiscoveryMessage P now m payload = m := by
  rcases h with h | ⟨doc, h1, h2⟩
  · simp only [MQTTManager.processDiscoveryMessage, h]
  · simp only [MQTTManager.processDiscoveryMessage, h1, h2, if_true]

/-- A decoded record of another node is stored under its id; the observers are called
when the id was not in the registry. -/
theorem processDiscoveryMessage_step (P : Platform τ) (now : Nat) (m : MQTTManager τ)
    (payload : Str) (doc : Json) (hdec : P.deserializeJson payload = some doc)
    (hother : (doc.get "nodeId".toList).asString P ≠ m.nodeId) :
    MQTTManager.processDiscoveryMessage P now m payload =
      { m with
        discoveredNodes :=
          mapInsert (decodeNode P now doc).nodeId (decodeNode P now doc) m.discoveredNodes,
        trace := m.trace ++
          (if mapFind (decodeNode P now doc).nodeId m.discoveredNodes = none then
            m.discoveryCallbacks.map (fun cb => Effect.discovered cb (decodeNode P now doc))
           else []) } := by
  rw [decodeNode_nodeId]
  cases hf : mapFind ((doc.get "nodeId".toList).asString P) m.discoveredNodes with
  | none =>
    simp only [MQTTManager.processDiscoveryMessage, hdec, hother, hf, if_false, if_true,
      Option.isNone_none]
  | some v =>
    simp only [MQTTManager.processDiscoveryMessage, hdec, hother, hf, if_false,
      Option.isNone_some, Bool.false_eq_true, reduceCtorEq, List.append_nil]

theorem registryOk_insert (reg : List (Str × NodeInfo)) (n : NodeInfo) (h : RegistryOk reg) :
    RegistryOk (mapInsert n.nodeId n reg) := by
  refine ⟨mapInsert_sorted _ _ _ h.1, ?_⟩
  intro p hp
  obtain ⟨k, v⟩ := p
  have hnd := sorted_nodup _ (mapInsert_sorted n.nodeId n reg h.1)
  have hf := mapFind_of_mem k v _ hnd hp
  rw [mapFind_mapInsert] at hf
  by_cases hk : k = n.nodeId
  · simp only [hk, if_true, Option.some.injEq] at hf
    simp [hk, ← hf]
  · simp only [hk, if_false] at hf
    exact h.2 _ (mem_of_mapFind _ _ _ hf)

theorem countP_notify (cb : Nat) (id : Str) (n : NodeInfo) (cbs : List Nat) :
    (cbs.map (fun c => Effect.discovered c n)).countP (isDiscovery cb id) =
      if n.nodeId = id then cbs.count cb else 0 := by
  induction cbs with
  | nil => simp
  | cons c rest ih =>
    rw [List.map_cons, List.countP_cons, ih, List.count_cons]
    by_cases hn : n.nodeId = id
    · by_cases hc : c = cb
      · simp [isDiscovery, hn, hc]
      · simp [isDiscovery, hn, hc]
    · simp [isDiscovery, hn]

theorem observedRecords_skip (P : Platform τ) (self payload : Str) (now : Nat)
    (rest : List (Str × Nat))
    (h : P.deserializeJson payload = none ∨
      ∃ doc, P.deserializeJson payload = some doc ∧
        (doc.get "nodeId".toList).asString P = self) :
    observedRecords P self ((payload, now) :: rest) = observedRecords P self rest := by
  rcases h with h | ⟨doc, h1, h2⟩
  · simp only [observedRecords, h]
  · simp only [observedRecords, h1, h2, if_true]

theorem observedRecords_step (P : Platform τ) (self payload : Str) (now : Nat)
    (rest : List (Str × Nat)) (doc : Json) (hdec : P.deserializeJson payload = some doc)
    (hother : (doc.get "nodeId".toList).asString P ≠ self) :
    observedRecords P self ((payload, now) :: rest) =
      decodeNode P now doc :: observedRecords P self rest := by
  simp only [observedRecords, hdec, hother, if_false]
  rfl

/-- What a run of discovery payloads does to the registry and to the observers, from any
registry that satisfies the map invariant. -/
theorem observeAll_spec (P : Platform τ) (records : List (Str × Nat)) (m : MQTTManager τ)
    (hok : RegistryOk m.discoveredNodes) :
    RegistryOk (observeAll P m records).discoveredNodes ∧
    (∀ id, mapFind id (observeAll P m records).discoveredNodes =
      match latestRecord id (observedRecords P m.nodeId records) with
      | some r => some r
      | none => mapFind id m.discoveredNodes) ∧
    ∃ added, (observeAll P m records).trace = m.trace ++ added ∧
      (∀ cb id, added.countP (isDiscovery cb id) =
        if id ∈ (observedRecords P m.nodeId records).map NodeInfo.nodeId ∧
            mapFind id m.discoveredNodes = none
        then m.discoveryCallbacks.count cb else 0) ∧
      (∀ cb n, Effect.discovered cb n ∈ added →
        firstRecord n.nodeId (observedRecords P m.nodeId records) = some n ∧
          mapFind n.nodeId m.discoveredNodes = none) := by
  induction records generalizing m with
  | nil =>
    refine ⟨hok, ?_, [], by simp [observeAll], ?_, ?_⟩
    · intro id
      simp [observeAll, observedRecords, latestRecord]
    · intro cb id
      simp [observedRecords]
    · intro cb n h
      cases h
  | cons x rest ih =>
    obtain ⟨payload, now⟩ := x
    by_cases hskip : P.deserializeJson payload = none ∨
        ∃ doc, P.deserializeJson payload = some doc ∧
          (doc.get "nodeId".toList).asString P = m.nodeId
    · have h1 : observeAll P m ((payload, now) :: rest) = observeAll P m rest := by
        simp only [observeAll, processDiscoveryMessage_skip P now m payload hskip]
      rw [h1, observedRecords_skip P m.nodeId payload now rest hskip]
      exact ih m hok
    · obtain ⟨doc, hdec, hother⟩ : ∃ doc, P.deserializeJson payload = some doc ∧
          (doc.get "nodeId".toList).asString P ≠ m.nodeId := by
        cases hd : P.deserializeJson payload with
        | none => exact absurd (Or.inl hd) hskip
        | some doc =>
          refine ⟨doc, rfl, ?_⟩
          intro he
          exact hskip (Or.inr ⟨doc, hd, he⟩)
      have hstep := processDiscoveryMessage_step P now m payload doc hdec hother
      have hobs := observedRecords_step P m.nodeId payload now rest doc hdec hother
      generalize decodeNode P now doc = n at hstep hobs
      generalize hm1 : MQTTManager.processDiscoveryMessage P now m payload = m1 at hstep
      have hreg : m1.discoveredNodes = mapInsert n.nodeId n m.discoveredNodes := by
        rw [hstep]
      have htr : m1.trace = m.trace ++
          (if mapFind n.nodeId m.discoveredNodes = none then
            m.discoveryCallbacks.map (fun cb => Effect.discovered cb n) else []) := by
        rw [hstep]
      have hid : m1.nodeId = m.nodeId := by rw [hstep]
      have hcb : m1.discoveryCallbacks = m.discoveryCallbacks := by rw [hstep]
      have hok1 : RegistryOk m1.discoveredNodes := by
        rw [hreg]
        exact registryOk_insert _ _ hok
      have hrun : observeAll P m ((payload, now) :: rest) = observeAll P m1 rest := by
        simp only [observeAll, hm1]
      obtain ⟨i1, i2, added, i3, i4, i5⟩ := ih m1 hok1
      rw [hid] at i2 i4 i5
      rw [hrun, hobs]
      refine ⟨i1, ?_,
        (if mapFind n.nodeId m.discoveredNodes = none then
          m.discoveryCallbacks.map (fun cb => Effect.discovered cb n) else []) ++ added,
        ?_, ?_, ?_⟩
      · intro id
        rw [i2 id, latestRecord_cons, hreg, mapFind_mapInsert]
        cases latestRecord id (observedRecords P m.nodeId rest) with
        | some r => rfl
        | none =>
          by_cases hn : n.nodeId = id
          · simp [hn]
          · have hn' : ¬ id = n.nodeId := fun e => hn e.symm
            simp [hn, hn']
      · rw [i3, htr, List.append_assoc]
      · intro cb id
        rw [List.countP_append, i4 cb id, hcb, hreg, mapFind_mapInsert]
        by_cases hn : n.nodeId = id
        · subst hn
          by_cases hf : mapFind n.nodeId m.discoveredNodes = none
          · rw [if_pos hf, countP_notify]
            simp [hf]
          · simp [hf]
        · have hn' : ¬ id = n.nodeId := fun e => hn e.symm
          by_cases hf : mapFind n.nodeId m.discoveredNodes = none
          · rw [if_pos hf, countP_notify]
            simp [hn, hn']
          · simp [hf, hn, hn']
      · intro cb x hx
        rcases List.mem_append.1 hx with hx | hx
        · by_cases hf : mapFind n.nodeId m.discoveredNodes = none
          · rw [if_pos hf] at hx
            obtain ⟨c, _, hc⟩ := List.mem_map.1 hx
            injection hc with _ hc2
            subst hc2
            exact ⟨by simp [firstRecord_cons], hf⟩
          · rw [if_neg hf] at hx
            cases hx
        · obtain ⟨j1, j2⟩ := i5 cb x hx
          rw [hreg, mapFind_mapInsert] at j2
          by_cases hn : x.nodeId = n.nodeId
          · simp [hn] at j2
          · have hn' : ¬ n.nodeId = x.nodeId := fun e => hn e.symm
            simp only [hn, if_false] at j2
            exact ⟨by rw [firstRecord_cons, if_neg hn']; exact j1, j2⟩

/-- C7: starting from an empty registry, after any sequence of discovery payloads handed
to `processDiscoveryMessage` the list returned by `getDiscoveredNodes` holds no `nodeId`
twice, holds exactly the ids of the decoded records of other nodes, each stored entry is
the latest record for its id (the `type`, `ip`, `mac`, `version` and `capabilities` of
that payload's document, with its arrival time as `lastSeen`), each observer was called
for a node id as many times as it is registered when the id was observed and never
otherwise, and every call carried the first record for that id. -/
theorem C7_registry_one_entry_per_node (P : Platform τ) (m : MQTTManager τ)
    (records : List (Str × Nat)) (hempty : m.discoveredNodes = []) :
    ((MQTTManager.getDiscoveredNodes (observeAll P m records)).map NodeInfo.nodeId).Nodup ∧
    (∀ id, id ∈ (MQTTManager.getDiscoveredNodes (observeAll P m records)).map NodeInfo.nodeId ↔
      id ∈ (observedRecords P m.nodeId records).map NodeInfo.nodeId) ∧
    (∀ n ∈ MQTTManager.getDiscoveredNodes (observeAll P m records),
      latestRecord n.nodeId (observedRecords P m.nodeId records) = some n) ∧
    (∀ cb id, (newEffects m (observeAll P m records)).countP (isDiscovery cb id) =
      if id ∈ (observedRecords P m.nodeId records).map NodeInfo.nodeId
      then m.discoveryCallbacks.count cb else 0) ∧
    (∀ cb n, Effect.discovered cb n ∈ newEffects m (observeAll P m records) →
      firstRecord n.nodeId (observedRecords P m.nodeId records) = some n) := by
  have hok : RegistryOk m.discoveredNodes := by
    rw [hempty]
    exact ⟨List.Pairwise.nil, fun p hp => by cases hp⟩
  obtain ⟨h1, h2, added, h3, h4, h5⟩ := observeAll_spec P records m hok
  rw [newEffects_of_append _ _ _ h3]
  have hids : (MQTTManager.getDiscoveredNodes (observeAll P m records)).map NodeInfo.nodeId =
      mapKeys (observeAll P m records).discoveredNodes := by
    simp only [MQTTManager.getDiscoveredNodes, mapKeys, List.map_map]
    apply List.map_congr_left
    intro p hp
    exact h1.2 p hp
  have hfind : ∀ id, mapFind id (observeAll P m records).discoveredNodes =
      latestRecord id (observedRecords P m.nodeId records) := by
    intro id
    rw [h2 id, hempty]
    cases latestRecord id (observedRecords P m.nodeId records) with
    | some r => rfl
    | none => rfl
  refine ⟨?_, ?_, ?_, ?_, ?_⟩
  · rw [hids]
    exact sorted_nodup _ h1.1
  · intro id
    rw [hids]
    constructor
    · intro hin
      by_contra hc
      have := (latestRecord_eq_none id _).2 hc
      rw [← hfind id] at this
      exact ((mapFind_eq_none id _).1 this) hin
    · intro hin
      by_contra hc
      have := (mapFind_eq_none id _).2 hc
      rw [hfind id] at this
      exact ((latestRecord_eq_none id _).1 this) hin
  · intro n hn
    obtain ⟨p, hp, hpn⟩ := List.mem_map.1 hn
    obtain ⟨k, v⟩ := p
    simp only at hpn
    subst hpn
    have hk : v.nodeId = k := h1.2 _ hp
    rw [← hfind, hk]
    exact mapFind_of_mem k v _ (sorted_nodup _ h1.1) hp
  · intro cb id
    rw [h4 cb id, hempty]
    simp [mapFind]
  · intro cb n hn
    exact (h5 cb n hn).1

set_option maxRecDepth 100000 in
/-- Witness for C7: fixture `LUM_7` announces itself at time 100 from `10.0.0.7` without
dimming and at time 200 from `10.0.0.8` with dimming; the coordinator lists one node, with
the fields of the second announcement, and called its observer once, with the first. -/
theorem C7_registry_one_entry_per_node_witness :
    coordinator.discoveredNodes = [] ∧
    MQTTManager.getDiscoveredNodes (observeAll scripted coordinator
      [(lum7Announcement "10.0.0.7".toList false, 100),
       (lum7Announcement "10.0.0.8".toList true, 200)]) =
      [{ nodeId := "LUM_7".toList, type := NODE_LUMINARIA, ip := "10.0.0.8".toList,
         mac := "5C:CF:7F:00:00:07".toList, version := "0.6.0".toList, lastSeen := 200,
         online := true,
         metadata := .obj (.cons "dimming".toList (.bool true) .nil) }] ∧
    newEffects coordinator (observeAll scripted coordinator
      [(lum7Announcement "10.0.0.7".toList false, 100),
       (lum7Announcement "10.0.0.8".toList true, 200)]) =
      [Effect.discovered 5
        { nodeId := "LUM_7".toList, type := NODE_LUMINARIA, ip := "10.0.0.7".toList,
          mac := "5C:CF:7F:00:00:07".toList, version := "0.6.0".toList, lastSeen := 100,
          online := true,
          metadata := .obj (.cons "dimming".toList (.bool false) .nil) }] ∧
    (∀ n ∈ MQTTManager.getDiscoveredNodes (observeAll scripted coordinator
        [(lum7Announcement "10.0.0.7".toList false, 100),
         (lum7Announcement "10.0.0.8".toList true, 200)]),
      latestRecord n.nodeId (observedRecords scripted coordinator.nodeId
        [(lum7Announcement "10.0.0.7".toList false, 100),
         (lum7Announcement "10.0.0.8".toList true, 200)]) = some n) :=
  ⟨rfl, by decide, by decide,
    (C7_registry_one_entry_per_node scripted coordinator
      [(lum7Announcement "10.0.0.7".toList false, 100),
       (lum7Announcement "10.0.0.8".toList true, 200)] rfl).2.2.1⟩


theorem sub32_of_le (a b : Nat) (hab : b ≤ a) (ha : a < 2 ^ 32) : sub32 a b = a - b := by
  unfold sub32
  have hb : b % 2 ^ 32 = b := Nat.mod_eq_of_lt (lt_of_le_of_lt hab ha)
  rw [hb]
  omega

theorem mapFind_pruneNodes (now : Nat) (id : Str) (reg : List (Str × NodeInfo)) :
    mapFind id (pruneNodes now reg) =
      (mapFind id reg).map (fun node =>
        if sub32 now node.lastSeen > 600000 then { node with online := false } else node) := by
  induction reg with
  | nil => simp [pruneNodes, mapFind]
  | cons p rest ih =>
    obtain ⟨k, node⟩ := p
    by_cases hk : k = id
    · by_cases hs : sub32 now node.lastSeen > 600000
      · simp [pruneNodes, mapFind, hk, hs]
      · simp [pruneNodes, mapFind, hk, hs]
    · by_cases hs : sub32 now node.lastSeen > 600000
      · simp [pruneNodes, mapFind, hk, hs, ih]
      · simp [pruneNodes, mapFind, hk, hs, ih]

theorem mapKeys_pruneNodes (now : Nat) (reg : List (Str × NodeInfo)) :
    mapKeys (pruneNodes now reg) = mapKeys reg := by
  induction reg with
  | nil => simp [pruneNodes, mapKeys]
  | cons p rest ih =>
    obtain ⟨k, node⟩ := p
    simp only [mapKeys] at ih
    by_cases hs : sub32 now node.lastSeen > 600000
    · simp [pruneNodes, mapKeys, hs, ih]
    · simp [pruneNodes, mapKeys, hs, ih]

theorem pruneNodes_stale_offline (now : Nat) (reg : List (Str × NodeInfo)) :
    ∀ p ∈ pruneNodes now reg, sub32 now p.2.lastSeen > 600000 → p.2.online = false := by
  induction reg with
  | nil => simp [pruneNodes]
  | cons q rest ih =>
    obtain ⟨k, node⟩ := q
    intro p hp hstale
    simp only [pruneNodes, List.mem_cons] at hp
    rcases hp with hp | hp
    · by_cases hs : sub32 now node.lastSeen > 600000
      · simp only [hs, if_true] at hp
        rw [hp]
      · simp only [hs, if_false] at hp
        rw [hp] at hstale
        exact absurd hstale hs
    · exact ih p hp hstale

/-- C8: the staleness-pruning step of `loop` at time `now` leaves every record
retrievable through `getNodeInfo`; a record whose `lastSeen` is more than 600000 ms behind
`now` comes back with `online = false` and otherwise unchanged, any other record comes back
exactly as it was. The age is the `uint32_t` difference `now - lastSeen`, which is the
plain difference when the clock did not wrap. -/
theorem C8_prune_marks_stale_offline (now : Nat) (m : MQTTManager τ) (id : Str)
    (node : NodeInfo) (hfound : mapFind id m.discoveredNodes = some node) :
    (sub32 now node.lastSeen > 600000 →
      MQTTManager.getNodeInfo (MQTTManager.pruneStale now m) id =
        { node with online := false }) ∧
    (¬ sub32 now node.lastSeen > 600000 →
      MQTTManager.getNodeInfo (MQTTManager.pruneStale now m) id = node) ∧
    (node.lastSeen ≤ now → now < 2 ^ 32 → sub32 now node.lastSeen = now - node.lastSeen) := by
  have h : mapFind id (MQTTManager.pruneStale now m).discoveredNodes =
      some (if sub32 now node.lastSeen > 600000 then { node with online := false }
        else node) := by
    simp only [MQTTManager.pruneStale, mapFind_pruneNodes, hfound, Option.map_some']
  refine ⟨?_, ?_, sub32_of_le now node.lastSeen⟩
  · intro hs
    simp only [MQTTManager.getNodeInfo, h, hs, if_true]
  · intro hs
    simp only [MQTTManager.getNodeInfo, h, hs, if_false]

set_option maxRecDepth 100000 in
/-- Witness for C8: fixture `LUM_7`, last seen at time 1000, pruned at time 661000. -/
theorem C8_prune_marks_stale_offline_witness :
    sub32 661000 1000 > 600000 ∧
    (MQTTManager.getNodeInfo heardThenLost "LUM_7".toList).online = true ∧
    (MQTTManager.getNodeInfo (MQTTManager.pruneStale 661000 heardThenLost)
      "LUM_7".toList).online = false ∧
    (MQTTManager.getNodeInfo (MQTTManager.pruneStale 661000 heardThenLost)
      "LUM_7".toList).nodeId = "LUM_7".toList :=
  have h := C8_prune_marks_stale_offline 661000 heardThenLost "LUM_7".toList
    (MQTTManager.getNodeInfo heardThenLost "LUM_7".toList) (by decide)
  ⟨by decide, by decide, by rw [h.1 (by decide)], by rw [h.1 (by decide)]; decide⟩

theorem publish_discoveredNodes (P : Platform τ) (now : Nat) (m : MQTTManager τ)
    (topic payload : Str) (retained : Bool) :
    (MQTTManager.publish P now m topic payload retained).2.discoveredNodes =
      m.discoveredNodes := by
  unfold MQTTManager.publish
  simp only
  split <;> rfl

theorem subscribe_discoveredNodes (P : Platform τ) (m : MQTTManager τ) (topic : Str)
    (qos : Nat) :
    (MQTTManager.subscribe P m topic qos).2.discoveredNodes = m.discoveredNodes := by
  unfold MQTTManager.subscribe
  simp only
  split
  · rfl
  · split <;> rfl

theorem broadcastDiscovery_discoveredNodes (P : Platform τ) (now : Nat) (m : MQTTManager τ) :
    (MQTTManager.broadcastDiscovery P now m).discoveredNodes = m.discoveredNodes := by
  simp only [MQTTManager.broadcastDiscovery, MQTTManager.publishJson, publish_discoveredNodes]

theorem sendHeartbeat_discoveredNodes (P : Platform τ) (now : Nat) (m : MQTTManager τ) :
    (MQTTManager.sendHeartbeat P now m).discoveredNodes = m.discoveredNodes := by
  simp only [MQTTManager.sendHeartbeat, MQTTManager.publishJson, publish_discoveredNodes]

theorem outgoingLoop_discoveredNodes (P : Platform τ) (now : Nat) (budget : Nat)
    (m : MQTTManager τ) :
    (outgoingLoop P now budget m).discoveredNodes = m.discoveredNodes := by
  induction budget generalizing m with
  | zero => rfl
  | succ b ih =>
    unfold outgoingLoop
    split
    · rfl
    · simp only
      split
      · rw [ih]
        exact publish_discoveredNodes P now m _ _ _
      · exact publish_discoveredNodes P now m _ _ _

theorem processOutgoingQueue_discoveredNodes (P : Platform τ) (now : Nat)
    (m : MQTTManager τ) :
    (MQTTManager.processOutgoingQueue P now m).discoveredNodes = m.discoveredNodes := by
  unfold MQTTManager.processOutgoingQueue
  split
  · rfl
  · simp only
    split
    · rfl
    · rw [outgoingLoop_discoveredNodes]

theorem connectAs_discoveredNodes (P : Platform τ) (now : Nat) (m : MQTTManager τ)
    (id : Str) :
    (MQTTManager.connectAs P now m id).2.discoveredNodes = m.discoveredNodes := by
  unfold MQTTManager.connectAs
  simp only
  repeat' split
  all_goals
    first
    | rfl
    | simp only [broadcastDiscovery_discoveredNodes, subscribe_discoveredNodes,
        MQTTManager.publishStatus, MQTTManager.publishJson, publish_discoveredNodes]

theorem reconnect_discoveredNodes (P : Platform τ) (now : Nat) (m : MQTTManager τ) :
    (MQTTManager.reconnect P now m).2.discoveredNodes = m.discoveredNodes := by
  unfold MQTTManager.reconnect
  simp only
  split
  · split
    · simp only [MQTTManager.connect, connectAs_discoveredNodes]
    · rfl
  · rfl

theorem processDiscoveryMessage_keeps_keys (P : Platform τ) (now : Nat) (m : MQTTManager τ)
    (payload : Str) (id : Str) (hid : id ∈ mapKeys m.discoveredNodes) :
    id ∈ mapKeys (MQTTManager.processDiscoveryMessage P now m payload).discoveredNodes := by
  by_cases hskip : P.deserializeJson payload = none ∨
      ∃ doc, P.deserializeJson payload = some doc ∧
        (doc.get "nodeId".toList).asString P = m.nodeId
  · rw [processDiscoveryMessage_skip P now m payload hskip]
    exact hid
  · obtain ⟨doc, hdec, hother⟩ : ∃ doc, P.deserializeJson payload = some doc ∧
        (doc.get "nodeId".toList).asString P ≠ m.nodeId := by
      cases hd : P.deserializeJson payload with
      | none => exact absurd (Or.inl hd) hskip
      | some doc =>
        refine ⟨doc, rfl, ?_⟩
        intro he
        exact hskip (Or.inr ⟨doc, hd, he⟩)
    rw [processDiscoveryMessage_step P now m payload doc hdec hother]
    exact (mem_mapKeys_mapInsert _ _ _ _).2 (Or.inr hid)

theorem handleMessage_keeps_keys (P : Platform τ) (now : Nat) (m : MQTTManager τ)
    (topic : Str) (payload : List Char) (id : Str) (hid : id ∈ mapKeys m.discoveredNodes) :
    id ∈ mapKeys (MQTTManager.handleMessage P now m topic payload).discoveredNodes := by
  unfold MQTTManager.handleMessage
  simp only
  split
  · exact processDiscoveryMessage_keeps_keys P now _ _ id hid
  · exact hid

theorem handleAll_keeps_keys (P : Platform τ) (now : Nat) (inbound : List (Str × List Char))
    (m : MQTTManager τ) (id : Str) (hid : id ∈ mapKeys m.discoveredNodes) :
    id ∈ mapKeys (handleAll P now m inbound).discoveredNodes := by
  induction inbound generalizing m with
  | nil => exact hid
  | cons x rest ih =>
    obtain ⟨topic, payload⟩ := x
    exact ih _ (handleMessage_keeps_keys P now m topic payload id hid)

/-- The registry a connected tick leaves: the registry after the inbound messages, pruned. -/
theorem loop_connected_registry (P : Platform τ) (now : Nat) (m : MQTTManager τ)
    (hup : (P.connected m.mqttClient).1 = true) :
    (MQTTManager.loop P now m).discoveredNodes =
      pruneNodes now
        (handleAll P now
          { m with mqttClient := (P.poll (P.connected m.mqttClient).2).2 }
          (P.poll (P.connected m.mqttClient).2).1).discoveredNodes := by
  unfold MQTTManager.loop
  simp only [hup, Bool.not_true, Bool.false_eq_true, if_false, MQTTManager.pruneStale,
    apply_ite MQTTManager.discoveredNodes, broadcastDiscovery_discoveredNodes,
    sendHeartbeat_discoveredNodes, MQTTManager.processIncomingQueue,
    processOutgoingQueue_discoveredNodes, ite_self]

/-- The registry a disconnected tick leaves: the registry as it was. -/
theorem loop_disconnected_registry (P : Platform τ) (now : Nat) (m : MQTTManager τ)
    (hdown : (P.connected m.mqttClient).1 = false) :
    (MQTTManager.loop P now m).discoveredNodes = m.discoveredNodes := by
  unfold MQTTManager.loop
  simp only [hdown, Bool.not_false, if_true, reconnect_discoveredNodes]

set_option maxRecDepth 100000 in
/-- C9 (counterexample): fixture `LUM_7` was last seen at time 1000 and the connection is
lost; after `loop` at time 661000, eleven minutes later, the node is still reported
online. -/
theorem C9_disconnected_tick_does_not_prune :
    (scripted.connected heardThenLost.mqttClient).1 = false ∧
    sub32 661000 1000 > 600000 ∧
    (MQTTManager.getNodeInfo (MQTTManager.loop scripted 661000 heardThenLost)
      "LUM_7".toList).lastSeen = 1000 ∧
    (MQTTManager.getNodeInfo (MQTTManager.loop scripted 661000 heardThenLost)
      "LUM_7".toList).online = true := by
  decide

/-- C9 (amended): a call of `loop` at time `now` prunes exactly when the transport
reports connected at its start: then every node in the registry whose `lastSeen` is more
than 600000 ms behind `now` has `online = false` afterwards; when the transport reports
disconnected the registry is left as it was. Either way every node listed before the call
is still listed after it. -/
theorem C9_tick_prunes_when_connected (P : Platform τ) (now : Nat) (m : MQTTManager τ) :
    (if (P.connected m.mqttClient).1 = true then
      ∀ n ∈ MQTTManager.getDiscoveredNodes (MQTTManager.loop P now m),
        sub32 now n.lastSeen > 600000 → n.online = false
     else (MQTTManager.loop P now m).discoveredNodes = m.discoveredNodes) ∧
    (∀ id, id ∈ mapKeys m.discoveredNodes →
      id ∈ mapKeys (MQTTManager.loop P now m).discoveredNodes) := by
  by_cases hup : (P.connected m.mqttClient).1 = true
  · have hreg := loop_connected_registry P now m hup
    rw [if_pos hup]
    constructor
    · intro n hn hstale
      obtain ⟨p, hp, hpn⟩ := List.mem_map.1 hn
      rw [hreg] at hp
      rw [← hpn]
      rw [← hpn] at hstale
      exact pruneNodes_stale_offline now _ p hp hstale
    · intro id hid
      rw [hreg, mapKeys_pruneNodes]
      exact handleAll_keeps_keys P now _ _ id hid
  · have hdown : (P.connected m.mqttClient).1 = false := by
      cases h : (P.connected m.mqttClient).1
      · rfl
      · exact absurd h hup
    have hreg := loop_disconnected_registry P now m hdown
    rw [if_neg hup]
    refine ⟨hreg, ?_⟩
    intro id hid
    rw [hreg]
    exact hid


theorem discoveryDoc_eq (P : Platform τ) (m : MQTTManager τ) :
    discoveryDoc P m =
      .obj (.cons "nodeId".toList (.str m.nodeId) (.cons "type".toList (.int m.nodeType)
        (.cons "ip".toList (.str (P.localIP m.mqttClient))
        (.cons "mac".toList (.str (P.macAddress m.mqttClient))
        (.cons "version".toList (.str FIRMWARE_VERSION)
        (.cons "capabilities".toList managerCapabilities .nil)))))) := by
  rfl

theorem decodeNode_discoveryDoc {σ : Type} (P : Platform τ) (Q : Platform σ) (later : Nat)
    (x : MQTTManager τ)
    (htype : -2147483648 ≤ x.nodeType ∧ x.nodeType ≤ 2147483647) :
    decodeNode Q later (discoveryDoc P x) =
      { nodeId := x.nodeId, type := x.nodeType, ip := P.localIP x.mqttClient,
        mac := P.macAddress x.mqttClient, version := FIRMWARE_VERSION, lastSeen := later,
        online := true, metadata := managerCapabilities } := by
  rw [discoveryDoc_eq]
  have h1 : (Json.int x.nodeType).asInt = x.nodeType := by
    simp only [Json.asInt, htype, and_self, if_true]
  unfold decodeNode
  congr 1

/-- What `broadcastDiscovery` emits on the discovery topic: its document, serialised. -/
theorem broadcastDiscovery_emits (P : Platform τ) (now : Nat) (x : MQTTManager τ) :
    emittedOn MQTT_DISCOVERY_TOPIC x (MQTTManager.broadcastDiscovery P now x) =
      [P.serializeJson (discoveryDoc P x)] := by
  cases hc : (P.connected x.mqttClient).1 with
  | false =>
    have ht : (MQTTManager.broadcastDiscovery P now x).trace = x.trace ++ [] := by
      simp [MQTTManager.broadcastDiscovery, MQTTManager.publishJson, MQTTManager.publish, hc]
    have hq : (MQTTManager.broadcastDiscovery P now x).outgoingQueue = x.outgoingQueue ++
        [{ topic := MQTT_DISCOVERY_TOPIC, payload := P.serializeJson (discoveryDoc P x),
           qos := 0, retained := false, timestamp := now }] := by
      simp [MQTTManager.broadcastDiscovery, MQTTManager.publishJson, MQTTManager.publish, hc]
    simp [emittedOn, newEffects_of_append _ _ _ ht, hq]
  | true =>
    have ht : (MQTTManager.broadcastDiscovery P now x).trace = x.trace ++
        [Effect.wire MQTT_DISCOVERY_TOPIC (P.serializeJson (discoveryDoc P x)) false
          (P.publish MQTT_DISCOVERY_TOPIC (P.serializeJson (discoveryDoc P x)) false
            (P.connected x.mqttClient).2).1] := by
      simp [MQTTManager.broadcastDiscovery, MQTTManager.publishJson, MQTTManager.publish, hc]
    have hq : (MQTTManager.broadcastDiscovery P now x).outgoingQueue = x.outgoingQueue := by
      simp [MQTTManager.broadcastDiscovery, MQTTManager.publishJson, MQTTManager.publish, hc]
    simp [emittedOn, newEffects_of_append _ _ _ ht, hq]

/-- C10: the one payload `broadcastDiscovery` emits for a node `x`, decoded by
`processDiscoveryMessage` on a node `r` with a different `nodeId`, is stored under the id
of `x` with the `nodeId`, type, ip, mac, firmware version and capability flags of `x`;
the codec is assumed to decode the document it encoded, and the type to be an `int`. -/
theorem C10_discovery_round_trip {σ : Type} (P : Platform τ) (Q : Platform σ)
    (now later : Nat) (x : MQTTManager τ) (r : MQTTManager σ)
    (hcodec : Q.deserializeJson (P.serializeJson (discoveryDoc P x)) =
      some (discoveryDoc P x))
    (htype : -2147483648 ≤ x.nodeType ∧ x.nodeType ≤ 2147483647)
    (hother : x.nodeId ≠ r.nodeId) :
    ∃ payload,
      emittedOn MQTT_DISCOVERY_TOPIC x (MQTTManager.broadcastDiscovery P now x) = [payload] ∧
      MQTTManager.getNodeInfo (MQTTManager.processDiscoveryMessage Q later r payload)
          x.nodeId =
        { nodeId := x.nodeId, type := x.nodeType, ip := P.localIP x.mqttClient,
          mac := P.macAddress x.mqttClient, version := FIRMWARE_VERSION, lastSeen := later,
          online := true, metadata := managerCapabilities } := by
  refine ⟨P.serializeJson (discoveryDoc P x), broadcastDiscovery_emits P now x, ?_⟩
  have hnode := decodeNode_discoveryDoc P Q later x htype
  have hid : (discoveryDoc P x).get "nodeId".toList = .str x.nodeId := by
    rw [discoveryDoc_eq]
    rfl
  have hother' : ((discoveryDoc P x).get "nodeId".toList).asString Q ≠ r.nodeId := by
    rw [hid]
    exact hother
  rw [processDiscoveryMessage_step Q later r _ _ hcodec hother', hnode]
  simp only [MQTTManager.getNodeInfo, mapFind_mapInsert, if_true]

set_option maxRecDepth 100000 in
/-- Witness for C10: gateway `GW_3` announces itself to the coordinator `CENTRAL`. -/
theorem C10_discovery_round_trip_witness :
    scripted.deserializeJson (scripted.serializeJson (discoveryDoc scripted gateway)) =
      some (discoveryDoc scripted gateway) ∧
    gateway.nodeId ≠ coordinator.nodeId ∧
    ∃ payload,
      emittedOn MQTT_DISCOVERY_TOPIC gateway
        (MQTTManager.broadcastDiscovery scripted 50 gateway) = [payload] ∧
      MQTTManager.getNodeInfo
          (MQTTManager.processDiscoveryMessage scripted 60 coordinator payload)
          gateway.nodeId =
        { nodeId := "GW_3".toList, type := NODE_GATEWAY,
          ip := scripted.localIP gateway.mqttClient,
          mac := scripted.macAddress gateway.mqttClient, version := FIRMWARE_VERSION,
          lastSeen := 60, online := true, metadata := managerCapabilities } :=
  ⟨by decide, by decide,
    C10_discovery_round_trip scripted scripted 50 60 gateway coordinator (by decide)
      (by decide) (by decide)⟩


theorem mapFind_mapErase {β : Type} (k : Str) (l : List (Str × β))
    (hnd : (mapKeys l).Nodup) : mapFind k (mapErase k l) = none := by
  induction l with
  | nil => rfl
  | cons p rest ih =>
    obtain ⟨a, b⟩ := p
    simp only [mapKeys, List.map_cons, List.nodup_cons] at hnd
    by_cases h : a = k
    · subst h
      simp only [mapErase, if_true]
      exact (mapFind_eq_none _ _).2 hnd.1
    · simp only [mapErase, h, if_false, mapFind]
      exact ih hnd.2

/-- C15 (counterexample): the pattern `luces/zone/A/#` is registered and subscribed; the
transport is disconnected when `unsubscribe` is called, and afterwards the pattern still
has its routing entry and is still in the subscribed-topics list. -/
theorem C15_unsubscribe_while_disconnected_keeps_pattern :
    (scripted.connected zoneSubscriber.mqttClient).1 = false ∧
    mapFind "luces/zone/A/#".toList zoneSubscriber.topicCallbacks = some 4 ∧
    (MQTTManager.unsubscribe scripted zoneSubscriber "luces/zone/A/#".toList).1 = false ∧
    mapFind "luces/zone/A/#".toList
      (MQTTManager.unsubscribe scripted zoneSubscriber
        "luces/zone/A/#".toList).2.topicCallbacks = some 4 ∧
    "luces/zone/A/#".toList ∈
      (MQTTManager.unsubscribe scripted zoneSubscriber
        "luces/zone/A/#".toList).2.subscribedTopics := by
  decide

/-- C15 (amended): `unsubscribe(p)` returns `true` exactly when the transport reports
connected and accepts the unsubscription; then the handler table has no routing entry for
`p` and the subscribed-topics list holds no occurrence of `p`. When it returns `false`
(transport disconnected, or the unsubscription refused) both are left as they were. -/
theorem C15_unsubscribe_removes_when_accepted (P : Platform τ) (m : MQTTManager τ) (p : Str)
    (hkeys : (mapKeys m.topicCallbacks).Nodup) :
    (MQTTManager.unsubscribe P m p).1 =
      ((P.connected m.mqttClient).1 && (P.unsubscribe p (P.connected m.mqttClient).2).1) ∧
    (if (MQTTManager.unsubscribe P m p).1 = true then
      mapFind p (MQTTManager.unsubscribe P m p).2.topicCallbacks = none ∧
      p ∉ (MQTTManager.unsubscribe P m p).2.subscribedTopics
     else
      (MQTTManager.unsubscribe P m p).2.topicCallbacks = m.topicCallbacks ∧
      (MQTTManager.unsubscribe P m p).2.subscribedTopics = m.subscribedTopics) := by
  unfold MQTTManager.unsubscribe
  by_cases hc : (P.connected m.mqttClient).1 = true
  · by_cases hu : (P.unsubscribe p (P.connected m.mqttClient).2).1 = true
    · simp only [hc, hu, Bool.not_true, Bool.false_eq_true, if_false, if_true,
        Bool.and_self, true_and]
      exact ⟨mapFind_mapErase p _ hkeys, by simp⟩
    · simp [hc, hu]
  · simp [hc]

/-- Witness for C15: the same pattern, unsubscribed while the transport is connected. -/
theorem C15_unsubscribe_removes_when_accepted_witness :
    (mapKeys zoneSubscriber.topicCallbacks).Nodup ∧
    (MQTTManager.unsubscribe alwaysUp { zoneSubscriber with mqttClient := [true] }
      "luces/zone/A/#".toList).1 = true ∧
    mapFind "luces/zone/A/#".toList
      (MQTTManager.unsubscribe alwaysUp { zoneSubscriber with mqttClient := [true] }
        "luces/zone/A/#".toList).2.topicCallbacks = none :=
  have h := C15_unsubscribe_removes_when_accepted alwaysUp
    { zoneSubscriber with mqttClient := [true] } "luces/zone/A/#".toList (by decide)
  have ht : (MQTTManager.unsubscribe alwaysUp { zoneSubscriber with mqttClient := [true] }
      "luces/zone/A/#".toList).1 = true := by decide
  ⟨by decide, ht, ((if_pos ht).mp h.2).1⟩

/-- C17 (counterexample): the transport reports connected and refuses the send; `publish`
returns `false` and the outgoing queue stays empty. -/
theorem C17_refused_send_is_not_queued :
    (alwaysUp.connected [false]).1 = true ∧
    (alwaysUp.publish "luces/cmd/LUM_7".toList "on".toList false [false]).1 = false ∧
    (MQTTManager.publish alwaysUp 5 (MQTTManager.init [false]) "luces/cmd/LUM_7".toList
      "on".toList false).1 = false ∧
    (MQTTManager.publish alwaysUp 5 (MQTTManager.init [false]) "luces/cmd/LUM_7".toList
      "on".toList false).2.outgoingQueue = [] := by
  decide

/-- C17 (amended): `publish` enqueues exactly when the transport reports disconnected.
When it reports connected the message is handed to the transport once, the result is the
transport's answer and the queue is unchanged, also when the send is refused; when it
reports disconnected the result is `false` and the message is appended to the queue. -/
theorem C17_publish_enqueues_only_when_disconnected (P : Platform τ) (now : Nat)
    (m : MQTTManager τ) (topic payload : Str) (retained : Bool) :
    if (P.connected m.mqttClient).1 = true then
      (MQTTManager.publish P now m topic payload retained).1 =
        (P.publish topic payload retained (P.connected m.mqttClient).2).1 ∧
      (MQTTManager.publish P now m topic payload retained).2.outgoingQueue =
        m.outgoingQueue ∧
      newEffects m (MQTTManager.publish P now m topic payload retained).2 =
        [Effect.wire topic payload retained
          (P.publish topic payload retained (P.connected m.mqttClient).2).1]
    else
      (MQTTManager.publish P now m topic payload retained).1 = false ∧
      (MQTTManager.publish P now m topic payload retained).2.outgoingQueue =
        m.outgoingQueue ++
          [{ topic := topic, payload := payload, qos := 0, retained := retained,
             timestamp := now }] ∧
      newEffects m (MQTTManager.publish P now m topic payload retained).2 = [] := by
  cases hc : (P.connected m.mqttClient).1 with
  | false =>
    simp only [Bool.false_eq_true, if_false]
    refine ⟨by simp [MQTTManager.publish, hc], by simp [MQTTManager.publish, hc], ?_⟩
    apply newEffects_of_append
    simp [MQTTManager.publish, hc]
  | true =>
    simp only [if_true]
    refine ⟨by simp [MQTTManager.publish, hc], by simp [MQTTManager.publish, hc], ?_⟩
    apply newEffects_of_append
    simp [MQTTManager.publish, hc]

/-- C18: a discovery payload that decodes to this node's own `nodeId` leaves the whole
manager state as it was: the registry is unchanged and no observer is called. -/
theorem C18_own_announcement_ignored (P : Platform τ) (now : Nat) (m : MQTTManager τ)
    (payload : Str) (doc : Json) (hdec : P.deserializeJson payload = some doc)
    (hself : (doc.get "nodeId".toList).asString P = m.nodeId) :
    (MQTTManager.processDiscoveryMessage P now m payload).discoveredNodes =
      m.discoveredNodes ∧
    newEffects m (MQTTManager.processDiscoveryMessage P now m payload) = [] := by
  rw [processDiscoveryMessage_skip P now m payload (Or.inr ⟨doc, hdec, hself⟩)]
  exact ⟨rfl, newEffects_of_append m m [] (by simp)⟩

set_option maxRecDepth 100000 in
/-- Witness for C18: the coordinator hears its own discovery announcement. -/
theorem C18_own_announcement_ignored_witness :
    scripted.deserializeJson (renderJson (discoveryDoc scripted coordinator)) =
      some (discoveryDoc scripted coordinator) ∧
    ((discoveryDoc scripted coordinator).get "nodeId".toList).asString scripted =
      coordinator.nodeId ∧
    (MQTTManager.processDiscoveryMessage scripted 70 coordinator
      (renderJson (discoveryDoc scripted coordinator))).discoveredNodes = [] ∧
    newEffects coordinator (MQTTManager.processDiscoveryMessage scripted 70 coordinator
      (renderJson (discoveryDoc scripted coordinator))) = [] :=
  ⟨by decide, by decide,
    C18_own_announcement_ignored scripted 70 coordinator
      (renderJson (discoveryDoc scripted coordinator)) (discoveryDoc scripted coordinator)
      (by decide) (by decide)⟩

/-- C20 (counterexample): an undecodable payload on the discovery topic still adds an
entry to the incoming queue. -/
theorem C20_undecodable_discovery_is_queued :
    scripted.deserializeJson (cstr "on".toList) = none ∧
    coordinator.incomingQueue.length = 0 ∧
    (MQTTManager.handleMessage scripted 80 coordinator MQTT_DISCOVERY_TOPIC
      "on".toList).incomingQueue.length = 1 := by
  decide

/-- C20 (amended): an inbound message on the discovery topic whose payload does not
decode leaves the registry and the outgoing queue as they were and calls no observer or
handler; the incoming queue receives one new entry at its tail, holding the topic, the
payload text and the arrival time. -/
theorem C20_undecodable_discovery_only_queued (P : Platform τ) (now : Nat)
    (m : MQTTManager τ) (payload : List Char)
    (hbad : P.deserializeJson (cstr payload) = none) :
    (MQTTManager.handleMessage P now m MQTT_DISCOVERY_TOPIC payload).discoveredNodes =
      m.discoveredNodes ∧
    (MQTTManager.handleMessage P now m MQTT_DISCOVERY_TOPIC payload).outgoingQueue =
      m.outgoingQueue ∧
    newEffects m (MQTTManager.handleMessage P now m MQTT_DISCOVERY_TOPIC payload) = [] ∧
    ∃ entry : MQTTMessage,
      (MQTTManager.handleMessage P now m MQTT_DISCOVERY_TOPIC payload).incomingQueue =
        m.incomingQueue ++ [entry] ∧
      entry.topic = MQTT_DISCOVERY_TOPIC ∧ entry.payload = cstr payload ∧
      entry.timestamp = now := by
  have h : MQTTManager.handleMessage P now m MQTT_DISCOVERY_TOPIC payload =
      { m with incomingQueue := m.incomingQueue ++
          [{ topic := MQTT_DISCOVERY_TOPIC, payload := cstr payload, qos := 0,
             retained := false, timestamp := now }] } := by
    simp only [MQTTManager.handleMessage, if_true]
    exact processDiscoveryMessage_skip P now _ _ (Or.inl hbad)
  rw [h]
  exact ⟨rfl, rfl, newEffects_of_append _ _ [] (by simp), _, rfl, rfl, rfl, rfl⟩

/-- Witness for C20: the payload `on` arrives on the discovery topic. -/
theorem C20_undecodable_discovery_only_queued_witness :
    scripted.deserializeJson (cstr "on".toList) = none ∧
    (MQTTManager.handleMessage scripted 80 coordinator MQTT_DISCOVERY_TOPIC
      "on".toList).discoveredNodes = coordinator.discoveredNodes :=
  ⟨by decide,
    (C20_undecodable_discovery_only_queued scripted 80 coordinator "on".toList
      (by decide)).1⟩


theorem framed_refl (m : MQTTManager τ) : Framed m m :=
  ⟨rfl, rfl, rfl, rfl, rfl, [], by simp, by simp⟩

theorem framed_trans {a b c : MQTTManager τ} (h1 : Framed a b) (h2 : Framed b c) :
    Framed a c := by
  obtain ⟨a1, a2, a3, a4, a5, l1, a6, a7⟩ := h1
  obtain ⟨b1, b2, b3, b4, b5, l2, b6, b7⟩ := h2
  refine ⟨b1.trans a1, b2.trans a2, b3.trans a3, b4.trans a4, b5.trans a5, l1 ++ l2, ?_, ?_⟩
  · rw [b6, a6, List.append_assoc]
  · intro e he
    rcases List.mem_append.1 he with h | h
    · exact a7 e h
    · exact b7 e h

theorem framed_ite {a b c : MQTTManager τ} (p : Prop) [Decidable p] (h1 : Framed a b)
    (h2 : Framed a c) : Framed a (if p then b else c) := by
  split
  · exact h1
  · exact h2

theorem publish_framed (P : Platform τ) (now : Nat) (m : MQTTManager τ)
    (topic payload : Str) (retained : Bool) :
    Framed m (MQTTManager.publish P now m topic payload retained).2 := by
  unfold MQTTManager.publish
  simp only
  split
  · exact ⟨rfl, rfl, rfl, rfl, rfl, [], by simp, by simp⟩
  · exact ⟨rfl, rfl, rfl, rfl, rfl, _, rfl, by simp [isConnection]⟩

theorem publishJson_framed (P : Platform τ) (now : Nat) (m : MQTTManager τ)
    (topic : Str) (doc : Json) (retained : Bool) :
    Framed m (MQTTManager.publishJson P now m topic doc retained).2 :=
  publish_framed P now m _ _ _

theorem publishStatus_framed (P : Platform τ) (now : Nat) (m : MQTTManager τ)
    (status : Str) : Framed m (MQTTManager.publishStatus P now m status).2 :=
  publish_framed P now m _ _ _

theorem subscribe_framed (P : Platform τ) (m : MQTTManager τ) (topic : Str) (qos : Nat) :
    Framed m (MQTTManager.subscribe P m topic qos).2 := by
  unfold MQTTManager.subscribe
  simp only
  split
  · exact ⟨rfl, rfl, rfl, rfl, rfl, [], by simp, by simp⟩
  · split
    · exact ⟨rfl, rfl, rfl, rfl, rfl, _, rfl, by simp [isConnection]⟩
    · exact ⟨rfl, rfl, rfl, rfl, rfl, _, rfl, by simp [isConnection]⟩

theorem broadcastDiscovery_framed (P : Platform τ) (now : Nat) (m : MQTTManager τ) :
    Framed m (MQTTManager.broadcastDiscovery P now m) := by
  have h := publish_framed P now m MQTT_DISCOVERY_TOPIC (P.serializeJson (discoveryDoc P m))
    false
  exact h

theorem sendHeartbeat_framed (P : Platform τ) (now : Nat) (m : MQTTManager τ) :
    Framed m (MQTTManager.sendHeartbeat P now m) :=
  publish_framed P now m _ _ _

theorem outgoingLoop_framed (P : Platform τ) (now : Nat) (budget : Nat) (m : MQTTManager τ) :
    Framed m (outgoingLoop P now budget m) := by
  induction budget generalizing m with
  | zero => exact framed_refl m
  | succ b ih =>
    unfold outgoingLoop
    split
    · exact framed_refl m
    · simp only
      split
      · refine framed_trans ?_ (ih _)
        exact publish_framed P now m _ _ _
      · exact publish_framed P now m _ _ _

theorem processOutgoingQueue_framed (P : Platform τ) (now : Nat) (m : MQTTManager τ) :
    Framed m (MQTTManager.processOutgoingQueue P now m) := by
  unfold MQTTManager.processOutgoingQueue
  split
  · exact framed_refl m
  · simp only
    split
    · exact framed_refl m
    · refine framed_trans ?_ (outgoingLoop_framed P now 5 _)
      exact framed_refl m

/-- A discovery payload either changes nothing or stores the record it decodes to. -/
theorem processDiscoveryMessage_cases (P : Platform τ) (now : Nat) (m : MQTTManager τ)
    (payload : Str) :
    MQTTManager.processDiscoveryMessage P now m payload = m ∨
    ∃ doc, P.deserializeJson payload = some doc ∧
      (doc.get "nodeId".toList).asString P ≠ m.nodeId ∧
      MQTTManager.processDiscoveryMessage P now m payload =
        { m with
          discoveredNodes :=
            mapInsert (decodeNode P now doc).nodeId (decodeNode P now doc) m.discoveredNodes,
          trace := m.trace ++
            (if mapFind (decodeNode P now doc).nodeId m.discoveredNodes = none then
              m.discoveryCallbacks.map (fun cb => Effect.discovered cb (decodeNode P now doc))
             else []) } := by
  by_cases hskip : P.deserializeJson payload = none ∨
      ∃ doc, P.deserializeJson payload = some doc ∧
        (doc.get "nodeId".toList).asString P = m.nodeId
  · exact Or.inl (processDiscoveryMessage_skip P now m payload hskip)
  · cases hd : P.deserializeJson payload with
    | none => exact absurd (Or.inl hd) hskip
    | some doc =>
      have hother : (doc.get "nodeId".toList).asString P ≠ m.nodeId :=
        fun he => hskip (Or.inr ⟨doc, hd, he⟩)
      exact Or.inr ⟨doc, rfl, hother, processDiscoveryMessage_step P now m payload doc hd hother⟩

theorem processDiscoveryMessage_framed (P : Platform τ) (now : Nat) (m : MQTTManager τ)
    (payload : Str) : Framed m (MQTTManager.processDiscoveryMessage P now m payload) := by
  rcases processDiscoveryMessage_cases P now m payload with h | ⟨doc, _, _, h⟩
  · rw [h]
    exact framed_refl m
  · rw [h]
    refine ⟨rfl, rfl, rfl, rfl, rfl, _, rfl, ?_⟩
    intro e he
    split at he
    · obtain ⟨cb, _, hcb⟩ := List.mem_map.1 he
      rw [← hcb]
      rfl
    · cases he

theorem mem_routeAll_not_connection (t pl : Str) (cbs : List (Str × Nat)) :
    ∀ e ∈ routeAll t pl cbs, isConnection e = false := by
  intro e he
  obtain ⟨q, _, hq⟩ := (mem_routeAll _ _ _ _).1 he
  rw [(mem_routeEntry _ _ _ _ hq).1]
  rfl

theorem handleMessage_framed (P : Platform τ) (now : Nat) (m : MQTTManager τ)
    (topic : Str) (payload : List Char) :
    Framed m (MQTTManager.handleMessage P now m topic payload) := by
  unfold MQTTManager.handleMessage
  simp only
  split
  · refine framed_trans ?_ (processDiscoveryMessage_framed P now _ _)
    exact ⟨rfl, rfl, rfl, rfl, rfl, [], by simp, by simp⟩
  · exact ⟨rfl, rfl, rfl, rfl, rfl, _, rfl, mem_routeAll_not_connection _ _ _⟩

theorem handleAll_framed (P : Platform τ) (now : Nat) (inbound : List (Str × List Char))
    (m : MQTTManager τ) : Framed m (handleAll P now m inbound) := by
  induction inbound generalizing m with
  | nil => exact framed_refl m
  | cons x rest ih =>
    obtain ⟨topic, payload⟩ := x
    exact framed_trans (handleMessage_framed P now m topic payload) (ih _)

/-- A tick that finds the transport connected leaves the connection state, the observers
and the reconnect timer alone and calls no connection-state observer. -/
theorem loop_connected_framed (P : Platform τ) (now : Nat) (m : MQTTManager τ)
    (hup : (P.connected m.mqttClient).1 = true) : Framed m (MQTTManager.loop P now m) := by
  unfold MQTTManager.loop
  simp only [hup, Bool.not_true, Bool.false_eq_true, if_false, MQTTManager.pruneStale]
  have base : Framed m
      (MQTTManager.processIncomingQueue (MQTTManager.processOutgoingQueue P now
        (handleAll P now { m with mqttClient := (P.poll (P.connected m.mqttClient).2).2 }
          (P.poll (P.connected m.mqttClient).2).1))) := by
    have h1 : Framed m { m with mqttClient := (P.poll (P.connected m.mqttClient).2).2 } :=
      ⟨rfl, rfl, rfl, rfl, rfl, [], by simp, by simp⟩
    have h2 := framed_trans h1 (handleAll_framed P now (P.poll (P.connected m.mqttClient).2).1 _)
    have h3 := framed_trans h2 (processOutgoingQueue_framed P now _)
    exact h3
  have hb : ∀ x : MQTTManager τ, Framed m x →
      Framed m (if sub32 now x.lastHeartbeat > 30000 then
        { MQTTManager.sendHeartbeat P now x with lastHeartbeat := now } else x) := by
    intro x hx
    apply framed_ite
    · exact framed_trans hx (sendHeartbeat_framed P now x)
    · exact hx
  have hd : ∀ x : MQTTManager τ, Framed m x →
      Framed m (if (x.autoDiscovery && decide (sub32 now x.lastDiscoveryBroadcast > 300000))
          = true then MQTTManager.broadcastDiscovery P now x else x) := by
    intro x hx
    apply framed_ite
    · exact framed_trans hx (broadcastDiscovery_framed P now x)
    · exact hx
  exact hd _ (hb _ base)


theorem connectAs_no_wifi (P : Platform τ) (now : Nat) (m : MQTTManager τ) (id : Str)
    (hwifi : P.wifiConnected m.mqttClient = false) :
    MQTTManager.connectAs P now m id = (false, { m with state := .MQTT_ERROR }) := by
  simp only [MQTTManager.connectAs, hwifi, Bool.not_false, if_true]

theorem connectAs_refused (P : Platform τ) (now : Nat) (m : MQTTManager τ) (id : Str)
    (hwifi : P.wifiConnected m.mqttClient = true) (hr : (linkAttempt P m id).1 = false) :
    MQTTManager.connectAs P now m id =
      (false, { m with mqttClient := (linkAttempt P m id).2, state := .MQTT_ERROR,
                       trace := m.trace ++
                         m.connectionCallbacks.map (fun cb => Effect.connection cb false) }) := by
  unfold linkAttempt at hr
  simp only [MQTTManager.connectAs, hwifi, Bool.not_true, Bool.false_eq_true, if_false, hr,
    linkAttempt]

theorem connectAs_accepted (P : Platform τ) (now : Nat) (m : MQTTManager τ) (id : Str)
    (hwifi : P.wifiConnected m.mqttClient = true) (hr : (linkAttempt P m id).1 = true) :
    MQTTManager.connectAs P now m id =
      (true,
        { afterLink P now
            { m with mqttClient := (linkAttempt P m id).2, state := .MQTT_CONNECTED } with
          trace :=
            (afterLink P now
              { m with mqttClient := (linkAttempt P m id).2, state := .MQTT_CONNECTED }).trace ++
            (afterLink P now
              { m with mqttClient := (linkAttempt P m id).2,
                       state := .MQTT_CONNECTED }).connectionCallbacks.map
              (fun cb => Effect.connection cb true) }) := by
  unfold linkAttempt at hr
  simp only [MQTTManager.connectAs, hwifi, Bool.not_true, Bool.false_eq_true, if_false, hr,
    linkAttempt, afterLink, if_true]

theorem afterLink_framed (P : Platform τ) (now : Nat) (m1 : MQTTManager τ) :
    Framed m1 (afterLink P now m1) := by
  unfold afterLink
  simp only
  apply framed_ite
  · refine framed_trans ?_ (broadcastDiscovery_framed P now _)
    refine framed_trans ?_ (subscribe_framed P _ _ _)
    refine framed_trans ?_ (subscribe_framed P _ _ _)
    refine framed_trans ?_ (subscribe_framed P _ _ _)
    exact publishStatus_framed P now m1 _
  · refine framed_trans ?_ (subscribe_framed P _ _ _)
    refine framed_trans ?_ (subscribe_framed P _ _ _)
    refine framed_trans ?_ (subscribe_framed P _ _ _)
    exact publishStatus_framed P now m1 _

/-- The state `connect(id)` leaves: connected exactly when it returns `true`. -/
theorem connectAs_state (P : Platform τ) (now : Nat) (m : MQTTManager τ) (id : Str) :
    (MQTTManager.connectAs P now m id).2.state =
      if (MQTTManager.connectAs P now m id).1 = true then MQTTState.MQTT_CONNECTED
      else MQTTState.MQTT_ERROR := by
  by_cases hwifi : P.wifiConnected m.mqttClient = true
  · by_cases hr : (linkAttempt P m id).1 = true
    · rw [connectAs_accepted P now m id hwifi hr]
      simp only [if_true]
      exact (afterLink_framed P now _).1
    · have hr' : (linkAttempt P m id).1 = false := by
        cases h : (linkAttempt P m id).1
        · rfl
        · exact absurd h hr
      rw [connectAs_refused P now m id hwifi hr']
      simp
  · have hwifi' : P.wifiConnected m.mqttClient = false := by
      cases h : P.wifiConnected m.mqttClient
      · rfl
      · exact absurd h hwifi
    rw [connectAs_no_wifi P now m id hwifi']
    simp

/-- The connection-state observers `connect(id)` calls: every registered one with `true`
when it succeeds, every one with `false` when the transport refuses, none without WiFi. -/
theorem connectAs_observers (P : Platform τ) (now : Nat) (m : MQTTManager τ) (id : Str) :
    (newEffects m (MQTTManager.connectAs P now m id).2).filter isConnection =
      if (MQTTManager.connectAs P now m id).1 = true then
        m.connectionCallbacks.map (fun cb => Effect.connection cb true)
      else if P.wifiConnected m.mqttClient = true then
        m.connectionCallbacks.map (fun cb => Effect.connection cb false)
      else [] := by
  have hmap : ∀ (b : Bool) (cbs : List Nat),
      (cbs.map (fun cb => Effect.connection cb b)).filter isConnection =
        cbs.map (fun cb => Effect.connection cb b) := by
    intro b cbs
    apply List.filter_eq_self.2
    intro e he
    obtain ⟨cb, _, hcb⟩ := List.mem_map.1 he
    rw [← hcb]
    rfl
  by_cases hwifi : P.wifiConnected m.mqttClient = true
  · by_cases hr : (linkAttempt P m id).1 = true
    · rw [connectAs_accepted P now m id hwifi hr]
      obtain ⟨_, _, _, h4, _, l, h6, h7⟩ := afterLink_framed P now
        { m with mqttClient := (linkAttempt P m id).2, state := .MQTT_CONNECTED }
      simp only [if_true, h4]
      rw [newEffects_of_append m _ (l ++ m.connectionCallbacks.map
        (fun cb => Effect.connection cb true)) (by simp only [h6, List.append_assoc])]
      rw [List.filter_append, hmap, List.filter_eq_nil_iff.2 (fun e he => by simp [h7 e he])]
      rfl
    · have hr' : (linkAttempt P m id).1 = false := by
        cases h : (linkAttempt P m id).1
        · rfl
        · exact absurd h hr
      rw [connectAs_refused P now m id hwifi hr']
      simp only [Bool.false_eq_true, if_false, hwifi, if_true]
      rw [newEffects_of_append m _ _ rfl, hmap]
  · have hwifi' : P.wifiConnected m.mqttClient = false := by
      cases h : P.wifiConnected m.mqttClient
      · rfl
      · exact absurd h hwifi
    rw [connectAs_no_wifi P now m id hwifi']
    simp only [Bool.false_eq_true, if_false, hwifi']
    rw [newEffects_of_append m _ [] (by simp)]
    rfl

/-- A tick that finds the transport disconnected and makes no connect attempt changes
nothing but the world. -/
theorem loop_idle (P : Platform τ) (now : Nat) (m : MQTTManager τ)
    (hdown : (P.connected m.mqttClient).1 = false)
    (hidle : (P.connected (P.connected m.mqttClient).2).1 = true ∨
      ¬ sub32 now m.lastReconnectAttempt > MQTT_RECONNECT_DELAY) :
    MQTTManager.loop P now m =
      { m with mqttClient := (P.connected (P.connected m.mqttClient).2).2 } := by
  unfold MQTTManager.loop MQTTManager.reconnect
  rcases hidle with h | h
  · simp [hdown, h]
  · by_cases h2 : (P.connected (P.connected m.mqttClient).2).1 = true
    · simp [hdown, h2]
    · simp [hdown, h2, h]

/-- A tick that finds the transport disconnected at both checks, with the backoff
elapsed, is one connect attempt. -/
theorem loop_attempt (P : Platform τ) (now : Nat) (m : MQTTManager τ)
    (hdown : (P.connected m.mqttClient).1 = false)
    (hdown2 : (P.connected (P.connected m.mqttClient).2).1 = false)
    (hdue : sub32 now m.lastReconnectAttempt > MQTT_RECONNECT_DELAY) :
    MQTTManager.loop P now m =
      (MQTTManager.connect P now
        { m with mqttClient := (P.connected (P.connected m.mqttClient).2).2,
                 lastReconnectAttempt := now }).2 := by
  unfold MQTTManager.loop MQTTManager.reconnect
  simp [hdown, hdown2, hdue]

set_option maxRecDepth 100000 in
/-- C12 (counterexample): the link was lost after a successful connect; a tick at time
2000, inside the reconnect backoff, leaves the state `MQTT_CONNECTED` although the
transport reports disconnected. -/
theorem C12_state_stays_connected_after_link_loss :
    (MQTTManager.loop scripted 2000 heardThenLost).state = MQTTState.MQTT_CONNECTED ∧
    (scripted.connected (MQTTManager.loop scripted 2000 heardThenLost).mqttClient).1 =
      false := by
  decide

/-- C12 (amended): `loop` writes the connection state only through a connect attempt.
When the transport reports disconnected at both checks of the tick and more than
`MQTT_RECONNECT_DELAY` ms passed since the last attempt, the state after the tick is
`MQTT_CONNECTED` if that connect attempt succeeded and `MQTT_ERROR` if it failed; every
other tick leaves the state as it was. -/
theorem C12_tick_changes_state_only_by_connect (P : Platform τ) (now : Nat)
    (m : MQTTManager τ) :
    if (P.connected m.mqttClient).1 = false ∧
        (P.connected (P.connected m.mqttClient).2).1 = false ∧
        sub32 now m.lastReconnectAttempt > MQTT_RECONNECT_DELAY then
      (MQTTManager.loop P now m).state =
        if (MQTTManager.connect P now
            { m with mqttClient := (P.connected (P.connected m.mqttClient).2).2,
                     lastReconnectAttempt := now }).1 = true
        then MQTTState.MQTT_CONNECTED else MQTTState.MQTT_ERROR
    else (MQTTManager.loop P now m).state = m.state := by
  by_cases hup : (P.connected m.mqttClient).1 = true
  · have hc : ¬ ((P.connected m.mqttClient).1 = false ∧
        (P.connected (P.connected m.mqttClient).2).1 = false ∧
        sub32 now m.lastReconnectAttempt > MQTT_RECONNECT_DELAY) := by
      rintro ⟨h, _⟩
      rw [hup] at h
      cases h
    rw [if_neg hc]
    exact (loop_connected_framed P now m hup).1
  · have hdown : (P.connected m.mqttClient).1 = false := by
      cases h : (P.connected m.mqttClient).1
      · rfl
      · exact absurd h hup
    by_cases hidle : (P.connected (P.connected m.mqttClient).2).1 = true ∨
        ¬ sub32 now m.lastReconnectAttempt > MQTT_RECONNECT_DELAY
    · have hc : ¬ ((P.connected m.mqttClient).1 = false ∧
          (P.connected (P.connected m.mqttClient).2).1 = false ∧
          sub32 now m.lastReconnectAttempt > MQTT_RECONNECT_DELAY) := by
        rintro ⟨_, h2, h3⟩
        rcases hidle with h | h
        · rw [h2] at h
          cases h
        · exact h h3
      rw [if_neg hc, loop_idle P now m hdown hidle]
    · have hdown2 : (P.connected (P.connected m.mqttClient).2).1 = false := by
        cases h : (P.connected (P.connected m.mqttClient).2).1
        · rfl
        · exact absurd (Or.inl h) hidle
      have hdue : sub32 now m.lastReconnectAttempt > MQTT_RECONNECT_DELAY := by
        by_contra h
        exact hidle (Or.inr h)
      rw [if_pos ⟨hdown, hdown2, hdue⟩, loop_attempt P now m hdown hdown2 hdue]
      exact connectAs_state P now _ _

set_option maxRecDepth 100000 in
/-- C14 (counterexample): observer 9 is registered and the link was lost after a
successful connect; the tick at time 2000 that meets the lost link leaves the state
`MQTT_CONNECTED` and calls no observer. -/
theorem C14_lost_link_is_not_announced :
    watchedThenLost.connectionCallbacks = [9] ∧
    (scripted.connected watchedThenLost.mqttClient).1 = false ∧
    (MQTTManager.loop scripted 2000 watchedThenLost).state = MQTTState.MQTT_CONNECTED ∧
    newEffects watchedThenLost (MQTTManager.loop scripted 2000 watchedThenLost) = [] := by
  decide

/-- C14 (amended): `disconnect` leaves the state `MQTT_DISCONNECTED`. The connection-state
observers are called by `connect`: every registered observer once with `true` when the
connect succeeds, every one once with `false` when the transport refuses the connection,
none when WiFi is down. A tick that finds the transport disconnected and makes no connect
attempt leaves the state as it was and calls no observer. -/
theorem C14_observers_hear_connect_attempts (P : Platform τ) (now : Nat)
    (m : MQTTManager τ) :
    (MQTTManager.disconnect P now m).state = MQTTState.MQTT_DISCONNECTED ∧
    ((newEffects m (MQTTManager.connect P now m).2).filter isConnection =
      if (MQTTManager.connect P now m).1 = true then
        m.connectionCallbacks.map (fun cb => Effect.connection cb true)
      else if P.wifiConnected m.mqttClient = true then
        m.connectionCallbacks.map (fun cb => Effect.connection cb false)
      else []) ∧
    ((P.connected m.mqttClient).1 = false →
      ¬ sub32 now m.lastReconnectAttempt > MQTT_RECONNECT_DELAY →
      (MQTTManager.loop P now m).state = m.state ∧
      newEffects m (MQTTManager.loop P now m) = []) := by
  refine ⟨rfl, connectAs_observers P now m m.clientId, ?_⟩
  intro hdown hwithin
  rw [loop_idle P now m hdown (Or.inr hwithin)]
  exact ⟨rfl, newEffects_of_append _ _ [] (by simp)⟩

set_option maxRecDepth 100000 in
/-- Witness for C14: observer 9 hears the successful connect of the coordinator once,
with `true`; the tick that meets the lost link at time 2000 is inside the backoff. -/
theorem C14_observers_hear_connect_attempts_witness :
    (MQTTManager.connect scripted 0
      { MQTTManager.onDisconnect coordinator 9 with
        mqttClient := List.replicate 11 true }).1 = true ∧
    (newEffects { MQTTManager.onDisconnect coordinator 9 with
        mqttClient := List.replicate 11 true } watchedThenLost).filter isConnection =
      [Effect.connection 9 true] ∧
    (MQTTManager.loop scripted 2000 watchedThenLost).state = watchedThenLost.state :=
  have h2 := C14_observers_hear_connect_attempts scripted 2000 watchedThenLost
  ⟨by decide, by decide, (h2.2.2 (by decide) (by decide)).1⟩

theorem subscribeCalls_append (l1 l2 : List Effect) :
    subscribeCalls (l1 ++ l2) = subscribeCalls l1 ++ subscribeCalls l2 := by
  induction l1 with
  | nil => rfl
  | cons e rest ih =>
    cases e <;> simp [subscribeCalls, ih]

theorem upStep_refl (Up : τ → Prop) (m : MQTTManager τ) (h : Up m.mqttClient) :
    UpStep Up [] m m :=
  ⟨h, rfl, rfl, rfl, rfl, rfl, [], by simp, by simp, rfl⟩

theorem upStep_trans {Up : τ → Prop} (c1 c2 : List (Str × Nat)) {a b c : MQTTManager τ}
    (h1 : UpStep Up c1 a b) (h2 : UpStep Up c2 b c) : UpStep Up (c1 ++ c2) a c := by
  obtain ⟨_, a2, a3, a4, a5, a6, l1, a7, a8, a9⟩ := h1
  obtain ⟨b1, b2, b3, b4, b5, b6, l2, b7, b8, b9⟩ := h2
  refine ⟨b1, b2.trans a2, b3.trans a3, b4.trans a4, b5.trans a5, b6.trans a6, l1 ++ l2,
    ?_, ?_, ?_⟩
  · rw [b7, a7, List.append_assoc]
  · intro e he
    rcases List.mem_append.1 he with h | h
    · exact a8 e h
    · exact b8 e h
  · rw [subscribeCalls_append, a9, b9]

/-- While the link is up `publish` hands the message over and the transport accepts. -/
theorem publish_up (P : Platform τ) (Up : τ → Prop) (hUp : LinkUp P Up) (now : Nat)
    (m : MQTTManager τ) (topic payload : Str) (retained : Bool) (h : Up m.mqttClient) :
    (MQTTManager.publish P now m topic payload retained).1 = true ∧
    (MQTTManager.publish P now m topic payload retained).2.trace =
      m.trace ++ [Effect.wire topic payload retained true] ∧
    UpStep Up [] m (MQTTManager.publish P now m topic payload retained).2 := by
  obtain ⟨c1, c2⟩ := hUp.connected _ h
  obtain ⟨p1, p2⟩ := hUp.publish topic payload retained _ c2
  unfold MQTTManager.publish
  simp only [c1, Bool.not_true, Bool.false_eq_true, if_false, p1]
  exact ⟨trivial, trivial, p2, rfl, rfl, rfl, rfl, rfl, _, rfl, by simp [isConnection], rfl⟩

theorem subscribe_up (P : Platform τ) (Up : τ → Prop) (hUp : LinkUp P Up)
    (m : MQTTManager τ) (topic : Str) (qos : Nat) (h : Up m.mqttClient) :
    UpStep Up [(topic, qos)] m (MQTTManager.subscribe P m topic qos).2 := by
  obtain ⟨c1, c2⟩ := hUp.connected _ h
  have s2 := hUp.subscribe topic qos _ c2
  unfold MQTTManager.subscribe
  simp only [c1, Bool.not_true, Bool.false_eq_true, if_false]
  split
  · exact ⟨s2, rfl, rfl, rfl, rfl, rfl, _, rfl, by simp [isConnection], rfl⟩
  · exact ⟨s2, rfl, rfl, rfl, rfl, rfl, _, rfl, by simp [isConnection], rfl⟩

theorem broadcastDiscovery_up (P : Platform τ) (Up : τ → Prop) (hUp : LinkUp P Up)
    (now : Nat) (m : MQTTManager τ) (h : Up m.mqttClient) :
    UpStep Up [] m (MQTTManager.broadcastDiscovery P now m) :=
  (publish_up P Up hUp now m MQTT_DISCOVERY_TOPIC (P.serializeJson (discoveryDoc P m)) false
    h).2.2

theorem sendHeartbeat_up (P : Platform τ) (Up : τ → Prop) (hUp : LinkUp P Up)
    (now : Nat) (m : MQTTManager τ) (h : Up m.mqttClient) :
    UpStep Up [] m (MQTTManager.sendHeartbeat P now m) :=
  (publish_up P Up hUp now m _ _ false h).2.2

/-- While the link is up, the steps of `connect` after the transport accepted make
exactly the three baseline subscriptions and leave the outgoing queue alone. -/
theorem afterLink_up (P : Platform τ) (Up : τ → Prop) (hUp : LinkUp P Up) (now : Nat)
    (m1 : MQTTManager τ) (h : Up m1.mqttClient) :
    UpStep Up (baselineSubscriptions m1.nodeId) m1 (afterLink P now m1) := by
  have s2 : UpStep Up [] m1 (MQTTManager.publishStatus P now m1 "online".toList).2 :=
    (publish_up P Up hUp now m1 _ _ true h).2.2
  have hn : (MQTTManager.publishStatus P now m1 "online".toList).2.nodeId = m1.nodeId :=
    s2.2.2.2.1
  have s3 := upStep_trans [] _ s2 (subscribe_up P Up hUp _
    (buildTopic ("cmd/".toList ++ m1.nodeId ++ "/#".toList)) 0 s2.1)
  have s4 := upStep_trans _ _ s3 (subscribe_up P Up hUp _
    (buildTopic "cmd/all/#".toList) 0 s3.1)
  have s5 := upStep_trans _ _ s4 (subscribe_up P Up hUp _ MQTT_DISCOVERY_TOPIC 0 s4.1)
  have s6 := upStep_trans _ _ s5 (broadcastDiscovery_up P Up hUp now _ s5.1)
  unfold afterLink
  simp only [hn]
  split
  · exact s6
  · exact s5

/-- A connect that the transport accepts into a link that stays up: it returns `true`,
leaves the outgoing queue alone and subscribes the three baseline patterns only. -/
theorem connectAs_up (P : Platform τ) (Up : τ → Prop) (hUp : LinkUp P Up) (now : Nat)
    (m : MQTTManager τ) (id : Str)
    (hwifi : P.wifiConnected m.mqttClient = true)
    (hlink : (linkAttempt P m id).1 = true ∧ Up (linkAttempt P m id).2) :
    (MQTTManager.connectAs P now m id).1 = true ∧
    Up (MQTTManager.connectAs P now m id).2.mqttClient ∧
    (MQTTManager.connectAs P now m id).2.outgoingQueue = m.outgoingQueue ∧
    subscribeCalls (newEffects m (MQTTManager.connectAs P now m id).2) =
      baselineSubscriptions m.nodeId := by
  obtain ⟨u1, u2, _, _, _, _, l, u7, _, u9⟩ := afterLink_up P Up hUp now
    { m with mqttClient := (linkAttempt P m id).2, state := .MQTT_CONNECTED } hlink.2
  rw [connectAs_accepted P now m id hwifi hlink.1]
  refine ⟨rfl, u1, u2, ?_⟩
  rw [newEffects_of_append m _ (l ++ (afterLink P now
      { m with mqttClient := (linkAttempt P m id).2,
               state := .MQTT_CONNECTED }).connectionCallbacks.map
      (fun cb => Effect.connection cb true)) (by simp only [u7, List.append_assoc])]
  rw [subscribeCalls_append, u9]
  have hz : ∀ cbs : List Nat,
      subscribeCalls (cbs.map (fun cb => Effect.connection cb true)) = [] := by
    intro cbs
    induction cbs with
    | nil => rfl
    | cons c rest ih => simpa [subscribeCalls] using ih
  rw [hz]
  simp

/-- C13 (counterexample): gateway `GW_3` has the pattern `luces/zone/A/#` in its handler
table and in its subscribed-topics list; a successful connect subscribes the three
baseline patterns on the transport and not `luces/zone/A/#`. -/
theorem C13_registered_pattern_not_resubscribed :
    mapFind "luces/zone/A/#".toList zoneGateway.topicCallbacks = some 4 ∧
    "luces/zone/A/#".toList ∈ zoneGateway.subscribedTopics ∧
    (MQTTManager.connect alwaysUp 50
      { zoneGateway with mqttClient := List.replicate 6 true }).1 = true ∧
    subscribeCalls (newEffects { zoneGateway with mqttClient := List.replicate 6 true }
      (MQTTManager.connect alwaysUp 50
        { zoneGateway with mqttClient := List.replicate 6 true }).2) =
      [("luces/cmd/GW_3/#".toList, 0), ("luces/cmd/all/#".toList, 0),
       ("luces/discovery".toList, 0)] := by
  decide

/-- C13 (amended): a connect that the transport accepts, on a link that then stays up,
returns `true` and makes exactly three subscriptions on the transport, in this order and
with QoS 0: `cmd/<nodeId>/#` and `cmd/all/#` under the base topic, and the discovery
topic. No key of the handler table and no other entry of the subscribed-topics list is
subscribed again. -/
theorem C13_connect_subscribes_baseline_only (P : Platform τ) (Up : τ → Prop)
    (hUp : LinkUp P Up) (now : Nat) (m : MQTTManager τ)
    (hwifi : P.wifiConnected m.mqttClient = true)
    (hlink : (linkAttempt P m m.clientId).1 = true ∧ Up (linkAttempt P m m.clientId).2) :
    (MQTTManager.connect P now m).1 = true ∧
    subscribeCalls (newEffects m (MQTTManager.connect P now m).2) =
      [(buildTopic ("cmd/".toList ++ m.nodeId ++ "/#".toList), 0),
       (buildTopic "cmd/all/#".toList, 0),
       (MQTT_DISCOVERY_TOPIC, 0)] := by
  have h := connectAs_up P Up hUp now m m.clientId hwifi hlink
  exact ⟨h.1, h.2.2.2⟩

theorem switched_linkUp : LinkUp switched (fun w => w = true) :=
  { connected := fun _ hw => ⟨hw, hw⟩
    publish := fun _ _ _ _ hw => ⟨hw, hw⟩
    subscribe := fun _ _ _ hw => hw
    poll := fun _ hw => hw }

/-- Witness for C13: gateway `GW_3` connects on a platform whose link comes up with the
connect and stays up. -/
theorem C13_connect_subscribes_baseline_only_witness :
    LinkUp switched (fun w => w = true) ∧
    switched.wifiConnected false = true ∧
    (MQTTManager.connect switched 50 { zoneGateway with mqttClient := false }).1 = true ∧
    subscribeCalls (newEffects { zoneGateway with mqttClient := false }
      (MQTTManager.connect switched 50 { zoneGateway with mqttClient := false }).2) =
      [(buildTopic ("cmd/".toList ++ "GW_3".toList ++ "/#".toList), 0),
       (buildTopic "cmd/all/#".toList, 0),
       (MQTT_DISCOVERY_TOPIC, 0)] :=
  ⟨switched_linkUp, rfl,
    C13_connect_subscribes_baseline_only switched (fun w => w = true) switched_linkUp 50
      { zoneGateway with mqttClient := false } rfl ⟨rfl, rfl⟩⟩

theorem handleMessage_transport (P : Platform τ) (now : Nat) (m : MQTTManager τ)
    (topic : Str) (payload : List Char) :
    (MQTTManager.handleMessage P now m topic payload).mqttClient = m.mqttClient ∧
    (MQTTManager.handleMessage P now m topic payload).outgoingQueue = m.outgoingQueue ∧
    (MQTTManager.handleMessage P now m topic payload).lastHeartbeat = m.lastHeartbeat ∧
    (MQTTManager.handleMessage P now m topic payload).lastDiscoveryBroadcast =
      m.lastDiscoveryBroadcast := by
  unfold MQTTManager.handleMessage
  simp only
  split
  · rcases processDiscoveryMessage_cases P now
      { m with incomingQueue := m.incomingQueue ++
          [{ topic := topic, payload := cstr payload, qos := 0, retained := false,
             timestamp := now }] } (cstr payload) with h | ⟨_, _, _, h⟩
    · rw [h]
      exact ⟨rfl, rfl, rfl, rfl⟩
    · rw [h]
      exact ⟨rfl, rfl, rfl, rfl⟩
  · exact ⟨rfl, rfl, rfl, rfl⟩

theorem handleAll_transport (P : Platform τ) (now : Nat) (inbound : List (Str × List Char))
    (m : MQTTManager τ) :
    (handleAll P now m inbound).mqttClient = m.mqttClient ∧
    (handleAll P now m inbound).outgoingQueue = m.outgoingQueue := by
  induction inbound generalizing m with
  | nil => exact ⟨rfl, rfl⟩
  | cons x rest ih =>
    obtain ⟨topic, payload⟩ := x
    obtain ⟨h1, h2⟩ := ih (MQTTManager.handleMessage P now m topic payload)
    obtain ⟨g1, g2, _, _⟩ := handleMessage_transport P now m topic payload
    exact ⟨h1.trans g1, h2.trans g2⟩

theorem outgoingLoop_nil (P : Platform τ) (now : Nat) (budget : Nat) (x : MQTTManager τ)
    (hq : x.outgoingQueue = []) : outgoingLoop P now budget x = x := by
  cases budget with
  | zero => rfl
  | succ b =>
    unfold outgoingLoop
    split
    · rfl
    · rename_i msg rest heq
      rw [hq] at heq
      cases heq

theorem outgoingLoop_single_up (P : Platform τ) (Up : τ → Prop) (hUp : LinkUp P Up)
    (now : Nat) (budget : Nat) (x : MQTTManager τ) (e : MQTTMessage) (h : Up x.mqttClient)
    (hq : x.outgoingQueue = [e]) :
    outgoingLoop P now (budget + 1) x =
      { (MQTTManager.publish P now x e.topic e.payload e.retained).2 with
        outgoingQueue := [] } := by
  unfold outgoingLoop
  split
  · rename_i heq
    rw [hq] at heq
    cases heq
  · rename_i msg rest heq
    rw [hq] at heq
    injection heq with h1 h2
    subst h1
    obtain ⟨p1, _, p3⟩ := publish_up P Up hUp now x e.topic e.payload e.retained h
    simp only [p1, if_true]
    have hd : (MQTTManager.publish P now x e.topic e.payload e.retained).2.outgoingQueue.drop 1
        = [] := by
      rw [p3.2.1, hq]
      rfl
    rw [outgoingLoop_nil P now budget _ hd, hd]

/-- While the link is up, flushing a queue of one entry sends it and empties the queue. -/
theorem flush_single_up (P : Platform τ) (Up : τ → Prop) (hUp : LinkUp P Up) (now : Nat)
    (m : MQTTManager τ) (e : MQTTMessage) (h : Up m.mqttClient)
    (hq : m.outgoingQueue = [e]) :
    Up (MQTTManager.processOutgoingQueue P now m).mqttClient ∧
    (MQTTManager.processOutgoingQueue P now m).outgoingQueue = [] ∧
    (MQTTManager.processOutgoingQueue P now m).trace = m.trace ++ [wireOf true e] := by
  obtain ⟨c1, c2⟩ := hUp.connected _ h
  obtain ⟨_, p2, p3⟩ := publish_up P Up hUp now
    { m with mqttClient := (P.connected m.mqttClient).2 } e.topic e.payload e.retained c2
  have hne : m.outgoingQueue.isEmpty = false := by rw [hq]; rfl
  have hrun : MQTTManager.processOutgoingQueue P now m =
      outgoingLoop P now 5 { m with mqttClient := (P.connected m.mqttClient).2 } := by
    simp only [MQTTManager.processOutgoingQueue, hne, Bool.false_eq_true, if_false, c1,
      Bool.not_true]
  have h5 : outgoingLoop P now 5 { m with mqttClient := (P.connected m.mqttClient).2 } =
      { (MQTTManager.publish P now { m with mqttClient := (P.connected m.mqttClient).2 }
          e.topic e.payload e.retained).2 with outgoingQueue := [] } :=
    outgoingLoop_single_up P Up hUp now 4 _ e c2 hq
  rw [hrun, h5]
  exact ⟨p3.1, rfl, p2⟩

/-- While the link is up, a tick on a queue of one entry sends it and leaves the queue
empty. -/
theorem loop_flushes_single_up (P : Platform τ) (Up : τ → Prop) (hUp : LinkUp P Up)
    (now : Nat) (m : MQTTManager τ) (e : MQTTMessage) (h : Up m.mqttClient)
    (hq : m.outgoingQueue = [e]) :
    (MQTTManager.loop P now m).outgoingQueue = [] ∧
    wireOf true e ∈ newEffects m (MQTTManager.loop P now m) := by
  obtain ⟨c1, c2⟩ := hUp.connected _ h
  have c3 := hUp.poll _ c2
  -- the inbound messages
  obtain ⟨_, _, _, _, _, l1, t1, _⟩ := handleAll_framed P now
    (P.poll (P.connected m.mqttClient).2).1
    { m with mqttClient := (P.poll (P.connected m.mqttClient).2).2 }
  obtain ⟨w1, q1⟩ := handleAll_transport P now (P.poll (P.connected m.mqttClient).2).1
    { m with mqttClient := (P.poll (P.connected m.mqttClient).2).2 }
  -- the flush
  obtain ⟨f1, f2, f3⟩ := flush_single_up P Up hUp now
    (handleAll P now { m with mqttClient := (P.poll (P.connected m.mqttClient).2).2 }
      (P.poll (P.connected m.mqttClient).2).1) e (by rw [w1]; exact c3) (by rw [q1]; exact hq)
  -- heartbeat and discovery keep the queue and extend the trace
  have hb : ∀ x : MQTTManager τ, Up x.mqttClient →
      ∃ c, UpStep Up c x (if sub32 now x.lastHeartbeat > 30000 then
        { MQTTManager.sendHeartbeat P now x with lastHeartbeat := now } else x) := by
    intro x hx
    split
    · exact ⟨_, sendHeartbeat_up P Up hUp now x hx⟩
    · exact ⟨_, upStep_refl Up x hx⟩
  have hd : ∀ x y : MQTTManager τ, (∃ c, UpStep Up c x y) →
      ∃ c, UpStep Up c x
        (if (y.autoDiscovery && decide (sub32 now y.lastDiscoveryBroadcast > 300000)) = true
         then MQTTManager.broadcastDiscovery P now y else y) := by
    intro x y hy
    obtain ⟨c, hy⟩ := hy
    split
    · exact ⟨_, upStep_trans _ _ hy (broadcastDiscovery_up P Up hUp now y hy.1)⟩
    · exact ⟨c, hy⟩
  have key : ∃ c, UpStep Up c
      (MQTTManager.processIncomingQueue (MQTTManager.processOutgoingQueue P now
        (handleAll P now { m with mqttClient := (P.poll (P.connected m.mqttClient).2).2 }
          (P.poll (P.connected m.mqttClient).2).1)))
      (MQTTManager.loop P now m) := by
    unfold MQTTManager.loop
    simp only [c1, Bool.not_true, Bool.false_eq_true, if_false, MQTTManager.pruneStale]
    exact hd _ _ (hb _ f1)
  obtain ⟨_, _, k2, _, _, _, _, l3, k7, _, _⟩ := key
  constructor
  · rw [k2]
    exact f2
  · rw [newEffects_of_append m _ (l1 ++ [wireOf true e] ++ l3)
      (by
        rw [k7]
        show (MQTTManager.processOutgoingQueue P now _).trace ++ l3 = _
        rw [f3, t1]
        simp only [List.append_assoc])]
    simp

/-- A command sent while the transport is disconnected is queued; a reconnect into a link
that stays up leaves it queued, and the next tick empties the queue. -/
theorem queued_command_flushed (P : Platform τ) (Up : τ → Prop)
    (hUp : LinkUp P Up) (t1 t2 t3 : Nat) (m : MQTTManager τ) (nodeId command : Str)
    (params : Json) (w : τ)
    (hdown : (P.connected m.mqttClient).1 = false)
    (hempty : m.outgoingQueue = [])
    (hstill : (P.connected w).1 = false)
    (hdue : sub32 t2 m.lastReconnectAttempt > MQTT_RECONNECT_DELAY)
    (hwifi : P.wifiConnected (P.connected w).2 = true)
    (hlink : ∀ id cred wt q r wm,
      (P.connect id cred wt q r wm (P.connected w).2).1 = true ∧
      Up (P.connect id cred wt q r wm (P.connected w).2).2) :
    let queued := MQTTManager.sendCommandToNode P t1 m nodeId command params
    let entry : MQTTMessage :=
      { topic := buildTopic ("cmd/".toList ++ nodeId),
        payload := P.serializeJson (commandDoc t1 m.nodeId command params),
        qos := 0, retained := false, timestamp := t1 }
    let back := MQTTManager.reconnect P t2 { queued.2 with mqttClient := w }
    let flushed := MQTTManager.loop P t3 back.2
    queued.1 = false ∧ queued.2.outgoingQueue = [entry] ∧
    queued.2.mqttClient = (P.connected m.mqttClient).2 ∧ back.1 = true ∧
    Up back.2.mqttClient ∧ back.2.outgoingQueue = [entry] ∧
    flushed.outgoingQueue = [] ∧ wireOf true entry ∈ newEffects back.2 flushed := by
  intro queued entry back flushed
  have hq : queued =
      (false, { m with mqttClient := (P.connected m.mqttClient).2,
                       outgoingQueue := [entry] }) := by
    show MQTTManager.sendCommandToNode P t1 m nodeId command params = _
    simp only [MQTTManager.sendCommandToNode, MQTTManager.publishCommand,
      MQTTManager.publishJson, MQTTManager.publish, hdown, Bool.not_false, if_true, hempty,
      List.nil_append]
  have hback : back = MQTTManager.connect P t2
      { queued.2 with mqttClient := (P.connected w).2, lastReconnectAttempt := t2 } := by
    show MQTTManager.reconnect P t2 { queued.2 with mqttClient := w } = _
    have hd : sub32 t2 queued.2.lastReconnectAttempt > MQTT_RECONNECT_DELAY := by
      rw [hq]
      exact hdue
    simp only [MQTTManager.reconnect, hstill, Bool.not_false, if_true, hd]
  have hl : (linkAttempt P
        { queued.2 with mqttClient := (P.connected w).2, lastReconnectAttempt := t2 }
        queued.2.clientId).1 = true ∧
      Up (linkAttempt P
        { queued.2 with mqttClient := (P.connected w).2, lastReconnectAttempt := t2 }
        queued.2.clientId).2 := by
    unfold linkAttempt
    split
    · exact hlink _ _ _ _ _ _
    · exact hlink _ _ _ _ _ _
  obtain ⟨b1, b2, b3, _⟩ := connectAs_up P Up hUp t2
    { queued.2 with mqttClient := (P.connected w).2, lastReconnectAttempt := t2 }
    queued.2.clientId hwifi hl
  have b1' : back.1 = true := by rw [hback]; exact b1
  have b2' : Up back.2.mqttClient := by rw [hback]; exact b2
  have b3' : back.2.outgoingQueue = [entry] := by
    rw [hback]
    refine b3.trans ?_
    rw [hq]
  obtain ⟨d1, d2⟩ := loop_flushes_single_up P Up hUp t3 back.2 entry b2' b3'
  refine ⟨?_, ?_, ?_, b1', b2', b3', d1, d2⟩
  · rw [hq]
  · rw [hq]
  · rw [hq]

set_option maxRecDepth 100000 in
/-- C16 (evaluation at the failing input): `publish` is called once for the command to
`LUM_2` and returns `false`; the connection drops during the flush of the next tick, after
the command to `LUM_1` was accepted, and the command to `LUM_2` is then in the queue
twice; after the reconnect the transport accepts it twice. -/
theorem C16_dropped_flush_duplicates_message :
    (MQTTManager.publish scripted 10
      (MQTTManager.publish scripted 10 flakyCoordinator
        "luces/cmd/LUM_1".toList "on".toList false).2
      "luces/cmd/LUM_2".toList "off".toList false).1 = false ∧
    ((MQTTManager.loop scripted 100
      (MQTTManager.publish scripted 10
        (MQTTManager.publish scripted 10 flakyCoordinator
          "luces/cmd/LUM_1".toList "on".toList false).2
        "luces/cmd/LUM_2".toList "off".toList false).2).outgoingQueue.map
      MQTTMessage.topic) = ["luces/cmd/LUM_2".toList, "luces/cmd/LUM_2".toList] ∧
    flakyRun.outgoingQueue = [] ∧
    flakyRun.trace.count
      (Effect.wire "luces/cmd/LUM_1".toList "on".toList false true) = 1 ∧
    flakyRun.trace.count
      (Effect.wire "luces/cmd/LUM_2".toList "off".toList false true) = 2 := by
  decide

theorem disconnect_discoveredNodes (P : Platform τ) (now : Nat) (m : MQTTManager τ) :
    (MQTTManager.disconnect P now m).discoveredNodes = m.discoveredNodes := by
  unfold MQTTManager.disconnect
  simp only
  split
  · simp only [MQTTManager.publishStatus, MQTTManager.publishJson, publish_discoveredNodes]
  · rfl

theorem unsubscribe_discoveredNodes (P : Platform τ) (m : MQTTManager τ) (topic : Str) :
    (MQTTManager.unsubscribe P m topic).2.discoveredNodes = m.discoveredNodes := by
  unfold MQTTManager.unsubscribe
  simp only
  split
  · rfl
  · split <;> rfl

/-- A payload that is no record for `id` leaves what the registry holds for `id`. -/
theorem processDiscoveryMessage_find (P : Platform τ) (now : Nat) (m : MQTTManager τ)
    (payload : Str) (id : Str) (hno : announces P id payload = false) :
    mapFind id (MQTTManager.processDiscoveryMessage P now m payload).discoveredNodes =
      mapFind id m.discoveredNodes := by
  rcases processDiscoveryMessage_cases P now m payload with h | ⟨doc, hdec, _, h⟩
  · rw [h]
  · rw [h]
    simp only [announces, hdec, decide_eq_false_iff_not] at hno
    have hne : ¬ id = (decodeNode P now doc).nodeId := fun e => hno e.symm
    simp only [mapFind_mapInsert, hne, if_false]

theorem handleMessage_find (P : Platform τ) (now : Nat) (m : MQTTManager τ)
    (topic : Str) (payload : List Char) (id : Str)
    (hno : inboundAnnounces P id (topic, payload) = false) :
    mapFind id (MQTTManager.handleMessage P now m topic payload).discoveredNodes =
      mapFind id m.discoveredNodes := by
  unfold MQTTManager.handleMessage
  simp only
  split
  · rename_i ht
    have hno' : announces P id (cstr payload) = false := by
      simpa [inboundAnnounces, ht] using hno
    exact processDiscoveryMessage_find P now _ _ id hno'
  · rfl

theorem handleAll_find (P : Platform τ) (now : Nat) (inbound : List (Str × List Char))
    (m : MQTTManager τ) (id : Str) (hno : inbound.any (inboundAnnounces P id) = false) :
    mapFind id (handleAll P now m inbound).discoveredNodes = mapFind id m.discoveredNodes := by
  induction inbound generalizing m with
  | nil => rfl
  | cons x rest ih =>
    obtain ⟨topic, payload⟩ := x
    simp only [List.any_cons, Bool.or_eq_false_iff] at hno
    simp only [handleAll]
    rw [ih _ hno.2, handleMessage_find P now m topic payload id hno.1]

/-- A tick keeps every node of the registry. -/
theorem loop_keeps_keys (P : Platform τ) (now : Nat) (m : MQTTManager τ) (id : Str)
    (hid : id ∈ mapKeys m.discoveredNodes) :
    id ∈ mapKeys (MQTTManager.loop P now m).discoveredNodes := by
  by_cases hup : (P.connected m.mqttClient).1 = true
  · rw [loop_connected_registry P now m hup, mapKeys_pruneNodes]
    exact handleAll_keeps_keys P now _ _ id hid
  · have hdown : (P.connected m.mqttClient).1 = false := by
      cases h : (P.connected m.mqttClient).1
      · rfl
      · exact absurd h hup
    rw [loop_disconnected_registry P now m hdown]
    exact hid

/-- A tick without a discovery record for `id` changes at most the `online` flag of the
record stored for `id`. -/
theorem loop_find (P : Platform τ) (now : Nat) (m : MQTTManager τ) (id : Str)
    (hno : (P.poll (P.connected m.mqttClient).2).1.any (inboundAnnounces P id) = false) :
    mapFind id (MQTTManager.loop P now m).discoveredNodes =
      mapFind id m.discoveredNodes ∨
    mapFind id (MQTTManager.loop P now m).discoveredNodes =
      (mapFind id m.discoveredNodes).map (fun node =>
        if sub32 now node.lastSeen > 600000 then { node with online := false } else node) := by
  by_cases hup : (P.connected m.mqttClient).1 = true
  · right
    rw [loop_connected_registry P now m hup, mapFind_pruneNodes, handleAll_find P now _ _ id hno]
  · have hdown : (P.connected m.mqttClient).1 = false := by
      cases h : (P.connected m.mqttClient).1
      · rfl
      · exact absurd h hup
    left
    rw [loop_disconnected_registry P now m hdown]

/-- C19: no operation of `MQTTManager` removes a node from the registry, and an operation
that observes no discovery record for a node leaves the `nodeId`, type, ip, mac, version,
capabilities and `lastSeen` stored for that node as they were. -/
theorem C19_registry_only_grows (P : Platform τ) (now : Nat) (m : MQTTManager τ) (op : Op) :
    (∀ id, id ∈ mapKeys m.discoveredNodes →
      id ∈ mapKeys (step P now m op).discoveredNodes) ∧
    (∀ id node, mapFind id m.discoveredNodes = some node → observes P m id op = false →
      ∃ node', mapFind id (step P now m op).discoveredNodes = some node' ∧
        node'.nodeId = node.nodeId ∧ node'.type = node.type ∧ node'.ip = node.ip ∧
        node'.mac = node.mac ∧ node'.version = node.version ∧
        node'.metadata = node.metadata ∧ node'.lastSeen = node.lastSeen) := by
  have same : ∀ x : MQTTManager τ, x.discoveredNodes = m.discoveredNodes →
      (∀ id, id ∈ mapKeys m.discoveredNodes → id ∈ mapKeys x.discoveredNodes) ∧
      (∀ id node, mapFind id m.discoveredNodes = some node →
        ∃ node', mapFind id x.discoveredNodes = some node' ∧
          node'.nodeId = node.nodeId ∧ node'.type = node.type ∧ node'.ip = node.ip ∧
          node'.mac = node.mac ∧ node'.version = node.version ∧
          node'.metadata = node.metadata ∧ node'.lastSeen = node.lastSeen) := by
    intro x hx
    rw [hx]
    exact ⟨fun _ h => h, fun _ node h => ⟨node, h, rfl, rfl, rfl, rfl, rfl, rfl, rfl⟩⟩
  have found : ∀ (x : MQTTManager τ) (id : Str) (node : NodeInfo),
      mapFind id m.discoveredNodes = some node →
      mapFind id x.discoveredNodes = mapFind id m.discoveredNodes →
      ∃ node', mapFind id x.discoveredNodes = some node' ∧
        node'.nodeId = node.nodeId ∧ node'.type = node.type ∧ node'.ip = node.ip ∧
        node'.mac = node.mac ∧ node'.version = node.version ∧
        node'.metadata = node.metadata ∧ node'.lastSeen = node.lastSeen := by
    intro x id node h hx
    exact ⟨node, hx.trans h, rfl, rfl, rfl, rfl, rfl, rfl, rfl⟩
  cases op with
  | handleMessage topic payload =>
    exact ⟨fun id h => handleMessage_keeps_keys P now m topic payload id h,
      fun id node h hno => found _ id node h (handleMessage_find P now m topic payload id hno)⟩
  | processDiscoveryMessage payload =>
    exact ⟨fun id h => processDiscoveryMessage_keeps_keys P now m payload id h,
      fun id node h hno => found _ id node h (processDiscoveryMessage_find P now m payload id hno)⟩
  | loop =>
    refine ⟨fun id h => loop_keeps_keys P now m id h, ?_⟩
    intro id node h hno
    rcases loop_find P now m id hno with hl | hl
    · exact found _ id node h hl
    · refine ⟨if sub32 now node.lastSeen > 600000 then { node with online := false } else node,
        ?_, ?_⟩
      · rw [show step P now m Op.loop = MQTTManager.loop P now m from rfl, hl, h]
        rfl
      · split <;> exact ⟨rfl, rfl, rfl, rfl, rfl, rfl, rfl⟩
  | connect =>
    have h := same (step P now m Op.connect) (connectAs_discoveredNodes P now m m.clientId)
    exact ⟨h.1, fun id node hf _ => h.2 id node hf⟩
  | disconnect =>
    have h := same (step P now m Op.disconnect) (disconnect_discoveredNodes P now m)
    exact ⟨h.1, fun id node hf _ => h.2 id node hf⟩
  | publish topic payload retained =>
    have h := same (step P now m (Op.publish topic payload retained))
      (publish_discoveredNodes P now m topic payload retained)
    exact ⟨h.1, fun id node hf _ => h.2 id node hf⟩
  | subscribe topic qos =>
    have h := same (step P now m (Op.subscribe topic qos))
      (subscribe_discoveredNodes P m topic qos)
    exact ⟨h.1, fun id node hf _ => h.2 id node hf⟩
  | unsubscribe topic =>
    have h := same (step P now m (Op.unsubscribe topic))
      (unsubscribe_discoveredNodes P m topic)
    exact ⟨h.1, fun id node hf _ => h.2 id node hf⟩
  | getNodeInfo nodeId =>
    have h := same (step P now m (Op.getNodeInfo nodeId)) rfl
    exact ⟨h.1, fun id node hf _ => h.2 id node hf⟩

set_option maxRecDepth 100000 in
/-- Witness for C19: a connected tick at time 661000 without inbound messages keeps the
record of `LUM_7`, last seen at time 1000, with its identity and `lastSeen`. -/
theorem C19_registry_only_grows_witness :
    mapFind "LUM_7".toList heardThenLost.discoveredNodes =
      some (MQTTManager.getNodeInfo heardThenLost "LUM_7".toList) ∧
    observes alwaysUp heardThenLost "LUM_7".toList Op.loop = false ∧
    "LUM_7".toList ∈ mapKeys (step alwaysUp 661000 heardThenLost Op.loop).discoveredNodes ∧
    ∃ node', mapFind "LUM_7".toList (step alwaysUp 661000 heardThenLost Op.loop).discoveredNodes
        = some node' ∧
      node'.nodeId = "LUM_7".toList ∧ node'.type = NODE_LUMINARIA ∧ node'.lastSeen = 1000 :=
  have h := C19_registry_only_grows alwaysUp 661000 heardThenLost Op.loop
  have hf : mapFind "LUM_7".toList heardThenLost.discoveredNodes =
      some (MQTTManager.getNodeInfo heardThenLost "LUM_7".toList) := by decide
  have ho : observes alwaysUp heardThenLost "LUM_7".toList Op.loop = false := by decide
  ⟨hf, ho, h.1 _ (by decide),
    match h.2 _ _ hf ho with
    | ⟨node', h1, h2, h3, _, _, _, _, h8⟩ =>
      ⟨node', h1, h2.trans (by decide), h3.trans (by decide), h8.trans (by decide)⟩⟩

theorem incomingLoop_eq_drop (budget : Nat) (q : List MQTTMessage) :
    incomingLoop budget q = q.drop budget := by
  induction budget generalizing q with
  | zero => rfl
  | succ n ih =>
    cases q with
    | nil => rfl
    | cons x rest => simp [incomingLoop, ih]

theorem processDiscoveryMessage_incomingQueue (P : Platform τ) (now : Nat) (m : MQTTManager τ)
    (payload : Str) :
    (MQTTManager.processDiscoveryMessage P now m payload).incomingQueue = m.incomingQueue := by
  rcases processDiscoveryMessage_cases P now m payload with h | ⟨doc, _, _, h⟩ <;> rw [h]

/-- C24: `processIncomingQueue` removes the first `min(10, |q|)` entries of the incoming
queue `q` and keeps the others in their order, and `handleMessage` appends exactly one
entry (the inbound topic and payload, stamped with the current time) to the tail of the
incoming queue, whatever the topic and the payload are. -/
theorem C24_incoming_queue_capped_drain (P : Platform τ) (now : Nat) (m : MQTTManager τ)
    (topic : Str) (payload : List Char) :
    (MQTTManager.processIncomingQueue m).incomingQueue =
      m.incomingQueue.drop (min 10 m.incomingQueue.length) ∧
    (MQTTManager.handleMessage P now m topic payload).incomingQueue =
      m.incomingQueue ++
        [{ topic := topic, payload := cstr payload, qos := 0, retained := false,
           timestamp := now }] := by
  constructor
  · simp only [MQTTManager.processIncomingQueue, incomingLoop_eq_drop]
    by_cases h : 10 ≤ m.incomingQueue.length
    · rw [Nat.min_eq_left h]
    · rw [Nat.min_eq_right (by omega), List.drop_length, List.drop_eq_nil_iff.2 (by omega)]
  · unfold MQTTManager.handleMessage
    simp only
    split
    · rw [processDiscoveryMessage_incomingQueue]
    · rfl

theorem registerAll_sorted (regs : List (Str × Nat)) (m : MQTTManager τ)
    (hs : (mapKeys m.topicCallbacks).Pairwise (· < ·)) :
    (mapKeys (registerAll m regs).topicCallbacks).Pairwise (· < ·) := by
  induction regs generalizing m with
  | nil => exact hs
  | cons x rest ih =>
    obtain ⟨pattern, handler⟩ := x
    exact ih _ (mapInsert_sorted pattern handler _ hs)

theorem calledPatterns_append (l1 l2 : List Effect) :
    calledPatterns (l1 ++ l2) = calledPatterns l1 ++ calledPatterns l2 := by
  induction l1 with
  | nil => rfl
  | cons e rest ih => cases e <;> simp [calledPatterns, ih]

theorem calledPatterns_routeAll (t pl : Str) (cbs : List (Str × Nat)) :
    (calledPatterns (routeAll t pl cbs)).Sublist (mapKeys cbs) := by
  induction cbs with
  | nil => exact List.Sublist.slnil
  | cons p rest ih =>
    simp only [routeAll, calledPatterns_append, mapKeys, List.map_cons]
    rcases routeEntry_cases t pl p with ⟨h, _⟩ | ⟨h, _⟩
    · rw [h]
      exact List.Sublist.cons _ ih
    · rw [h]
      exact List.Sublist.cons₂ _ ih

theorem calledPatterns_discovered (l : List Effect)
    (h : ∀ e ∈ l, ∃ cb node, e = Effect.discovered cb node) : calledPatterns l = [] := by
  induction l with
  | nil => rfl
  | cons e rest ih =>
    obtain ⟨cb, node, rfl⟩ := h e (List.mem_cons_self _ _)
    simp only [calledPatterns]
    exact ih (fun e he => h e (List.mem_cons_of_mem _ he))

/-- C25 (counterexample): with handler 1 registered under `a/b/c` before handler 2 under
`a/#`, an inbound `a/b/c` reaches handler 2 first and handler 1 second. -/
theorem C25_later_registration_called_first :
    threeHandlers = registerAll (MQTTManager.init [])
      [("a/b/c".toList, 1), ("a/#".toList, 2), ("a/x".toList, 3)] ∧
    newEffects threeHandlers
        (MQTTManager.handleMessage scripted 0 threeHandlers "a/b/c".toList "on".toList) =
      [Effect.message "a/#".toList 2 "a/b/c".toList "on".toList,
       Effect.message "a/b/c".toList 1 "a/b/c".toList "on".toList] := by
  constructor
  · rfl
  · decide

/-- C25 (amended): whatever the order of the registrations, `handleMessage` calls the
handlers of the matching patterns in strictly ascending order of the patterns (the order
of the keys of `topicCallbacks`), each pattern at most once. -/
theorem C25_handlers_called_in_pattern_order (P : Platform τ) (now : Nat) (w : τ)
    (regs : List (Str × Nat)) (topic : Str) (payload : List Char) :
    (calledPatterns (newEffects (registerAll (MQTTManager.init w) regs)
      (MQTTManager.handleMessage P now (registerAll (MQTTManager.init w) regs)
        topic payload))).Pairwise (· < ·) := by
  by_cases hd : topic = MQTT_DISCOVERY_TOPIC
  · subst hd
    rw [calledPatterns_discovered _ (handleMessage_discovery_newEffects P now _ payload)]
    exact List.Pairwise.nil
  · rw [handleMessage_newEffects P now _ topic payload hd]
    exact List.Pairwise.sublist (calledPatterns_routeAll _ _ _)
      (registerAll_sorted regs (MQTTManager.init w) List.Pairwise.nil)

theorem sub32_wrap (t0 d : Nat) (hd : d < 2 ^ 32) :
    sub32 ((t0 + d) % 2 ^ 32) (t0 % 2 ^ 32) = d := by
  unfold sub32
  have h : (2 : Nat) ^ 32 = 4294967296 := by norm_num
  rw [h] at hd ⊢
  omega

theorem sameTimers_refl (m : MQTTManager τ) : SameTimers m m := ⟨rfl, rfl, rfl⟩

theorem sameTimers_trans {a b c : MQTTManager τ} (h1 : SameTimers a b) (h2 : SameTimers b c) :
    SameTimers a c :=
  ⟨h2.1.trans h1.1, h2.2.1.trans h1.2.1, h2.2.2.trans h1.2.2⟩

theorem publish_sameTimers (P : Platform τ) (now : Nat) (m : MQTTManager τ)
    (topic payload : Str) (retained : Bool) :
    SameTimers m (MQTTManager.publish P now m topic payload retained).2 := by
  unfold MQTTManager.publish
  simp only
  split <;> exact ⟨rfl, rfl, rfl⟩

theorem subscribe_sameTimers (P : Platform τ) (m : MQTTManager τ) (topic : Str) (qos : Nat) :
    SameTimers m (MQTTManager.subscribe P m topic qos).2 := by
  unfold MQTTManager.subscribe
  simp only
  split
  · exact ⟨rfl, rfl, rfl⟩
  · split <;> exact ⟨rfl, rfl, rfl⟩

theorem sendHeartbeat_sameTimers (P : Platform τ) (now : Nat) (m : MQTTManager τ) :
    SameTimers m (MQTTManager.sendHeartbeat P now m) :=
  publish_sameTimers P now m _ _ _

theorem handleMessage_sameTimers (P : Platform τ) (now : Nat) (m : MQTTManager τ)
    (topic : Str) (payload : List Char) :
    SameTimers m (MQTTManager.handleMessage P now m topic payload) := by
  unfold MQTTManager.handleMessage
  simp only
  split
  · rcases processDiscoveryMessage_cases P now
      { m with incomingQueue := m.incomingQueue ++
          [{ topic := topic, payload := cstr payload, qos := 0, retained := false,
             timestamp := now }] } (cstr payload) with h | ⟨doc, _, _, h⟩
    · rw [h]
      exact ⟨rfl, rfl, rfl⟩
    · rw [h]
      exact ⟨rfl, rfl, rfl⟩
  · exact ⟨rfl, rfl, rfl⟩

theorem handleAll_sameTimers (P : Platform τ) (now : Nat) (inbound : List (Str × List Char))
    (m : MQTTManager τ) : SameTimers m (handleAll P now m inbound) := by
  induction inbound generalizing m with
  | nil => exact sameTimers_refl m
  | cons x rest ih =>
    obtain ⟨topic, payload⟩ := x
    exact sameTimers_trans (handleMessage_sameTimers P now m topic payload) (ih _)

theorem outgoingLoop_sameTimers (P : Platform τ) (now : Nat) (budget : Nat)
    (m : MQTTManager τ) : SameTimers m (outgoingLoop P now budget m) := by
  induction budget generalizing m with
  | zero => exact sameTimers_refl m
  | succ b ih =>
    unfold outgoingLoop
    split
    · exact sameTimers_refl m
    · simp only
      split
      · refine sameTimers_trans ?_ (ih _)
        exact publish_sameTimers P now m _ _ _
      · exact publish_sameTimers P now m _ _ _

theorem processOutgoingQueue_sameTimers (P : Platform τ) (now : Nat) (m : MQTTManager τ) :
    SameTimers m (MQTTManager.processOutgoingQueue P now m) := by
  unfold MQTTManager.processOutgoingQueue
  split
  · exact sameTimers_refl m
  · simp only
    split
    · exact sameTimers_refl m
    · refine sameTimers_trans ?_ (outgoingLoop_sameTimers P now 5 _)
      exact sameTimers_refl m

/-- The manager a connected tick has after the inbound messages and the two queues. -/
theorem loop_connected_eq (P : Platform τ) (now : Nat) (m : MQTTManager τ)
    (hup : (P.connected m.mqttClient).1 = true) :
    ∃ m3 : MQTTManager τ, SameTimers m m3 ∧ Framed m m3 ∧
      m3 = MQTTManager.processIncomingQueue (MQTTManager.processOutgoingQueue P now
        (handleAll P now { m with mqttClient := (P.poll (P.connected m.mqttClient).2).2 }
          (P.poll (P.connected m.mqttClient).2).1)) ∧
      MQTTManager.loop P now m =
        MQTTManager.pruneStale now
          (if (if sub32 now m3.lastHeartbeat > 30000 then
                { MQTTManager.sendHeartbeat P now m3 with lastHeartbeat := now }
              else m3).autoDiscovery &&
              decide (sub32 now (if sub32 now m3.lastHeartbeat > 30000 then
                { MQTTManager.sendHeartbeat P now m3 with lastHeartbeat := now }
              else m3).lastDiscoveryBroadcast > 300000) then
            MQTTManager.broadcastDiscovery P now
              (if sub32 now m3.lastHeartbeat > 30000 then
                { MQTTManager.sendHeartbeat P now m3 with lastHeartbeat := now }
              else m3)
          else
            (if sub32 now m3.lastHeartbeat > 30000 then
                { MQTTManager.sendHeartbeat P now m3 with lastHeartbeat := now }
              else m3)) := by
  refine ⟨_, ?_, ?_, rfl, ?_⟩
  · have h1 : SameTimers m { m with mqttClient := (P.poll (P.connected m.mqttClient).2).2 } :=
      ⟨rfl, rfl, rfl⟩
    have h2 := sameTimers_trans h1
      (handleAll_sameTimers P now (P.poll (P.connected m.mqttClient).2).1 _)
    exact sameTimers_trans h2 (processOutgoingQueue_sameTimers P now _)
  · have h1 : Framed m { m with mqttClient := (P.poll (P.connected m.mqttClient).2).2 } :=
      ⟨rfl, rfl, rfl, rfl, rfl, [], by simp, by simp⟩
    have h2 := framed_trans h1 (handleAll_framed P now (P.poll (P.connected m.mqttClient).2).1 _)
    exact framed_trans h2 (processOutgoingQueue_framed P now _)
  · unfold MQTTManager.loop
    simp only [hup, Bool.not_true, Bool.false_eq_true, if_false]

theorem broadcastDiscovery_timers (P : Platform τ) (now : Nat) (m : MQTTManager τ) :
    (MQTTManager.broadcastDiscovery P now m).lastHeartbeat = m.lastHeartbeat ∧
    (MQTTManager.broadcastDiscovery P now m).lastDiscoveryBroadcast = now :=
  ⟨(publish_sameTimers P now m MQTT_DISCOVERY_TOPIC (P.serializeJson (discoveryDoc P m))
    false).2.1, rfl⟩

/-- The timers a connected tick leaves. -/
theorem loop_connected_timers (P : Platform τ) (now : Nat) (m : MQTTManager τ)
    (hup : (P.connected m.mqttClient).1 = true) :
    (MQTTManager.loop P now m).lastHeartbeat =
      (if sub32 now m.lastHeartbeat > 30000 then now else m.lastHeartbeat) ∧
    (MQTTManager.loop P now m).lastDiscoveryBroadcast =
      (if m.autoDiscovery = true ∧ sub32 now m.lastDiscoveryBroadcast > 300000 then now
       else m.lastDiscoveryBroadcast) := by
  obtain ⟨m3, ⟨ha, hh, hd⟩, _, _, hloop⟩ := loop_connected_eq P now m hup
  rw [hloop]
  simp only [MQTTManager.pruneStale]
  have hs := sendHeartbeat_sameTimers P now m3
  by_cases h1 : sub32 now m.lastHeartbeat > 30000
  · by_cases h2 : m.autoDiscovery = true ∧ sub32 now m.lastDiscoveryBroadcast > 300000
    · have h2' : sub32 now (MQTTManager.sendHeartbeat P now m3).lastDiscoveryBroadcast > 300000 := by
        rw [hs.2.2, hd]
        exact h2.2
      simp only [hh, h1, if_true, hs.1, ha, h2.1, h2', Bool.true_and, decide_True, h2,
        and_self]
      exact ⟨(broadcastDiscovery_timers P now _).1, rfl⟩
    · have h2' : ¬ (m.autoDiscovery = true ∧
          sub32 now (MQTTManager.sendHeartbeat P now m3).lastDiscoveryBroadcast > 300000) := by
        rw [hs.2.2, hd]
        exact h2
      simp only [hh, h1, if_true, hs.1, ha, Bool.and_eq_true, decide_eq_true_eq, h2', h2,
        if_false]
      exact ⟨trivial, hs.2.2.trans hd⟩
  · by_cases h2 : m.autoDiscovery = true ∧ sub32 now m.lastDiscoveryBroadcast > 300000
    · simp only [hh, h1, if_false, ha, hd, Bool.and_eq_true, decide_eq_true_eq, h2, and_self,
        if_true]
      exact ⟨(broadcastDiscovery_timers P now _).1.trans hh, rfl⟩
    · simp only [hh, h1, if_false, ha, hd, Bool.and_eq_true, decide_eq_true_eq, h2]
      exact ⟨trivial, trivial⟩

theorem connectAs_lastReconnectAttempt (P : Platform τ) (now : Nat) (m : MQTTManager τ)
    (id : Str) :
    (MQTTManager.connectAs P now m id).2.lastReconnectAttempt = m.lastReconnectAttempt := by
  by_cases hwifi : P.wifiConnected m.mqttClient = true
  · by_cases hr : (linkAttempt P m id).1 = true
    · rw [connectAs_accepted P now m id hwifi hr]
      exact (afterLink_framed P now _).2.2.2.2.1
    · have hr' : (linkAttempt P m id).1 = false := by
        cases h : (linkAttempt P m id).1
        · rfl
        · exact absurd h hr
      rw [connectAs_refused P now m id hwifi hr']
  · have hwifi' : P.wifiConnected m.mqttClient = false := by
      cases h : P.wifiConnected m.mqttClient
      · rfl
      · exact absurd h hwifi
    rw [connectAs_no_wifi P now m id hwifi']

/-- The reconnect timer after `reconnect` on a disconnected transport. -/
theorem reconnect_timer (P : Platform τ) (now : Nat) (m : MQTTManager τ)
    (hdown : (P.connected m.mqttClient).1 = false) :
    (MQTTManager.reconnect P now m).2.lastReconnectAttempt =
      if sub32 now m.lastReconnectAttempt > MQTT_RECONNECT_DELAY then now
      else m.lastReconnectAttempt := by
  unfold MQTTManager.reconnect
  simp only [hdown, Bool.not_false, if_true]
  split
  · simp only [MQTTManager.connect, connectAs_lastReconnectAttempt]
  · rfl

/-- C29: the elapsed-time checks are right across a wrap of the 32-bit millisecond clock.
Let the earlier reading be `t0 mod 2^32` and the current one `(t0 + d) mod 2^32` with a
true elapsed time `d < 2^32`. Then the pruning step of `loop` clears the `online` flag of
a node last seen at the earlier reading exactly when `d > 600000`; `reconnect` on a
disconnected transport starts an attempt (and records the current reading) exactly when
`d > 5000`; a connected tick sends the heartbeat (and records the current reading) exactly
when `d > 30000`, and with auto-discovery on it broadcasts the discovery (and records the
current reading) exactly when `d > 300000`. -/
theorem C29_elapsed_checks_survive_wraparound (P : Platform τ) (m : MQTTManager τ)
    (t0 d : Nat) (hd : d < 2 ^ 32) :
    (∀ id node, mapFind id m.discoveredNodes = some node → node.lastSeen = t0 % 2 ^ 32 →
      mapFind id (MQTTManager.pruneStale ((t0 + d) % 2 ^ 32) m).discoveredNodes =
        some (if d > 600000 then { node with online := false } else node)) ∧
    (m.lastReconnectAttempt = t0 % 2 ^ 32 → (P.connected m.mqttClient).1 = false →
      (MQTTManager.reconnect P ((t0 + d) % 2 ^ 32) m).2.lastReconnectAttempt =
        if d > 5000 then (t0 + d) % 2 ^ 32 else t0 % 2 ^ 32) ∧
    (m.lastHeartbeat = t0 % 2 ^ 32 → (P.connected m.mqttClient).1 = true →
      (MQTTManager.loop P ((t0 + d) % 2 ^ 32) m).lastHeartbeat =
        if d > 30000 then (t0 + d) % 2 ^ 32 else t0 % 2 ^ 32) ∧
    (m.lastDiscoveryBroadcast = t0 % 2 ^ 32 → m.autoDiscovery = true →
      (P.connected m.mqttClient).1 = true →
      (MQTTManager.loop P ((t0 + d) % 2 ^ 32) m).lastDiscoveryBroadcast =
        if d > 300000 then (t0 + d) % 2 ^ 32 else t0 % 2 ^ 32) := by
  have hw := sub32_wrap t0 d hd
  refine ⟨?_, ?_, ?_, ?_⟩
  · intro id node hfound hseen
    simp only [MQTTManager.pruneStale, mapFind_pruneNodes, hfound, Option.map_some', hseen, hw]
  · intro hlast hdown
    rw [reconnect_timer P _ m hdown, hlast, hw]
    rfl
  · intro hlast hup
    rw [(loop_connected_timers P _ m hup).1, hlast, hw]
  · intro hlast hauto hup
    rw [(loop_connected_timers P _ m hup).2, hlast, hw]
    simp only [hauto, true_and]

set_option maxRecDepth 100000 in
/-- Witness for C29: the earlier reading is 4294966296, one second before the wrap, and
700000 ms elapse, so that the current reading is 699000. -/
theorem C29_elapsed_checks_survive_wraparound_witness :
    700000 < 2 ^ 32 ∧ (4294966296 + 700000) % 2 ^ 32 = 699000 ∧
    (MQTTManager.getNodeInfo heardBeforeWrap "LUM_7".toList).online = true ∧
    (MQTTManager.getNodeInfo (MQTTManager.pruneStale 699000 heardBeforeWrap)
      "LUM_7".toList).online = false ∧
    (MQTTManager.reconnect alwaysDown 699000 heardBeforeWrap).2.lastReconnectAttempt =
      699000 ∧
    (MQTTManager.loop alwaysUp 699000 heardBeforeWrap).lastHeartbeat = 699000 ∧
    (MQTTManager.loop alwaysUp 699000 heardBeforeWrap).lastDiscoveryBroadcast = 699000 :=
  have h := C29_elapsed_checks_survive_wraparound alwaysUp heardBeforeWrap 4294966296 700000
    (by decide)
  have h' := C29_elapsed_checks_survive_wraparound alwaysDown heardBeforeWrap 4294966296
    700000 (by decide)
  ⟨by decide, by decide, by decide,
   by
    have h1 := h.1 "LUM_7".toList (MQTTManager.getNodeInfo heardBeforeWrap "LUM_7".toList)
      (by decide) (by decide)
    simp only [MQTTManager.getNodeInfo]
    rw [show (699000 : Nat) = (4294966296 + 700000) % 2 ^ 32 from by decide, h1]
    decide,
   (h'.2.1 (by decide) (by decide)).trans (by decide),
   (h.2.2.1 (by decide) (by decide)).trans (by decide),
   (h.2.2.2 (by decide) (by decide) (by decide)).trans (by decide)⟩

theorem publish_subscribedTopics (P : Platform τ) (now : Nat) (m : MQTTManager τ)
    (topic payload : Str) (retained : Bool) :
    (MQTTManager.publish P now m topic payload retained).2.subscribedTopics =
      m.subscribedTopics := by
  unfold MQTTManager.publish
  simp only
  split <;> rfl

theorem subscribe_accepted (P : Platform τ) (Up : τ → Prop) (hUp : LinkUp P Up)
    (hacc : ∀ t q w, Up w → (P.subscribe t q w).1 = true)
    (m : MQTTManager τ) (topic : Str) (qos : Nat) (h : Up m.mqttClient) :
    (MQTTManager.subscribe P m topic qos).2.subscribedTopics =
      m.subscribedTopics ++ [topic] := by
  obtain ⟨c1, c2⟩ := hUp.connected _ h
  unfold MQTTManager.subscribe
  simp only [c1, Bool.not_true, Bool.false_eq_true, if_false, hacc topic qos _ c2, if_true]

theorem afterLink_subscribedTopics (P : Platform τ) (Up : τ → Prop) (hUp : LinkUp P Up)
    (hacc : ∀ t q w, Up w → (P.subscribe t q w).1 = true) (now : Nat)
    (m1 : MQTTManager τ) (h : Up m1.mqttClient) :
    (afterLink P now m1).subscribedTopics =
      m1.subscribedTopics ++ (baselineSubscriptions m1.nodeId).map Prod.fst := by
  have s2 : UpStep Up [] m1 (MQTTManager.publishStatus P now m1 "online".toList).2 :=
    (publish_up P Up hUp now m1 _ _ true h).2.2
  have hn : (MQTTManager.publishStatus P now m1 "online".toList).2.nodeId = m1.nodeId :=
    s2.2.2.2.1
  have s3 := upStep_trans [] _ s2 (subscribe_up P Up hUp _
    (buildTopic ("cmd/".toList ++ m1.nodeId ++ "/#".toList)) 0 s2.1)
  have s4 := upStep_trans _ _ s3 (subscribe_up P Up hUp _
    (buildTopic "cmd/all/#".toList) 0 s3.1)
  have s5 := upStep_trans _ _ s4 (subscribe_up P Up hUp _ MQTT_DISCOVERY_TOPIC 0 s4.1)
  have e2 : (MQTTManager.publishStatus P now m1 "online".toList).2.subscribedTopics =
      m1.subscribedTopics := publish_subscribedTopics P now m1 _ _ _
  have e3 := subscribe_accepted P Up hUp hacc _
    (buildTopic ("cmd/".toList ++ m1.nodeId ++ "/#".toList)) 0 s2.1
  have e4 := subscribe_accepted P Up hUp hacc _ (buildTopic "cmd/all/#".toList) 0 s3.1
  have e5 := subscribe_accepted P Up hUp hacc _ MQTT_DISCOVERY_TOPIC 0 s4.1
  have e6 : ∀ x : MQTTManager τ,
      (MQTTManager.broadcastDiscovery P now x).subscribedTopics = x.subscribedTopics :=
    fun x => publish_subscribedTopics P now x _ _ _
  unfold afterLink
  simp only [hn]
  split
  · rw [e6, e5, e4, e3, e2]
    simp [baselineSubscriptions]
  · rw [e5, e4, e3, e2]
    simp [baselineSubscriptions]

theorem disconnect_subscribedTopics (P : Platform τ) (now : Nat) (m : MQTTManager τ) :
    (MQTTManager.disconnect P now m).subscribedTopics = m.subscribedTopics := by
  unfold MQTTManager.disconnect
  simp only
  split
  · exact publish_subscribedTopics P now _ _ _ _
  · rfl

set_option maxRecDepth 100000 in
/-- C28 (counterexample): after its first successful connect the coordinator lists the
three baseline patterns; after a disconnect and a second successful connect it lists six
entries, each baseline pattern twice. -/
theorem C28_reconnect_lists_patterns_twice :
    connectedOnce.subscribedTopics =
      ["luces/cmd/CENTRAL/#".toList, "luces/cmd/all/#".toList, "luces/discovery".toList] ∧
    reconnectedOnce.subscribedTopics =
      ["luces/cmd/CENTRAL/#".toList, "luces/cmd/all/#".toList, "luces/discovery".toList,
       "luces/cmd/CENTRAL/#".toList, "luces/cmd/all/#".toList, "luces/discovery".toList] ∧
    ¬ reconnectedOnce.subscribedTopics.Nodup := by
  decide

/-- C28 (amended): the subscribed-topics list records every accepted subscription, without
looking for the pattern in the list. On a link that stays up and accepts subscriptions, a
successful `connect` appends the three baseline patterns to whatever the list held, and
`disconnect` removes nothing, so every disconnect followed by a successful reconnect makes
the list three entries longer. -/
theorem C28_connect_appends_baseline_patterns (P : Platform τ) (Up : τ → Prop)
    (hUp : LinkUp P Up) (hacc : ∀ t q w, Up w → (P.subscribe t q w).1 = true) (now : Nat)
    (m : MQTTManager τ) (hwifi : P.wifiConnected m.mqttClient = true)
    (hlink : (linkAttempt P m m.clientId).1 = true ∧ Up (linkAttempt P m m.clientId).2) :
    (MQTTManager.connect P now m).1 = true ∧
    (MQTTManager.connect P now m).2.subscribedTopics =
      m.subscribedTopics ++
        [buildTopic ("cmd/".toList ++ m.nodeId ++ "/#".toList),
         buildTopic "cmd/all/#".toList, MQTT_DISCOVERY_TOPIC] ∧
    (MQTTManager.disconnect P now m).subscribedTopics = m.subscribedTopics := by
  refine ⟨?_, ?_, disconnect_subscribedTopics P now m⟩
  · unfold MQTTManager.connect
    rw [connectAs_accepted P now m _ hwifi hlink.1]
  · unfold MQTTManager.connect
    rw [connectAs_accepted P now m _ hwifi hlink.1]
    exact afterLink_subscribedTopics P Up hUp hacc now _ hlink.2

set_option maxRecDepth 100000 in
/-- Witness for C28: the second connect of the coordinator, on the `switched` platform. -/
theorem C28_connect_appends_baseline_patterns_witness :
    LinkUp switched (fun w => w = true) ∧
    (MQTTManager.connect switched 20
        (MQTTManager.disconnect switched 10 connectedOnce)).2.subscribedTopics =
      (MQTTManager.disconnect switched 10 connectedOnce).subscribedTopics ++
        [buildTopic ("cmd/".toList ++ "CENTRAL".toList ++ "/#".toList),
         buildTopic "cmd/all/#".toList, MQTT_DISCOVERY_TOPIC] :=
  ⟨switched_linkUp,
   (C28_connect_appends_baseline_patterns switched (fun w => w = true) switched_linkUp
    (fun _ _ _ h => h) 20 (MQTTManager.disconnect switched 10 connectedOnce) rfl
    ⟨rfl, rfl⟩).2.1⟩

theorem handleMessage_other_registry (P : Platform τ) (now : Nat) (m : MQTTManager τ)
    (topic : Str) (payload : List Char) (hd : topic ≠ MQTT_DISCOVERY_TOPIC) :
    (MQTTManager.handleMessage P now m topic payload).discoveredNodes = m.discoveredNodes := by
  simp [MQTTManager.handleMessage, hd]

theorem handleAll_other_registry (P : Platform τ) (now : Nat)
    (inbound : List (Str × List Char)) (m : MQTTManager τ)
    (hin : ∀ x ∈ inbound, x.1 ≠ MQTT_DISCOVERY_TOPIC) :
    (handleAll P now m inbound).discoveredNodes = m.discoveredNodes := by
  induction inbound generalizing m with
  | nil => rfl
  | cons x rest ih =>
    obtain ⟨topic, payload⟩ := x
    simp only [handleAll]
    rw [ih _ (fun y hy => hin y (List.mem_cons_of_mem _ hy))]
    exact handleMessage_other_registry P now m topic payload (hin _ (List.mem_cons_self _ _))

set_option maxRecDepth 100000 in
/-- C21 (counterexample): the coordinator heard the discovery of `LUM_7` at time 1000 and
its heartbeat (topic `luces/heartbeat/LUM_7`) at time 400000; the heartbeat left
`lastSeen` at 1000, and the connected tick at time 700000, 300000 ms after the heartbeat,
clears the `online` flag of `LUM_7`. -/
theorem C21_heartbeat_does_not_refresh_last_seen :
    (NodeLuminaria.heartbeatCallback "LUM_7".toList 400000).1 =
      "luces/heartbeat/LUM_7".toList ∧
    (MQTTManager.getNodeInfo heardHeartbeat "LUM_7".toList).lastSeen = 1000 ∧
    (MQTTManager.getNodeInfo heardHeartbeat "LUM_7".toList).online = true ∧
    (alwaysUp.connected heardHeartbeat.mqttClient).1 = true ∧
    (MQTTManager.getNodeInfo (MQTTManager.loop alwaysUp 700000 heardHeartbeat)
      "LUM_7".toList).online = false := by
  decide

/-- C21 (amended): only a discovery announcement refreshes `lastSeen`. A message on any
other topic, a heartbeat included, leaves the registry as it was, and a connected tick
whose inbound messages are all off the discovery topic leaves the registry pruned by the
times of the last discovery announcements: the `online` flag of a node is cleared as soon
as its last discovery is more than 600000 ms old, whatever heartbeats arrived since. -/
theorem C21_only_discovery_refreshes_last_seen (P : Platform τ) (now : Nat)
    (m : MQTTManager τ) (topic : Str) (payload : List Char)
    (htopic : topic ≠ MQTT_DISCOVERY_TOPIC)
    (hup : (P.connected m.mqttClient).1 = true)
    (hin : ∀ x ∈ (P.poll (P.connected m.mqttClient).2).1, x.1 ≠ MQTT_DISCOVERY_TOPIC) :
    (MQTTManager.handleMessage P now m topic payload).discoveredNodes = m.discoveredNodes ∧
    (MQTTManager.loop P now m).discoveredNodes = pruneNodes now m.discoveredNodes := by
  refine ⟨handleMessage_other_registry P now m topic payload htopic, ?_⟩
  rw [loop_connected_registry P now m hup, handleAll_other_registry P now _ _ hin]

set_option maxRecDepth 100000 in
/-- Witness for C21: the heartbeat of `LUM_7` and the tick of the counterexample. -/
theorem C21_only_discovery_refreshes_last_seen_witness :
    "luces/heartbeat/LUM_7".toList ≠ MQTT_DISCOVERY_TOPIC ∧
    (MQTTManager.handleMessage alwaysUp 400000
      (MQTTManager.handleMessage alwaysUp 1000 coordinator MQTT_DISCOVERY_TOPIC
        (fixtureAnnouncement false))
      "luces/heartbeat/LUM_7".toList
      (NodeLuminaria.heartbeatCallback "LUM_7".toList 400000).2).discoveredNodes =
      (MQTTManager.handleMessage alwaysUp 1000 coordinator MQTT_DISCOVERY_TOPIC
        (fixtureAnnouncement false)).discoveredNodes ∧
    (MQTTManager.loop alwaysUp 700000 heardHeartbeat).discoveredNodes =
      pruneNodes 700000 heardHeartbeat.discoveredNodes :=
  ⟨by decide,
   (C21_only_discovery_refreshes_last_seen alwaysUp 400000
      (MQTTManager.handleMessage alwaysUp 1000 coordinator MQTT_DISCOVERY_TOPIC
        (fixtureAnnouncement false))
      "luces/heartbeat/LUM_7".toList
      (NodeLuminaria.heartbeatCallback "LUM_7".toList 400000).2 (by decide) (by decide)
      (by decide)).1,
   (C21_only_discovery_refreshes_last_seen alwaysUp 700000 heardHeartbeat
      "luces/heartbeat/LUM_7".toList [] (by decide) (by decide) (by decide)).2⟩

set_option maxRecDepth 100000 in
/-- C22 (evaluation at the failing input): the announcement that `sendDiscovery` of the
fixture `LUM_7` emits carries the text `LUMINARIA` in its `type` field, and the
coordinator decodes it to a record with the `nodeId`, firmware version and capability
flags of the fixture but with type 0 (`NODE_CENTRAL`), not 1 (`NODE_LUMINARIA`). -/
theorem C22_fixture_decoded_as_central :
    (NodeLuminaria.sendDiscovery scripted [] "LUM_7".toList "A".toList).1 =
      MQTT_DISCOVERY_TOPIC ∧
    parseJson (NodeLuminaria.sendDiscovery scripted [] "LUM_7".toList "A".toList).2 =
      some (NodeLuminaria.discoveryDoc scripted [] "LUM_7".toList "A".toList) ∧
    (NodeLuminaria.discoveryDoc scripted [] "LUM_7".toList "A".toList).get "type".toList =
      Json.str "LUMINARIA".toList ∧
    MQTTManager.getNodeInfo
        (MQTTManager.processDiscoveryMessage scripted 1000 coordinator
          (NodeLuminaria.sendDiscovery scripted [] "LUM_7".toList "A".toList).2)
        "LUM_7".toList =
      { nodeId := "LUM_7".toList, type := NODE_CENTRAL, ip := "192.168.1.7".toList,
        mac := "AA:BB:CC:00:11:22".toList, version := "0.6.0".toList, lastSeen := 1000,
        online := true, metadata := fixtureCapabilities } ∧
    NODE_CENTRAL ≠ NODE_LUMINARIA := by
  decide

theorem wrap_eq (S a : Nat) (ha : a < 2 * S) : a % S = if a < S then a else a - S := by
  split
  · rename_i h
    exact Nat.mod_eq_of_lt h
  · rename_i h
    rw [Nat.mod_eq_sub_mod (by omega), Nat.mod_eq_of_lt (by omega)]

theorem holds_init {T : Type} [Inhabited T] (S : Nat) (hS : 0 < S) :
    Holds (CircularBuffer.init : CircularBuffer T S) [] := by
  refine ⟨rfl, Nat.zero_le _, hS, ?_, ?_⟩
  · simp [CircularBuffer.init]
  · intro i hi
    cases hi

theorem holds_clear {T : Type} (S : Nat) (hS : 0 < S) (b : CircularBuffer T S) :
    Holds b.clear [] := by
  refine ⟨rfl, Nat.zero_le _, hS, ?_, ?_⟩
  · simp [CircularBuffer.clear]
  · intro i hi
    cases hi

theorem holds_push {T : Type} (S : Nat) (b : CircularBuffer T S) (l : List T)
    (item : T) (h : Holds b l) : Holds (b.push item) (fifoPush S l item) := by
  obtain ⟨hc, hle, ht, hh, he⟩ := h
  have hS : 0 < S := by omega
  by_cases hfull : l.length = S
  · have hcS : b.count = S := by omega
    have hhead : b.head = b.tail := by
      rw [hh, hcS, Nat.add_mod_right, Nat.mod_eq_of_lt ht]
    have ht1 : (b.tail + 1) % S < S := Nat.mod_lt _ hS
    have hlen : (l.drop 1 ++ [item]).length = S := by
      simp only [List.length_append, List.length_drop, List.length_singleton]
      omega
    have hpush : b.push item =
        { buffer := fun i => if i = b.tail then item else b.buffer i,
          head := (b.tail + 1) % S, tail := (b.tail + 1) % S, count := S } := by
      simp only [CircularBuffer.push, hcS, if_true, hhead]
    have hfifo : fifoPush S l item = l.drop 1 ++ [item] := by
      simp only [fifoPush, hfull, if_true]
    rw [hpush, hfifo]
    refine ⟨hlen.symm, by omega, ht1, ?_, ?_⟩
    · show (b.tail + 1) % S = ((b.tail + 1) % S + S) % S
      rw [Nat.add_mod_right, Nat.mod_mod]
    · intro i hi
      rw [hlen] at hi
      show (l.drop 1 ++ [item])[i]? =
        some (if ((b.tail + 1) % S + i) % S = b.tail then item
          else b.buffer (((b.tail + 1) % S + i) % S))
      rw [Nat.mod_add_mod]
      have hw := wrap_eq S (b.tail + 1 + i) (by omega)
      by_cases hlast : i = S - 1
      · have hidx : (b.tail + 1 + i) % S = b.tail := by
          rw [hw]
          split <;> omega
        rw [hidx, if_pos rfl, List.getElem?_append_right (by simp; omega)]
        simp only [List.length_drop]
        have : i - (l.length - 1) = 0 := by omega
        rw [this]
        rfl
      · have hidx : (b.tail + 1 + i) % S ≠ b.tail := by
          rw [hw]
          split <;> omega
        rw [if_neg hidx, List.getElem?_append_left (by simp; omega), List.getElem?_drop,
          he (1 + i) (by omega)]
        congr 3
        omega
  · have hcS : b.count ≠ S := by omega
    have hpush : b.push item =
        { buffer := fun i => if i = b.head then item else b.buffer i,
          head := (b.head + 1) % S, tail := b.tail, count := b.count + 1 } := by
      simp only [CircularBuffer.push, hcS, if_false]
    have hfifo : fifoPush S l item = l ++ [item] := by
      simp only [fifoPush, hfull, if_false]
    rw [hpush, hfifo]
    refine ⟨by simp [hc], by simp; omega, ht, ?_, ?_⟩
    · show (b.head + 1) % S = (b.tail + (b.count + 1)) % S
      rw [hh, Nat.mod_add_mod, Nat.add_assoc]
    · intro i hi
      simp only [List.length_append, List.length_singleton] at hi
      show (l ++ [item])[i]? =
        some (if (b.tail + i) % S = b.head then item else b.buffer ((b.tail + i) % S))
      have hw1 := wrap_eq S (b.tail + i) (by omega)
      have hw2 := wrap_eq S (b.tail + b.count) (by omega)
      by_cases hlast : i = l.length
      · have hidx : (b.tail + i) % S = b.head := by
          rw [hh, hlast, hc]
        rw [hidx, if_pos rfl, List.getElem?_append_right (by omega)]
        have : i - l.length = 0 := by omega
        rw [this]
        rfl
      · have hidx : (b.tail + i) % S ≠ b.head := by
          rw [hh, hw1, hw2]
          split <;> split <;> omega
        rw [if_neg hidx, List.getElem?_append_left (by omega)]
        exact he i (by omega)

theorem holds_shift {T : Type} [Inhabited T] (S : Nat) (b : CircularBuffer T S) (l : List T)
    (h : Holds b l) :
    (b.shift).1 = (fifoShift l).1 ∧ Holds (b.shift).2 (fifoShift l).2 := by
  obtain ⟨hc, hle, ht, hh, he⟩ := h
  have hS : 0 < S := by omega
  cases l with
  | nil =>
    have h0 : b.count = 0 := hc
    have hshift : b.shift = (default, b) := by
      simp only [CircularBuffer.shift, CircularBuffer.isEmpty, h0, beq_self_eq_true, if_true]
    rw [hshift]
    exact ⟨rfl, h0, hle, ht, hh, he⟩
  | cons x rest =>
    have hpos : b.count = rest.length + 1 := hc
    have hne : (b.count == 0) = false := by
      rw [hpos]
      rfl
    have hshift : b.shift =
        (b.buffer b.tail, { b with tail := (b.tail + 1) % S, count := b.count - 1 }) := by
      simp only [CircularBuffer.shift, CircularBuffer.isEmpty, hne, Bool.false_eq_true,
        if_false]
    rw [hshift]
    simp only [List.length_cons] at hle he
    have hf : fifoShift (x :: rest) = (x, rest) := rfl
    rw [hf]
    refine ⟨?_, ?_, by show rest.length ≤ S; omega, Nat.mod_lt _ hS, ?_, ?_⟩
    · have h0 := he 0 (by omega)
      simp only [List.getElem?_cons_zero, Nat.add_zero, Nat.mod_eq_of_lt ht,
        Option.some.injEq] at h0
      exact h0.symm
    · show b.count - 1 = rest.length
      omega
    · show b.head = ((b.tail + 1) % S + (b.count - 1)) % S
      rw [hh, Nat.mod_add_mod]
      congr 1
      omega
    · intro i hi
      show rest[i]? = some (b.buffer (((b.tail + 1) % S + i) % S))
      have hi' : i < rest.length := hi
      have h1 := he (i + 1) (by omega)
      simp only [List.getElem?_cons_succ] at h1
      rw [h1, Nat.mod_add_mod]
      congr 3
      omega

theorem run_refines {T : Type} [Inhabited T] (S : Nat) (hS : 0 < S)
    (ops : List (BufferOp T)) (b : CircularBuffer T S) (l : List T) (h : Holds b l) :
    (b.run ops).1 = (fifoRun S l ops).1 ∧ Holds (b.run ops).2 (fifoRun S l ops).2 := by
  induction ops generalizing b l with
  | nil => exact ⟨rfl, h⟩
  | cons op rest ih =>
    cases op with
    | push item => exact ih _ _ (holds_push S b l item h)
    | shift =>
      obtain ⟨h1, h2⟩ := holds_shift S b l h
      obtain ⟨h3, h4⟩ := ih _ _ h2
      simp only [CircularBuffer.run, fifoRun]
      exact ⟨by rw [h1, h3], h4⟩
    | clear => exact ih _ _ (holds_clear S hS b)

/-- C30: for a capacity `S > 0`, a `CircularBuffer` that starts empty follows the bounded
drop-oldest FIFO list through every sequence of `push`, `shift` and `clear`: the `shift`
calls return the same items (the oldest retained one, or a default `T` on an empty
buffer, which stays as it is), `size()` is the length of the list and at most `S`, and
element `[i]` for `i < size()` is the `i`-th oldest item of the list; a `push` on a full
list drops exactly its oldest item. -/
theorem C30_circular_buffer_refines_fifo {T : Type} [Inhabited T] (S : Nat) (hS : 0 < S)
    (ops : List (BufferOp T)) :
    ((CircularBuffer.init : CircularBuffer T S).run ops).1 = (fifoRun S [] ops).1 ∧
    ((CircularBuffer.init : CircularBuffer T S).run ops).2.size =
      (fifoRun S [] ops).2.length ∧
    ((CircularBuffer.init : CircularBuffer T S).run ops).2.size ≤ S ∧
    ∀ i, i < ((CircularBuffer.init : CircularBuffer T S).run ops).2.size →
      (fifoRun S [] ops).2[i]? =
        some (((CircularBuffer.init : CircularBuffer T S).run ops).2.get i) := by
  obtain ⟨h1, hc, hle, _, _, he⟩ := run_refines S hS ops CircularBuffer.init []
    (holds_init S hS)
  refine ⟨h1, hc, ?_, ?_⟩
  · simp only [CircularBuffer.size, hc]
    exact hle
  · intro i hi
    simp only [CircularBuffer.size, hc] at hi
    exact he i hi

/-- Witness for C30: a buffer of capacity 3 of numbers; four pushes (the fourth drops the
oldest), a shift, a clear, a shift on the empty buffer and a last push. -/
theorem C30_circular_buffer_refines_fifo_witness :
    0 < 3 ∧
    ((CircularBuffer.init : CircularBuffer Nat 3).run
      [.push 1, .push 2, .push 3, .push 4, .shift]).1 = [2] ∧
    ((CircularBuffer.init : CircularBuffer Nat 3).run
      [.push 1, .push 2, .push 3, .push 4, .shift]).2.size = 2 ∧
    ((CircularBuffer.init : CircularBuffer Nat 3).run
      [.push 1, .push 2, .push 3, .push 4, .shift]).2.get 0 = 3 ∧
    ((CircularBuffer.init : CircularBuffer Nat 3).run
      [.push 1, .push 2, .push 3, .push 4, .shift]).2.get 1 = 4 ∧
    ((CircularBuffer.init : CircularBuffer Nat 3).run
      [.push 1, .push 2, .push 3, .push 4, .shift, .clear, .shift, .push 9]).1 =
      (fifoRun 3 [] [.push 1, .push 2, .push 3, .push 4, .shift, .clear, .shift, .push 9]).1 :=
  ⟨by decide, by decide, by decide, by decide, by decide,
   (C30_circular_buffer_refines_fifo 3 (by decide)
    [.push 1, .push 2, .push 3, .push 4, .shift, .clear, .shift, .push 9]).1⟩

theorem runTicks_idle (P : Platform τ) (hdown : ∀ w, (P.connected w).1 = false) (t : Nat)
    (times : List Nat) (hclose : ∀ t' ∈ times, sub32 t' t ≤ MQTT_RECONNECT_DELAY)
    (m : MQTTManager τ) (hlast : m.lastReconnectAttempt = t) :
    ∃ w, runTicks P m times = { m with mqttClient := w } := by
  induction times generalizing m with
  | nil => exact ⟨m.mqttClient, rfl⟩
  | cons t' rest ih =>
    have hidle : ¬ sub32 t' m.lastReconnectAttempt > MQTT_RECONNECT_DELAY := by
      rw [hlast]
      exact Nat.not_lt.2 (hclose t' (List.mem_cons_self _ _))
    simp only [runTicks]
    rw [loop_idle P t' m (hdown _) (Or.inr hidle)]
    obtain ⟨w, hw⟩ := ih (fun x hx => hclose x (List.mem_cons_of_mem _ hx))
      { m with mqttClient := (P.connected (P.connected m.mqttClient).2).2 } hlast
    exact ⟨w, hw⟩

set_option maxRecDepth 100000 in
/-- C23 (counterexample): `begin` at time 6000 makes a connect attempt, which the
transport refuses, and leaves `lastReconnectAttempt` at 0; the `loop` at time 6001, one
millisecond later, makes the next connect attempt (observer 9 hears both). -/
theorem C23_tick_retries_right_after_begin :
    (MQTTManager.begin alwaysDown 6000 1234 (MQTTManager.onConnect (MQTTManager.init []) 9)
      "192.168.1.100".toList 1883).1 = false ∧
    startedOffline.trace = [Effect.connection 9 false] ∧
    startedOffline.lastReconnectAttempt = 0 ∧
    (MQTTManager.loop alwaysDown 6001 startedOffline).trace =
      [Effect.connection 9 false, Effect.connection 9 false] ∧
    (MQTTManager.loop alwaysDown 6001 startedOffline).lastReconnectAttempt = 6001 := by
  decide

/-- C23 (amended): `loop` limits the rate of the connect attempts it starts itself. On a
transport that stays disconnected, a `loop` at a reading `t` more than 5000 ms after
`lastReconnectAttempt` is one connect attempt and records `t`; every `loop` at a reading
at most 5000 ms after `t` then does nothing but ask the transport for its state, however
many there are. `begin` (like `connect`) leaves `lastReconnectAttempt` as it is, so its
attempt does not delay the first attempt of `loop`. -/
theorem C23_ticks_attempt_once_per_delay (P : Platform τ)
    (hdown : ∀ w, (P.connected w).1 = false) (m : MQTTManager τ) (t chipId : Nat)
    (broker : Str) (port : Nat)
    (hdue : sub32 t m.lastReconnectAttempt > MQTT_RECONNECT_DELAY) (times : List Nat)
    (hclose : ∀ t' ∈ times, sub32 t' t ≤ MQTT_RECONNECT_DELAY) :
    MQTTManager.loop P t m =
      (MQTTManager.connect P t
        { m with mqttClient := (P.connected (P.connected m.mqttClient).2).2,
                 lastReconnectAttempt := t }).2 ∧
    (MQTTManager.loop P t m).lastReconnectAttempt = t ∧
    (∃ w, runTicks P (MQTTManager.loop P t m) times =
      { MQTTManager.loop P t m with mqttClient := w }) ∧
    (MQTTManager.begin P t chipId m broker port).2.lastReconnectAttempt =
      m.lastReconnectAttempt := by
  have hloop := loop_attempt P t m (hdown _) (hdown _) hdue
  have hlast : (MQTTManager.loop P t m).lastReconnectAttempt = t := by
    rw [hloop]
    simp only [MQTTManager.connect, connectAs_lastReconnectAttempt]
  refine ⟨hloop, hlast, runTicks_idle P hdown t times hclose _ hlast, ?_⟩
  simp only [MQTTManager.begin, MQTTManager.connect, connectAs_lastReconnectAttempt]

set_option maxRecDepth 100000 in
/-- Witness for C23: after the attempt of the tick at 6001, the ticks at 6500, 9000 and
11001 make no attempt. -/
theorem C23_ticks_attempt_once_per_delay_witness :
    (∀ w, (alwaysDown.connected w).1 = false) ∧
    sub32 6001 startedOffline.lastReconnectAttempt > MQTT_RECONNECT_DELAY ∧
    (∀ t' ∈ [6500, 9000, 11001], sub32 t' 6001 ≤ MQTT_RECONNECT_DELAY) ∧
    (runTicks alwaysDown (MQTTManager.loop alwaysDown 6001 startedOffline)
      [6500, 9000, 11001]).trace =
      [Effect.connection 9 false, Effect.connection 9 false] :=
  have h := C23_ticks_attempt_once_per_delay alwaysDown (fun _ => rfl) startedOffline 6001
    1234 "192.168.1.100".toList 1883 (by decide) [6500, 9000, 11001] (by decide)
  ⟨fun _ => rfl, by decide, by decide, by
    obtain ⟨w, hw⟩ := h.2.2.1
    rw [hw]
    show (MQTTManager.loop alwaysDown 6001 startedOffline).trace = _
    decide⟩

theorem wiredOn_append (topic : Str) (l1 l2 : List Effect) :
    wiredOn topic (l1 ++ l2) = wiredOn topic l1 ++ wiredOn topic l2 := by
  induction l1 with
  | nil => rfl
  | cons e rest ih =>
    cases e with
    | wire t p r ok =>
      by_cases h : t = topic
      · simp [wiredOn, h, ih]
      · simp [wiredOn, h, ih]
    | _ => simpa [wiredOn] using ih

theorem wiredOn_eq_nil (topic : Str) (l : List Effect)
    (h : ∀ e ∈ l, ∀ p r ok, e ≠ Effect.wire topic p r ok) : wiredOn topic l = [] := by
  induction l with
  | nil => rfl
  | cons e rest ih =>
    have ih' := ih (fun e he => h e (List.mem_cons_of_mem _ he))
    cases e with
    | wire t p r ok =>
      have hne : t ≠ topic := by
        intro ht
        exact h _ (List.mem_cons_self _ _) p r ok (by rw [ht])
      simp [wiredOn, hne, ih']
    | _ => simpa [wiredOn] using ih'

theorem queuedOn_append (topic : Str) (q : List MQTTMessage) (msg : MQTTMessage) :
    queuedOn topic (q ++ [msg]) =
      queuedOn topic q ++ if msg.topic = topic then [(msg.payload, msg.retained)] else [] := by
  by_cases h : msg.topic = topic
  · simp [queuedOn, List.filter_append, h]
  · simp [queuedOn, List.filter_append, h]

theorem queuedOn_drop (topic : Str) (q : List MQTTMessage) (n : Nat)
    (h : queuedOn topic q = []) : queuedOn topic (q.drop n) = [] := by
  simp only [queuedOn, List.map_eq_nil_iff, List.filter_eq_nil_iff] at h ⊢
  intro msg hmsg
  exact h msg (List.mem_of_mem_drop hmsg)

theorem queuedOn_head (topic : Str) (msg : MQTTMessage) (rest : List MQTTMessage)
    (h : queuedOn topic (msg :: rest) = []) : msg.topic ≠ topic := by
  simp only [queuedOn, List.map_eq_nil_iff, List.filter_eq_nil_iff] at h
  simpa using h msg (List.mem_cons_self _ _)

theorem status_topic_ne (id : Str) :
    buildTopic ("status/".toList ++ id) ≠ MQTT_DISCOVERY_TOPIC := by
  intro h
  simp [buildTopic, MQTT_BASE_TOPIC, MQTT_DISCOVERY_TOPIC] at h

theorem heartbeat_topic_ne (id : Str) :
    buildTopic ("heartbeat/".toList ++ id) ≠ MQTT_DISCOVERY_TOPIC := by
  intro h
  simp [buildTopic, MQTT_BASE_TOPIC, MQTT_DISCOVERY_TOPIC] at h

theorem quiet_refl (m : MQTTManager τ)
    (hq : queuedOn MQTT_DISCOVERY_TOPIC m.outgoingQueue = []) : Quiet m m :=
  ⟨⟨[], by simp, rfl⟩, hq⟩

theorem quiet_trans {a b c : MQTTManager τ} (h1 : Quiet a b) (h2 : Quiet b c) : Quiet a c := by
  obtain ⟨⟨l1, t1, w1⟩, _⟩ := h1
  obtain ⟨⟨l2, t2, w2⟩, q2⟩ := h2
  refine ⟨⟨l1 ++ l2, ?_, ?_⟩, q2⟩
  · rw [t2, t1, List.append_assoc]
  · rw [wiredOn_append, w1, w2]
    rfl

theorem publish_quiet (P : Platform τ) (now : Nat) (m : MQTTManager τ)
    (topic payload : Str) (retained : Bool)
    (hq : queuedOn MQTT_DISCOVERY_TOPIC m.outgoingQueue = [])
    (ht : topic ≠ MQTT_DISCOVERY_TOPIC) :
    Quiet m (MQTTManager.publish P now m topic payload retained).2 := by
  unfold MQTTManager.publish
  simp only
  split
  · refine ⟨⟨[], by simp, rfl⟩, ?_⟩
    show queuedOn MQTT_DISCOVERY_TOPIC (m.outgoingQueue ++ [_]) = []
    rw [queuedOn_append, hq]
    simp [ht]
  · refine ⟨⟨_, rfl, ?_⟩, hq⟩
    simp [wiredOn, ht]

theorem subscribe_quiet (P : Platform τ) (m : MQTTManager τ) (topic : Str) (qos : Nat)
    (hq : queuedOn MQTT_DISCOVERY_TOPIC m.outgoingQueue = []) :
    Quiet m (MQTTManager.subscribe P m topic qos).2 := by
  unfold MQTTManager.subscribe
  simp only
  split
  · exact ⟨⟨[], by simp, rfl⟩, hq⟩
  · split
    · exact ⟨⟨_, rfl, rfl⟩, hq⟩
    · exact ⟨⟨_, rfl, rfl⟩, hq⟩

theorem wiredOn_routeAll (topic t pl : Str) (cbs : List (Str × Nat)) :
    wiredOn topic (routeAll t pl cbs) = [] := by
  apply wiredOn_eq_nil
  intro e he p r ok hw
  obtain ⟨q, _, hq⟩ := (mem_routeAll _ _ _ _).1 he
  rw [(mem_routeEntry _ _ _ _ hq).1] at hw
  cases hw

theorem handleMessage_quiet (P : Platform τ) (now : Nat) (m : MQTTManager τ)
    (topic : Str) (payload : List Char)
    (hq : queuedOn MQTT_DISCOVERY_TOPIC m.outgoingQueue = []) :
    Quiet m (MQTTManager.handleMessage P now m topic payload) := by
  unfold MQTTManager.handleMessage
  simp only
  split
  · rcases processDiscoveryMessage_cases P now
      { m with incomingQueue := m.incomingQueue ++
          [{ topic := topic, payload := cstr payload, qos := 0, retained := false,
             timestamp := now }] } (cstr payload) with h | ⟨doc, _, _, h⟩
    · rw [h]
      exact ⟨⟨[], by simp, rfl⟩, hq⟩
    · rw [h]
      refine ⟨⟨_, rfl, ?_⟩, hq⟩
      apply wiredOn_eq_nil
      intro e he p r ok hw
      split at he
      · obtain ⟨cb, _, hcb⟩ := List.mem_map.1 he
        rw [← hcb] at hw
        cases hw
      · cases he
  · exact ⟨⟨_, rfl, wiredOn_routeAll _ _ _ _⟩, hq⟩

theorem handleAll_quiet (P : Platform τ) (now : Nat) (inbound : List (Str × List Char))
    (m : MQTTManager τ) (hq : queuedOn MQTT_DISCOVERY_TOPIC m.outgoingQueue = []) :
    Quiet m (handleAll P now m inbound) := by
  induction inbound generalizing m with
  | nil => exact quiet_refl m hq
  | cons x rest ih =>
    obtain ⟨topic, payload⟩ := x
    have h1 := handleMessage_quiet P now m topic payload hq
    exact quiet_trans h1 (ih _ h1.2)

theorem outgoingLoop_quiet (P : Platform τ) (now : Nat) (budget : Nat) (m : MQTTManager τ)
    (hq : queuedOn MQTT_DISCOVERY_TOPIC m.outgoingQueue = []) :
    Quiet m (outgoingLoop P now budget m) := by
  induction budget generalizing m with
  | zero => exact quiet_refl m hq
  | succ b ih =>
    unfold outgoingLoop
    split
    · exact quiet_refl m hq
    · rename_i msg rest hmsg
      have ht : msg.topic ≠ MQTT_DISCOVERY_TOPIC := by
        rw [hmsg] at hq
        exact queuedOn_head _ _ _ hq
      have h1 := publish_quiet P now m msg.topic msg.payload msg.retained hq ht
      simp only
      split
      · have h2 : Quiet m
            { (MQTTManager.publish P now m msg.topic msg.payload msg.retained).2 with
              outgoingQueue :=
                (MQTTManager.publish P now m msg.topic msg.payload
                  msg.retained).2.outgoingQueue.drop 1 } :=
          ⟨h1.1, queuedOn_drop _ _ 1 h1.2⟩
        exact quiet_trans h2 (ih _ h2.2)
      · exact h1

theorem processOutgoingQueue_quiet (P : Platform τ) (now : Nat) (m : MQTTManager τ)
    (hq : queuedOn MQTT_DISCOVERY_TOPIC m.outgoingQueue = []) :
    Quiet m (MQTTManager.processOutgoingQueue P now m) := by
  unfold MQTTManager.processOutgoingQueue
  split
  · exact quiet_refl m hq
  · simp only
    split
    · exact ⟨⟨[], by simp, rfl⟩, hq⟩
    · have h0 : Quiet m { m with mqttClient := (P.connected m.mqttClient).2 } :=
        ⟨⟨[], by simp, rfl⟩, hq⟩
      exact quiet_trans h0 (outgoingLoop_quiet P now 5 _ hq)

/-- What `broadcastDiscovery` announces: its document, once and non-retained, sent or
left in the outgoing queue. -/
theorem broadcastDiscovery_announces (P : Platform τ) (now : Nat) (x : MQTTManager τ)
    (hq : queuedOn MQTT_DISCOVERY_TOPIC x.outgoingQueue = []) :
    ∃ l, (MQTTManager.broadcastDiscovery P now x).trace = x.trace ++ l ∧
      wiredOn MQTT_DISCOVERY_TOPIC l ++
          queuedOn MQTT_DISCOVERY_TOPIC (MQTTManager.broadcastDiscovery P now x).outgoingQueue =
        [(P.serializeJson (discoveryDoc P x), false)] := by
  cases hc : (P.connected x.mqttClient).1 with
  | false =>
    refine ⟨[], ?_, ?_⟩
    · simp [MQTTManager.broadcastDiscovery, MQTTManager.publishJson, MQTTManager.publish, hc]
    · have hqq : (MQTTManager.broadcastDiscovery P now x).outgoingQueue = x.outgoingQueue ++
          [{ topic := MQTT_DISCOVERY_TOPIC, payload := P.serializeJson (discoveryDoc P x),
             qos := 0, retained := false, timestamp := now }] := by
        simp [MQTTManager.broadcastDiscovery, MQTTManager.publishJson, MQTTManager.publish, hc]
      rw [hqq, queuedOn_append, hq]
      simp [wiredOn]
  | true =>
    refine ⟨[Effect.wire MQTT_DISCOVERY_TOPIC (P.serializeJson (discoveryDoc P x)) false
          (P.publish MQTT_DISCOVERY_TOPIC (P.serializeJson (discoveryDoc P x)) false
            (P.connected x.mqttClient).2).1], ?_, ?_⟩
    · simp [MQTTManager.broadcastDiscovery, MQTTManager.publishJson, MQTTManager.publish, hc]
    · have hqq : (MQTTManager.broadcastDiscovery P now x).outgoingQueue = x.outgoingQueue := by
        simp [MQTTManager.broadcastDiscovery, MQTTManager.publishJson, MQTTManager.publish, hc]
      rw [hqq, hq]
      simp [wiredOn]

theorem wiredOn_connections (topic : Str) (cbs : List Nat) (b : Bool) :
    wiredOn topic (cbs.map (fun cb => Effect.connection cb b)) = [] := by
  apply wiredOn_eq_nil
  intro e he p r ok hw
  obtain ⟨cb, _, hcb⟩ := List.mem_map.1 he
  rw [← hcb] at hw
  cases hw

/-- The steps of `connect` after the transport accepted the connection announce the node
once when auto-discovery is on, and not at all when it is off. -/
theorem afterLink_announces (P : Platform τ) (now : Nat) (m1 : MQTTManager τ)
    (hq : queuedOn MQTT_DISCOVERY_TOPIC m1.outgoingQueue = []) :
    ∃ l, ∃ x : MQTTManager τ, x.nodeId = m1.nodeId ∧
      (afterLink P now m1).trace = m1.trace ++ l ∧
      wiredOn MQTT_DISCOVERY_TOPIC l ++
          queuedOn MQTT_DISCOVERY_TOPIC (afterLink P now m1).outgoingQueue =
        if m1.autoDiscovery = true then [(P.serializeJson (discoveryDoc P x), false)]
        else [] := by
  have q2 : Quiet m1 (MQTTManager.publishStatus P now m1 "online".toList).2 :=
    publish_quiet P now m1 _ _ true hq (status_topic_ne _)
  have f2 := publishStatus_framed P now m1 "online".toList
  have q3 := quiet_trans q2 (subscribe_quiet P _
    (buildTopic ("cmd/".toList ++
      (MQTTManager.publishStatus P now m1 "online".toList).2.nodeId ++ "/#".toList)) 0 q2.2)
  have f3 := framed_trans f2 (subscribe_framed P _
    (buildTopic ("cmd/".toList ++
      (MQTTManager.publishStatus P now m1 "online".toList).2.nodeId ++ "/#".toList)) 0)
  have q4 := quiet_trans q3 (subscribe_quiet P _ (buildTopic "cmd/all/#".toList) 0 q3.2)
  have f4 := framed_trans f3 (subscribe_framed P _ (buildTopic "cmd/all/#".toList) 0)
  have q5 := quiet_trans q4 (subscribe_quiet P _ MQTT_DISCOVERY_TOPIC 0 q4.2)
  have f5 := framed_trans f4 (subscribe_framed P _ MQTT_DISCOVERY_TOPIC 0)
  obtain ⟨⟨l, ht, hw⟩, hq5⟩ := q5
  have hauto := f5.2.2.1
  have hid := f5.2.1
  unfold afterLink
  simp only
  split
  · rename_i hon
    obtain ⟨l', ht', hw'⟩ := broadcastDiscovery_announces P now _ hq5
    refine ⟨l ++ l', _, hid, ?_, ?_⟩
    · rw [ht', ht, List.append_assoc]
    · rw [wiredOn_append, hw, List.nil_append, hw', if_pos (hauto ▸ hon)]
  · rename_i hoff
    refine ⟨l, m1, rfl, ht, ?_⟩
    rw [hw, hq5, if_neg (fun h => hoff (hauto ▸ h))]
    rfl

/-- The announcements of `connect(id)`: one when it succeeds with auto-discovery on, and
none otherwise. -/
theorem connectAs_announces (P : Platform τ) (now : Nat) (m : MQTTManager τ) (id : Str)
    (hq : queuedOn MQTT_DISCOVERY_TOPIC m.outgoingQueue = []) :
    ∃ l, ∃ x : MQTTManager τ, x.nodeId = m.nodeId ∧
      (MQTTManager.connectAs P now m id).2.trace = m.trace ++ l ∧
      wiredOn MQTT_DISCOVERY_TOPIC l ++
          queuedOn MQTT_DISCOVERY_TOPIC (MQTTManager.connectAs P now m id).2.outgoingQueue =
        if (MQTTManager.connectAs P now m id).1 = true ∧ m.autoDiscovery = true then
          [(P.serializeJson (discoveryDoc P x), false)]
        else [] := by
  by_cases hwifi : P.wifiConnected m.mqttClient = true
  · by_cases hr : (linkAttempt P m id).1 = true
    · obtain ⟨l, x, hx, ht, hw⟩ := afterLink_announces P now
        { m with mqttClient := (linkAttempt P m id).2, state := .MQTT_CONNECTED } hq
      have hca := connectAs_accepted P now m id hwifi hr
      have htr : (MQTTManager.connectAs P now m id).2.trace =
          (afterLink P now
            { m with mqttClient := (linkAttempt P m id).2, state := .MQTT_CONNECTED }).trace ++
          (afterLink P now
            { m with mqttClient := (linkAttempt P m id).2,
                     state := .MQTT_CONNECTED }).connectionCallbacks.map
            (fun cb => Effect.connection cb true) := by
        rw [hca]
      have hqu : (MQTTManager.connectAs P now m id).2.outgoingQueue =
          (afterLink P now
            { m with mqttClient := (linkAttempt P m id).2,
                     state := .MQTT_CONNECTED }).outgoingQueue := by
        rw [hca]
      have h1 : (MQTTManager.connectAs P now m id).1 = true := by
        rw [hca]
      refine ⟨l ++ (afterLink P now
            { m with mqttClient := (linkAttempt P m id).2,
                     state := .MQTT_CONNECTED }).connectionCallbacks.map
            (fun cb => Effect.connection cb true), x, hx, ?_, ?_⟩
      · rw [htr, ht, List.append_assoc]
      · rw [hqu, wiredOn_append, wiredOn_connections, List.append_nil, hw]
        simp only [h1, true_and]
    · have hr' : (linkAttempt P m id).1 = false := by
        cases h : (linkAttempt P m id).1
        · rfl
        · exact absurd h hr
      rw [connectAs_refused P now m id hwifi hr']
      refine ⟨_, m, rfl, rfl, ?_⟩
      rw [wiredOn_connections]
      simp only [Bool.false_eq_true, false_and, if_false, List.nil_append]
      exact hq
  · have hwifi' : P.wifiConnected m.mqttClient = false := by
      cases h : P.wifiConnected m.mqttClient
      · rfl
      · exact absurd h hwifi
    rw [connectAs_no_wifi P now m id hwifi']
    refine ⟨[], m, rfl, by simp, ?_⟩
    simp only [Bool.false_eq_true, false_and, if_false, List.nil_append]
    exact hq

/-- The announcements of a tick that finds the transport connected: one when
auto-discovery is on and the last broadcast is more than 300000 ms old, none otherwise. -/
theorem loop_connected_announces (P : Platform τ) (now : Nat) (m : MQTTManager τ)
    (hq : queuedOn MQTT_DISCOVERY_TOPIC m.outgoingQueue = [])
    (hup : (P.connected m.mqttClient).1 = true) :
    ∃ l, ∃ x : MQTTManager τ, x.nodeId = m.nodeId ∧
      (MQTTManager.loop P now m).trace = m.trace ++ l ∧
      wiredOn MQTT_DISCOVERY_TOPIC l ++
          queuedOn MQTT_DISCOVERY_TOPIC (MQTTManager.loop P now m).outgoingQueue =
        if m.autoDiscovery = true ∧ sub32 now m.lastDiscoveryBroadcast > 300000 then
          [(P.serializeJson (discoveryDoc P x), false)]
        else [] := by
  obtain ⟨m3, hst, hfr, hm3, hloop⟩ := loop_connected_eq P now m hup
  have hq3 : Quiet m m3 := by
    rw [hm3]
    have h0 : Quiet m { m with mqttClient := (P.poll (P.connected m.mqttClient).2).2 } :=
      ⟨⟨[], by simp, rfl⟩, hq⟩
    have h1 := quiet_trans h0 (handleAll_quiet P now (P.poll (P.connected m.mqttClient).2).1 _ hq)
    have h2 := quiet_trans h1 (processOutgoingQueue_quiet P now _ h1.2)
    exact ⟨h2.1, h2.2⟩
  have key : ∀ m4 : MQTTManager τ, Quiet m m4 → m4.autoDiscovery = m.autoDiscovery →
      m4.lastDiscoveryBroadcast = m.lastDiscoveryBroadcast → m4.nodeId = m.nodeId →
      ∃ l, ∃ x : MQTTManager τ, x.nodeId = m.nodeId ∧
        (MQTTManager.pruneStale now
          (if m4.autoDiscovery && decide (sub32 now m4.lastDiscoveryBroadcast > 300000) then
            MQTTManager.broadcastDiscovery P now m4 else m4)).trace = m.trace ++ l ∧
        wiredOn MQTT_DISCOVERY_TOPIC l ++
            queuedOn MQTT_DISCOVERY_TOPIC (MQTTManager.pruneStale now
              (if m4.autoDiscovery && decide (sub32 now m4.lastDiscoveryBroadcast > 300000) then
                MQTTManager.broadcastDiscovery P now m4 else m4)).outgoingQueue =
          if m.autoDiscovery = true ∧ sub32 now m.lastDiscoveryBroadcast > 300000 then
            [(P.serializeJson (discoveryDoc P x), false)]
          else [] := by
    intro m4 hq4 ha hd hn
    obtain ⟨⟨l, ht, hw⟩, hq4'⟩ := hq4
    rw [ha, hd]
    by_cases hc : m.autoDiscovery = true ∧ sub32 now m.lastDiscoveryBroadcast > 300000
    · obtain ⟨l', ht', hw'⟩ := broadcastDiscovery_announces P now m4 hq4'
      have hcond : (m.autoDiscovery &&
          decide (sub32 now m.lastDiscoveryBroadcast > 300000)) = true := by
        simp [hc.1, hc.2]
      rw [if_pos hcond]
      refine ⟨l ++ l', m4, hn, ?_, ?_⟩
      · show (MQTTManager.broadcastDiscovery P now m4).trace = _
        rw [ht', ht, List.append_assoc]
      · show wiredOn MQTT_DISCOVERY_TOPIC (l ++ l') ++
          queuedOn MQTT_DISCOVERY_TOPIC (MQTTManager.broadcastDiscovery P now m4).outgoingQueue = _
        rw [wiredOn_append, hw, List.nil_append, hw', if_pos hc]
    · have hcond : ¬ (m.autoDiscovery &&
          decide (sub32 now m.lastDiscoveryBroadcast > 300000)) = true := by
        simpa using hc
      rw [if_neg hcond]
      refine ⟨l, m, rfl, ht, ?_⟩
      show wiredOn MQTT_DISCOVERY_TOPIC l ++ queuedOn MQTT_DISCOVERY_TOPIC m4.outgoingQueue = _
      rw [hw, hq4', if_neg hc]
      rfl
  rw [hloop]
  apply key
  · split
    · have h0 : Quiet m3 (MQTTManager.sendHeartbeat P now m3) :=
        publish_quiet P now m3 _ _ false hq3.2 (heartbeat_topic_ne m3.nodeId)
      have h1 := quiet_trans hq3 h0
      exact ⟨h1.1, h1.2⟩
    · exact hq3
  · split
    · exact (sendHeartbeat_sameTimers P now m3).1.trans hst.1
    · exact hst.1
  · split
    · exact (sendHeartbeat_sameTimers P now m3).2.2.trans hst.2.2
    · exact hst.2.2
  · split
    · exact (sendHeartbeat_framed P now m3).2.1.trans hfr.2.1
    · exact hfr.2.1

/-- A tick that finds the transport disconnected announces nothing while auto-discovery
is off. -/
theorem loop_disconnected_silent (P : Platform τ) (now : Nat) (m : MQTTManager τ)
    (hq : queuedOn MQTT_DISCOVERY_TOPIC m.outgoingQueue = [])
    (hdown : (P.connected m.mqttClient).1 = false) (hoff : m.autoDiscovery = false) :
    ∃ l, (MQTTManager.loop P now m).trace = m.trace ++ l ∧
      wiredOn MQTT_DISCOVERY_TOPIC l ++
        queuedOn MQTT_DISCOVERY_TOPIC (MQTTManager.loop P now m).outgoingQueue = [] := by
  by_cases hidle : (P.connected (P.connected m.mqttClient).2).1 = true ∨
      ¬ sub32 now m.lastReconnectAttempt > MQTT_RECONNECT_DELAY
  · rw [loop_idle P now m hdown hidle]
    exact ⟨[], by simp, hq⟩
  · have h2 : (P.connected (P.connected m.mqttClient).2).1 = false := by
      cases h : (P.connected (P.connected m.mqttClient).2).1
      · rfl
      · exact absurd (Or.inl h) hidle
    have hdue : sub32 now m.lastReconnectAttempt > MQTT_RECONNECT_DELAY := by
      by_contra h
      exact hidle (Or.inr h)
    rw [loop_attempt P now m hdown h2 hdue]
    obtain ⟨l, x, _, ht, hw⟩ := connectAs_announces P now
      { m with mqttClient := (P.connected (P.connected m.mqttClient).2).2,
               lastReconnectAttempt := now } m.clientId hq
    refine ⟨l, ht, ?_⟩
    rw [show (MQTTManager.connect P now
      { m with mqttClient := (P.connected (P.connected m.mqttClient).2).2,
               lastReconnectAttempt := now }) = MQTTManager.connectAs P now
      { m with mqttClient := (P.connected (P.connected m.mqttClient).2).2,
               lastReconnectAttempt := now } m.clientId from rfl, hw]
    simp [hoff]

set_option maxRecDepth 100000 in
/-- C26 (counterexample): the connect at time 0 succeeded with auto-discovery on, but the
transport reported disconnected when the discovery announcement was published, so that
nothing was sent on the discovery topic and the announcement was queued; auto-discovery
was then switched off. The tick at time 100 finds the transport connected and sends the
queued announcement on the discovery topic, with the flag off. -/
theorem C26_queued_announcement_sent_while_disabled :
    (MQTTManager.connect scripted 0
      { coordinator with
        mqttClient := List.replicate 9 true ++ [false] ++ List.replicate 4 true }).1 = true ∧
    coordinator.autoDiscovery = true ∧
    wiredOn MQTT_DISCOVERY_TOPIC
      (MQTTManager.connect scripted 0
        { coordinator with
          mqttClient := List.replicate 9 true ++ [false] ++ List.replicate 4 true }).2.trace =
      [] ∧
    announcementQueued.autoDiscovery = false ∧
    announcementQueued.outgoingQueue.map MQTTMessage.topic = ["luces/discovery".toList] ∧
    (scripted.connected announcementQueued.mqttClient).1 = true ∧
    wireTopics (newEffects announcementQueued
      (MQTTManager.loop scripted 100 announcementQueued)) = ["luces/discovery".toList] ∧
    (wiredOn MQTT_DISCOVERY_TOPIC (newEffects announcementQueued
      (MQTTManager.loop scripted 100 announcementQueued))).length = 1 ∧
    (MQTTManager.loop scripted 100 announcementQueued).outgoingQueue = [] ∧
    (MQTTManager.loop scripted 100 announcementQueued).mqttClient = [] := by
  decide

/-- C26 (amended): discovery announcements are gated by the enable flag when none is
waiting in the outgoing queue. Take a manager with no entry for the discovery topic in
its outgoing queue, and count as announcements of a call the sends on the discovery topic
it makes and the entries for that topic it leaves in the queue. With auto-discovery off,
`connect` and `loop` announce nothing. With auto-discovery on, a successful `connect`
announces the node exactly once, not retained, and a `loop` that finds the transport
connected announces it exactly once, not retained, when more than 300000 ms passed since
the last broadcast, and not at all otherwise. -/
theorem C26_discovery_gated_by_flag (P : Platform τ) (now : Nat) (m : MQTTManager τ)
    (hq : queuedOn MQTT_DISCOVERY_TOPIC m.outgoingQueue = []) :
    (m.autoDiscovery = false →
      announcements m (MQTTManager.connect P now m).2 = [] ∧
      announcements m (MQTTManager.loop P now m) = []) ∧
    (m.autoDiscovery = true → (MQTTManager.connect P now m).1 = true →
      ∃ x : MQTTManager τ, x.nodeId = m.nodeId ∧
        announcements m (MQTTManager.connect P now m).2 =
          [(P.serializeJson (discoveryDoc P x), false)]) ∧
    (m.autoDiscovery = true → (P.connected m.mqttClient).1 = true →
      ∃ x : MQTTManager τ, x.nodeId = m.nodeId ∧
        announcements m (MQTTManager.loop P now m) =
          if sub32 now m.lastDiscoveryBroadcast > 300000 then
            [(P.serializeJson (discoveryDoc P x), false)]
          else []) := by
  refine ⟨?_, ?_, ?_⟩
  · intro hoff
    constructor
    · obtain ⟨l, x, _, ht, hw⟩ := connectAs_announces P now m m.clientId hq
      unfold announcements MQTTManager.connect
      rw [newEffects_of_append m _ l ht, hw]
      simp [hoff]
    · by_cases hup : (P.connected m.mqttClient).1 = true
      · obtain ⟨l, x, _, ht, hw⟩ := loop_connected_announces P now m hq hup
        unfold announcements
        rw [newEffects_of_append m _ l ht, hw]
        simp [hoff]
      · have hdown : (P.connected m.mqttClient).1 = false := by
          cases h : (P.connected m.mqttClient).1
          · rfl
          · exact absurd h hup
        obtain ⟨l, ht, hw⟩ := loop_disconnected_silent P now m hq hdown hoff
        unfold announcements
        rw [newEffects_of_append m _ l ht, hw]
  · intro hon hok
    obtain ⟨l, x, hx, ht, hw⟩ := connectAs_announces P now m m.clientId hq
    refine ⟨x, hx, ?_⟩
    unfold announcements
    unfold MQTTManager.connect at hok ⊢
    rw [newEffects_of_append m _ l ht, hw, if_pos ⟨hok, hon⟩]
  · intro hon hup
    obtain ⟨l, x, hx, ht, hw⟩ := loop_connected_announces P now m hq hup
    refine ⟨x, hx, ?_⟩
    unfold announcements
    rw [newEffects_of_append m _ l ht, hw]
    simp only [hon, true_and]

set_option maxRecDepth 100000 in
/-- Witness for C26: the first connect of the coordinator announces it once; the tick at
time 300001, more than 300000 ms after that broadcast at time 0, announces it again, and
the tick at time 1000 does not; with auto-discovery switched off the tick at time 300001
announces nothing. -/
theorem C26_discovery_gated_by_flag_witness :
    queuedOn MQTT_DISCOVERY_TOPIC offlineCoordinator.outgoingQueue = [] ∧
    (∃ x : MQTTManager Bool, x.nodeId = "CENTRAL".toList ∧
      announcements offlineCoordinator (MQTTManager.connect switched 0 offlineCoordinator).2 =
        [(switched.serializeJson (discoveryDoc switched x), false)]) ∧
    (announcements connectedOnce (MQTTManager.loop switched 300001 connectedOnce)).length = 1 ∧
    (announcements connectedOnce (MQTTManager.loop switched 1000 connectedOnce)).length = 0 ∧
    silentCoordinator.autoDiscovery = false ∧
    announcements silentCoordinator (MQTTManager.loop switched 300001 silentCoordinator) = [] :=
  ⟨rfl,
   (C26_discovery_gated_by_flag switched 0 offlineCoordinator rfl).2.1 rfl rfl,
   by decide, by decide, rfl,
   ((C26_discovery_gated_by_flag switched 300001 silentCoordinator rfl).1 rfl).2⟩

theorem recording_linkUp (P : Platform τ) (Up : τ → Prop) (hUp : LinkUp P Up) :
    LinkUp (recording P) (fun w => Up w.1) :=
  { connected := fun w h => hUp.connected w.1 h
    publish := fun t p r w h => hUp.publish t p r w.1 h
    subscribe := fun t q w h => hUp.subscribe t q w.1 h
    poll := fun w h => hUp.poll w.1 h }

/-- On the recording platform, `publish` on a connected transport adds its message to the
record of sends. -/
theorem publish_recorded (P : Platform τ) (now : Nat)
    (m : MQTTManager (τ × List (Str × Str × Bool))) (topic payload : Str) (retained : Bool)
    (hc : (P.connected m.mqttClient.1).1 = true) :
    (MQTTManager.publish (recording P) now m topic payload retained).2.mqttClient.2 =
      m.mqttClient.2 ++ [(topic, payload, retained)] := by
  simp [MQTTManager.publish, recording, hc]

/-- On the recording platform, `publish` only adds to the record of sends. -/
theorem publish_record_grows (P : Platform τ) (now : Nat)
    (m : MQTTManager (τ × List (Str × Str × Bool))) (topic payload : Str) (retained : Bool) :
    ∃ l, (MQTTManager.publish (recording P) now m topic payload retained).2.mqttClient.2 =
      m.mqttClient.2 ++ l := by
  cases hc : (P.connected m.mqttClient.1).1 with
  | false => exact ⟨[], by simp [MQTTManager.publish, recording, hc]⟩
  | true => exact ⟨_, publish_recorded P now m topic payload retained hc⟩

/-- While the link is up, the flush of a queue of one entry is the `publish` of that
entry. -/
theorem flush_single_eq (P : Platform τ) (Up : τ → Prop) (hUp : LinkUp P Up) (now : Nat)
    (m : MQTTManager τ) (e : MQTTMessage) (h : Up m.mqttClient)
    (hq : m.outgoingQueue = [e]) :
    MQTTManager.processOutgoingQueue P now m =
      { (MQTTManager.publish P now { m with mqttClient := (P.connected m.mqttClient).2 }
          e.topic e.payload e.retained).2 with outgoingQueue := [] } := by
  obtain ⟨c1, c2⟩ := hUp.connected _ h
  have hne : m.outgoingQueue.isEmpty = false := by rw [hq]; rfl
  have hrun : MQTTManager.processOutgoingQueue P now m =
      outgoingLoop P now 5 { m with mqttClient := (P.connected m.mqttClient).2 } := by
    simp only [MQTTManager.processOutgoingQueue, hne, Bool.false_eq_true, if_false, c1,
      Bool.not_true]
  have h5 : outgoingLoop P now 5 { m with mqttClient := (P.connected m.mqttClient).2 } =
      { (MQTTManager.publish P now { m with mqttClient := (P.connected m.mqttClient).2 }
          e.topic e.payload e.retained).2 with outgoingQueue := [] } :=
    outgoingLoop_single_up P Up hUp now 4 _ e c2 hq
  rw [hrun, h5]

/-- On the recording platform with the link up, a tick on a queue of one entry hands that
entry to the transport before anything else. -/
theorem loop_flush_recorded (P : Platform τ) (Up : τ → Prop) (hUp : LinkUp P Up) (now : Nat)
    (m : MQTTManager (τ × List (Str × Str × Bool))) (e : MQTTMessage)
    (h : Up m.mqttClient.1) (hq : m.outgoingQueue = [e]) :
    ∃ later, (MQTTManager.loop (recording P) now m).mqttClient.2 =
      m.mqttClient.2 ++ (e.topic, e.payload, e.retained) :: later := by
  have hR := recording_linkUp P Up hUp
  obtain ⟨c1, c2⟩ := hR.connected _ h
  have c3 := hR.poll _ c2
  obtain ⟨w1, q1⟩ := handleAll_transport (recording P) now
    ((recording P).poll ((recording P).connected m.mqttClient).2).1
    { m with mqttClient := ((recording P).poll ((recording P).connected m.mqttClient).2).2 }
  obtain ⟨m3, _, _, hm3, hloop⟩ := loop_connected_eq (recording P) now m c1
  have hflush := flush_single_eq (recording P) (fun w => Up w.1) hR now
    (handleAll (recording P) now
      { m with mqttClient := ((recording P).poll ((recording P).connected m.mqttClient).2).2 }
      ((recording P).poll ((recording P).connected m.mqttClient).2).1) e
    (by rw [w1]; exact c3) (by rw [q1]; exact hq)
  have hlog3 : m3.mqttClient.2 = m.mqttClient.2 ++ [(e.topic, e.payload, e.retained)] := by
    rw [hm3]
    show (MQTTManager.processOutgoingQueue (recording P) now _).mqttClient.2 = _
    rw [hflush]
    show (MQTTManager.publish (recording P) now _ e.topic e.payload e.retained).2.mqttClient.2 = _
    rw [publish_recorded P now _ e.topic e.payload e.retained
      (by
        show (P.connected ((recording P).connected (handleAll (recording P) now _ _).mqttClient).2.1).1 = true
        rw [w1]
        exact (hUp.connected _ (hUp.connected _ c3).2).1)]
    show ((recording P).connected (handleAll (recording P) now _ _).mqttClient).2.2 ++ _ = _
    rw [w1]
    rfl
  have hb : ∀ x : MQTTManager (τ × List (Str × Str × Bool)),
      ∃ l, (if sub32 now x.lastHeartbeat > 30000 then
        { MQTTManager.sendHeartbeat (recording P) now x with lastHeartbeat := now }
        else x).mqttClient.2 = x.mqttClient.2 ++ l := by
    intro x
    split
    · exact publish_record_grows P now x _ _ _
    · exact ⟨[], by simp⟩
  have hd : ∀ y : MQTTManager (τ × List (Str × Str × Bool)),
      ∃ l, (if (y.autoDiscovery && decide (sub32 now y.lastDiscoveryBroadcast > 300000)) = true
        then MQTTManager.broadcastDiscovery (recording P) now y else y).mqttClient.2 =
        y.mqttClient.2 ++ l := by
    intro y
    split
    · exact publish_record_grows P now y _ _ _
    · exact ⟨[], by simp⟩
  obtain ⟨l1, e1⟩ := hb m3
  obtain ⟨l2, e2⟩ := hd (if sub32 now m3.lastHeartbeat > 30000 then
        { MQTTManager.sendHeartbeat (recording P) now m3 with lastHeartbeat := now }
        else m3)
  refine ⟨l1 ++ l2, ?_⟩
  rw [hloop]
  show (if _ then _ else _ : MQTTManager (τ × List (Str × Str × Bool))).mqttClient.2 = _
  rw [e2, e1, hlog3]
  simp

/-- C11: `sendCommandToNode` on a disconnected transport with an empty queue returns
`false`, hands nothing to the transport and leaves one queue entry: its topic is
`luces/cmd/<nodeId>` and its payload the encoded envelope with the fields `from` (this
node), `command`, `params` and `timestamp`. When afterwards, in a world `w`, a reconnect
succeeds and brings up a link that stays up and accepts every send, the reconnect returns
`true`, and after one tick the queue is empty and the transport has been called with that
topic and payload, not retained, as the first send of the tick. The calls of
`mqttClient.publish` are read off the record kept by the platform `recording P`. -/
theorem C11_queued_command_flushed_after_reconnect (P : Platform τ) (Up : τ → Prop)
    (hUp : LinkUp P Up) (t1 t2 t3 : Nat) (m : MQTTManager (τ × List (Str × Str × Bool)))
    (nodeId command : Str) (params : Json) (w : τ × List (Str × Str × Bool))
    (hdown : (P.connected m.mqttClient.1).1 = false)
    (hempty : m.outgoingQueue = [])
    (hstill : (P.connected w.1).1 = false)
    (hdue : sub32 t2 m.lastReconnectAttempt > MQTT_RECONNECT_DELAY)
    (hwifi : P.wifiConnected (P.connected w.1).2 = true)
    (hlink : ∀ id cred wt q r wm,
      (P.connect id cred wt q r wm (P.connected w.1).2).1 = true ∧
      Up (P.connect id cred wt q r wm (P.connected w.1).2).2) :
    let queued := MQTTManager.sendCommandToNode (recording P) t1 m nodeId command params
    let entry : MQTTMessage :=
      { topic := "luces/cmd/".toList ++ nodeId,
        payload := P.serializeJson
          (.obj (.cons "from".toList (.str m.nodeId) (.cons "command".toList (.str command)
            (.cons "params".toList params (.cons "timestamp".toList (.int t1) .nil))))),
        qos := 0, retained := false, timestamp := t1 }
    let back := MQTTManager.reconnect (recording P) t2 { queued.2 with mqttClient := w }
    let flushed := MQTTManager.loop (recording P) t3 back.2
    queued.1 = false ∧ queued.2.outgoingQueue = [entry] ∧
    queued.2.mqttClient.2 = m.mqttClient.2 ∧ back.1 = true ∧
    flushed.outgoingQueue = [] ∧
    ∃ later, flushed.mqttClient.2 =
      back.2.mqttClient.2 ++ ("luces/cmd/".toList ++ nodeId, entry.payload, false) :: later := by
  intro queued entry back flushed
  obtain ⟨g1, g2, g3, g4, g5, g6, g7, _⟩ := queued_command_flushed (recording P)
    (fun x => Up x.1) (recording_linkUp P Up hUp) t1 t2 t3 m nodeId command params w
    hdown hempty hstill hdue hwifi hlink
  refine ⟨g1, g2, ?_, g4, g7, ?_⟩
  · show queued.2.mqttClient.2 = _
    rw [g3]
    rfl
  · exact loop_flush_recorded P Up hUp t3 back.2 entry g5 g6

set_option maxRecDepth 100000 in
/-- Witness for C11: the coordinator sends `on` with `brightness: 80` to `LUM_7` at time
10 while the link is down; the link comes up with the reconnect at time 6000, which sends
the status and the discovery announcement, and the tick at time 6010 sends the command. -/
theorem C11_queued_command_flushed_after_reconnect_witness :
    LinkUp switched (fun w => w = true) ∧
    (switched.connected recordedCoordinator.mqttClient.1).1 = false ∧
    (MQTTManager.sendCommandToNode (recording switched) 10 recordedCoordinator
      "LUM_7".toList "on".toList brightness80).1 = false ∧
    (MQTTManager.sendCommandToNode (recording switched) 10 recordedCoordinator
      "LUM_7".toList "on".toList brightness80).2.outgoingQueue =
      [{ topic := "luces/cmd/LUM_7".toList,
         payload := ("\x7b\"from\":\"CENTRAL\",\"command\":\"on\"," ++
           "\"params\":\x7b\"brightness\":80\x7d,\"timestamp\":10\x7d").toList,
         qos := 0, retained := false, timestamp := 10 }] ∧
    (MQTTManager.loop (recording switched) 6010
      (MQTTManager.reconnect (recording switched) 6000
        { (MQTTManager.sendCommandToNode (recording switched) 10 recordedCoordinator
            "LUM_7".toList "on".toList brightness80).2 with
          mqttClient := (false, []) }).2).outgoingQueue = [] ∧
    (MQTTManager.loop (recording switched) 6010
      (MQTTManager.reconnect (recording switched) 6000
        { (MQTTManager.sendCommandToNode (recording switched) 10 recordedCoordinator
            "LUM_7".toList "on".toList brightness80).2 with
          mqttClient := (false, []) }).2).mqttClient.2.map (fun c => (c.1, c.2.2)) =
      [("luces/status/CENTRAL".toList, true), ("luces/discovery".toList, false),
       ("luces/cmd/LUM_7".toList, false)] ∧
    (MQTTManager.loop (recording switched) 6010
      (MQTTManager.reconnect (recording switched) 6000
        { (MQTTManager.sendCommandToNode (recording switched) 10 recordedCoordinator
            "LUM_7".toList "on".toList brightness80).2 with
          mqttClient := (false, []) }).2).mqttClient.2.getLast? =
      some ("luces/cmd/LUM_7".toList,
        ("\x7b\"from\":\"CENTRAL\",\"command\":\"on\"," ++
          "\"params\":\x7b\"brightness\":80\x7d,\"timestamp\":10\x7d").toList, false) :=
  have h := C11_queued_command_flushed_after_reconnect switched (fun w => w = true)
    switched_linkUp 10 6000 6010 recordedCoordinator "LUM_7".toList "on".toList brightness80
    (false, []) rfl rfl rfl (by decide) rfl (fun _ _ _ _ _ _ => ⟨rfl, rfl⟩)
  ⟨switched_linkUp, rfl, h.1, by decide, h.2.2.2.2.1, by decide, by decide⟩

end Theorems

end ControlDeLuces
